import Mathlib

/-!
# Maneuver building (valhalla odin): a shallow embedding

The definitions below follow `src/odin/maneuversbuilder.cc` function by
function.  A C++ reference parameter `Maneuver&` becomes an argument and a
returned value; a thrown `std::runtime_error` and the dereference of a null
edge pointer become the two error results of `Except Err`.  A guarded setter
`if (c) m.set_f(v);` becomes the update of field `f` to
`if c then v else m.f`.

The date-time helpers of `valhalla/baldr/datetime.h` and
`src/baldr/datetime.cc` follow the maneuver model, in the namespaces
`Midgard` and `Baldr.DateTime`, and the pedestrian costing of
`src/sif/pedestriancost.cc` in the namespace `Sif`; their theorems close the
file.
-/

namespace Valhalla
namespace Odin

/-- The maneuver kinds of `TripDirections_Maneuver_Type` used by the builder. -/
inductive ManeuverType
  | kNone | kStart | kDestination | kContinue
  | kSlightRight | kRight | kSharpRight | kUturnRight
  | kUturnLeft | kSharpLeft | kLeft | kSlightLeft
  | kRampStraight | kRampRight | kRampLeft
  | kExitRight | kExitLeft | kMerge
  | kRoundaboutEnter | kRoundaboutExit | kFerryEnter | kFerryExit
  deriving DecidableEq, Repr

/-- The values of `Maneuver::RelativeDirection`. -/
inductive RelativeDirection
  | kNone | kKeepStraight | kKeepRight | kRight | KReverse | kLeft | kKeepLeft
  deriving DecidableEq, Repr

/-- The values of `TripDirections_Maneuver_CardinalDirection`. -/
inductive CardinalDirection
  | kNorth | kNorthEast | kEast | kSouthEast
  | kSouth | kSouthWest | kWest | kNorthWest
  deriving DecidableEq, Repr

/-- The eight buckets of `baldr::Turn::Type`. -/
inductive TurnType
  | kStraight | kSlightRight | kRight | kSharpRight
  | kReverse | kSharpLeft | kLeft | kSlightLeft
  deriving DecidableEq, Repr

/-- The two ways a call can fail: a thrown `std::runtime_error` carrying its
message, and the dereference of a null edge or node pointer.  The third value
is the fuel bound of the model of the `while` loop of `Combine`; it is proved
unreachable. -/
inductive Err
  | runtime_error (what : String)
  | null_dereference
  | fuel_exhausted
  deriving DecidableEq, Repr

/-- The four sign lists of an edge (`TripPath_Sign`) and of a maneuver
(`odin::Signs`). -/
structure Signs where
  exit_number : List String := []
  exit_branch : List String := []
  exit_toward : List String := []
  exit_name : List String := []
  deriving DecidableEq, Repr

/-- Modelled from the spec: the edge attributes the builder reads
(`EnhancedTripPath_Edge`, declared outside the given sources): heading pair,
length, speed, flags, signage, names.  `IsHighway` is the result of the
edge method of that name. -/
structure Edge where
  name : List String := []
  length : Nat := 0
  speed : Nat := 0
  begin_heading : Nat := 0
  end_heading : Nat := 0
  begin_shape_index : Nat := 0
  end_shape_index : Nat := 0
  ramp : Bool := false
  turn_channel : Bool := false
  ferry : Bool := false
  rail_ferry : Bool := false
  roundabout : Bool := false
  internal_intersection : Bool := false
  toll : Bool := false
  unpaved : Bool := false
  IsHighway : Bool := false
  has_sign : Bool := false
  sign : Signs := {}
  deriving DecidableEq, Repr

/-- The four counts written by
`EnhancedTripPath_Node::CalculateRightLeftIntersectingEdgeCounts`. -/
structure IntersectingEdgeCounts where
  right_count : Nat := 0
  right_similar_count : Nat := 0
  left_count : Nat := 0
  left_similar_count : Nat := 0
  deriving DecidableEq, Repr

/-- Modelled from the spec: a path node (`EnhancedTripPath_Node`, declared
outside the given sources).  `edge` is the edge leaving the node (unused for
the last node); `CalculateRightLeftIntersectingEdgeCounts` maps the reference
heading to the four counts. -/
structure Node where
  edge : Edge := {}
  CalculateRightLeftIntersectingEdgeCounts : Nat → IntersectingEdgeCounts :=
    fun _ => {}

/-- Modelled from the spec: the path (`EnhancedTripPath`, declared outside the
given sources) is its ordered list of nodes; a path of `N + 1` nodes has `N`
edges, the edge of node `i` leading to node `i + 1`. -/
structure TripPath where
  node : List Node

/-- The number of nodes, `node_size()`. -/
def TripPath.node_size (P : TripPath) : Nat := P.node.length

/-- Modelled from the spec: `GetLastNodeIndex()`, the index of the last node
(called only after the node count was validated). -/
def TripPath.GetLastNodeIndex (P : TripPath) : Nat := P.node_size - 1

/-- Modelled from the spec: `GetEnhancedNode(node_index)`. -/
def TripPath.GetEnhancedNode (P : TripPath) (node_index : Nat) : Option Node :=
  P.node.get? node_index

/-- Modelled from the spec: `GetPrevEdge(node_index, delta)` (`edge_before`),
the edge `delta` positions before the node, or the no-edge sentinel (null) at
the beginning of the sequence. -/
def TripPath.GetPrevEdge (P : TripPath) (node_index : Nat) (delta : Nat) : Option Edge :=
  if delta ≤ node_index then (P.node.get? (node_index - delta)).map Node.edge else none

/-- Modelled from the spec: `GetCurrEdge(node_index)` (`edge_after`), the edge
leaving the node, or the no-edge sentinel (null) at the last node and past
the end. -/
def TripPath.GetCurrEdge (P : TripPath) (node_index : Nat) : Option Edge :=
  if node_index + 1 < P.node_size then (P.node.get? node_index).map Node.edge else none

/-- The edges of the path in order: the edge of every node but the last. -/
def TripPath.edges (P : TripPath) : List Edge := P.node.dropLast.map Node.edge

/-- Modelled from the spec: the maneuver record (`odin::Maneuver`, declared
outside the given sources) with the fields of the data model; the default
values are those of a maneuver "created empty".  Distance and time are exact
non-negative scalars. -/
structure Maneuver where
  type : ManeuverType := ManeuverType.kNone
  street_names : List String := []
  cross_street_names : List String := []
  distance : Nat := 0
  time : Nat := 0
  turn_degree : Nat := 0
  begin_relative_direction : RelativeDirection := RelativeDirection.kNone
  begin_cardinal_direction : CardinalDirection := CardinalDirection.kNorth
  begin_heading : Nat := 0
  end_heading : Nat := 0
  begin_node_index : Nat := 0
  end_node_index : Nat := 0
  begin_shape_index : Nat := 0
  end_shape_index : Nat := 0
  ramp : Bool := false
  turn_channel : Bool := false
  ferry : Bool := false
  rail_ferry : Bool := false
  roundabout : Bool := false
  portions_toll : Bool := false
  portions_unpaved : Bool := false
  portions_highway : Bool := false
  internal_intersection : Bool := false
  signs : Signs := {}
  internal_right_turn_count : Nat := 0
  internal_left_turn_count : Nat := 0
  deriving DecidableEq, Repr

/-- Modelled from the spec: `Maneuver::HasExitNumberSign()`, the exit-number
sign list is not empty. -/
def Maneuver.HasExitNumberSign (m : Maneuver) : Bool := !m.signs.exit_number.isEmpty

/-- Modelled from the spec: `Maneuver::HasExitSign()`, one of the four sign
lists is not empty. -/
def Maneuver.HasExitSign (m : Maneuver) : Bool :=
  !m.signs.exit_number.isEmpty || !m.signs.exit_branch.isEmpty
    || !m.signs.exit_toward.isEmpty || !m.signs.exit_name.isEmpty

/-- The external primitives the builder calls and whose code is outside the
given sources; every theorem holds for all of them.
* `GetTurnDegree from_heading to_heading` (midgard),
* `GetType turn_degree` (`baldr::Turn::GetType`),
* `FindCommonBaseNames this other` (`StreetNames::FindCommonBaseNames`),
* `GetTime length speed` (seconds),
* `HasUsableInternalIntersectionName` (the `Maneuver` method of that name). -/
structure Collaborators where
  GetTurnDegree : Nat → Nat → Nat
  GetType : Nat → TurnType
  FindCommonBaseNames : List String → List String → List String
  GetTime : Nat → Nat → Nat
  HasUsableInternalIntersectionName : Maneuver → Bool

/-- Dereference of a pointer that may be null. -/
def deref {α : Type} (p : Option α) : Except Err α :=
  match p with
  | some a => Except.ok a
  | none => Except.error Err.null_dereference

/-- `ManeuversBuilder::DetermineCardinalDirection(uint32_t heading)`. -/
def DetermineCardinalDirection (heading : Nat) : Except Err CardinalDirection :=
  if heading > 336 ∨ heading < 24 then Except.ok CardinalDirection.kNorth
  else if heading > 23 ∧ heading < 67 then Except.ok CardinalDirection.kNorthEast
  else if heading > 66 ∧ heading < 114 then Except.ok CardinalDirection.kEast
  else if heading > 113 ∧ heading < 157 then Except.ok CardinalDirection.kSouthEast
  else if heading > 156 ∧ heading < 204 then Except.ok CardinalDirection.kSouth
  else if heading > 203 ∧ heading < 247 then Except.ok CardinalDirection.kSouthWest
  else if heading > 246 ∧ heading < 294 then Except.ok CardinalDirection.kWest
  else if heading > 293 ∧ heading < 337 then Except.ok CardinalDirection.kNorthWest
  else Except.error (Err.runtime_error "Turn degree out of range for cardinal direction.")

/-- `ManeuversBuilder::DetermineRelativeDirection(uint32_t turn_degree)`. -/
def DetermineRelativeDirection (turn_degree : Nat) : RelativeDirection :=
  if turn_degree > 329 ∨ turn_degree < 31 then RelativeDirection.kKeepStraight
  else if turn_degree > 30 ∧ turn_degree < 160 then RelativeDirection.kRight
  else if turn_degree > 159 ∧ turn_degree < 201 then RelativeDirection.KReverse
  else if turn_degree > 200 ∧ turn_degree < 330 then RelativeDirection.kLeft
  else RelativeDirection.kNone

/-- `ManeuversBuilder::IsRightSideOfStreetDriving()`. -/
def IsRightSideOfStreetDriving : Bool := true

/-- The turn degree from the edge two before the node to the edge before it,
`prev_prev_2prev_turn_degree` of `UsableInternalIntersectionName` and
`UpdateInternalTurnCount`: 0 when there is no edge two before the node. -/
def prev_prev_2prev_turn_degree (C : Collaborators) (P : TripPath) (node_index : Nat) :
    Except Err Nat :=
  match P.GetPrevEdge node_index 2 with
  | some prev_prev_edge => do
      let prev_edge ← deref (P.GetPrevEdge node_index 1)
      pure (C.GetTurnDegree prev_prev_edge.end_heading prev_edge.begin_heading)
  | none => pure 0

/-- `ManeuversBuilder::UsableInternalIntersectionName(maneuver, node_index)`. -/
def UsableInternalIntersectionName (C : Collaborators) (P : TripPath) (maneuver : Maneuver)
    (node_index : Nat) : Except Err Bool := do
  let turn_degree ← prev_prev_2prev_turn_degree C P node_index
  let relative_direction := DetermineRelativeDirection turn_degree
  if maneuver.internal_intersection
      && ((IsRightSideOfStreetDriving && relative_direction == RelativeDirection.kLeft)
        || (!IsRightSideOfStreetDriving && relative_direction == RelativeDirection.kRight)) then
    pure true
  else
    pure false

/-- `ManeuversBuilder::UpdateInternalTurnCount(maneuver, node_index)`. -/
def UpdateInternalTurnCount (C : Collaborators) (P : TripPath) (maneuver : Maneuver)
    (node_index : Nat) : Except Err Maneuver := do
  let turn_degree ← prev_prev_2prev_turn_degree C P node_index
  let relative_direction := DetermineRelativeDirection turn_degree
  let maneuver :=
    { maneuver with
      internal_right_turn_count :=
        if relative_direction = RelativeDirection.kRight then
          maneuver.internal_right_turn_count + 1
        else maneuver.internal_right_turn_count }
  let maneuver :=
    { maneuver with
      internal_left_turn_count :=
        if relative_direction = RelativeDirection.kLeft then
          maneuver.internal_left_turn_count + 1
        else maneuver.internal_left_turn_count }
  pure maneuver

/-- `ManeuversBuilder::UpdateManeuver(maneuver, node_index)`: accumulates the
edge ending at the node into the maneuver. -/
def UpdateManeuver (C : Collaborators) (P : TripPath) (maneuver : Maneuver)
    (node_index : Nat) : Except Err Maneuver := do
  let prev_edge ← deref (P.GetPrevEdge node_index 1)
  let set_names ←
    if maneuver.street_names.isEmpty && !maneuver.internal_intersection then pure true
    else UsableInternalIntersectionName C P maneuver node_index
  let maneuver :=
    { maneuver with
      street_names := if set_names then prev_edge.name else maneuver.street_names }
  let maneuver ← UpdateInternalTurnCount C P maneuver node_index
  let maneuver := { maneuver with distance := maneuver.distance + prev_edge.length }
  let maneuver :=
    { maneuver with time := maneuver.time + C.GetTime prev_edge.length prev_edge.speed }
  let maneuver :=
    { maneuver with portions_toll := if prev_edge.toll then true else maneuver.portions_toll }
  let maneuver :=
    { maneuver with
      portions_unpaved := if prev_edge.unpaved then true else maneuver.portions_unpaved }
  let maneuver :=
    { maneuver with
      portions_highway := if prev_edge.IsHighway then true else maneuver.portions_highway }
  let maneuver :=
    { maneuver with
      signs :=
        if prev_edge.has_sign then
          { exit_number := maneuver.signs.exit_number ++ prev_edge.sign.exit_number
            exit_branch := maneuver.signs.exit_branch ++ prev_edge.sign.exit_branch
            exit_toward := maneuver.signs.exit_toward ++ prev_edge.sign.exit_toward
            exit_name := maneuver.signs.exit_name ++ prev_edge.sign.exit_name }
        else maneuver.signs }
  pure maneuver

/-- `ManeuversBuilder::InitializeManeuver(maneuver, node_index)`: opens a
maneuver whose last edge is the edge ending at the node. -/
def InitializeManeuver (C : Collaborators) (P : TripPath) (maneuver : Maneuver)
    (node_index : Nat) : Except Err Maneuver := do
  let prev_edge ← deref (P.GetPrevEdge node_index 1)
  let maneuver := { maneuver with end_heading := prev_edge.end_heading }
  let maneuver := { maneuver with end_node_index := node_index }
  let maneuver := { maneuver with end_shape_index := prev_edge.end_shape_index }
  let maneuver := { maneuver with ramp := if prev_edge.ramp then true else maneuver.ramp }
  let maneuver :=
    { maneuver with
      turn_channel := if prev_edge.turn_channel then true else maneuver.turn_channel }
  let maneuver := { maneuver with ferry := if prev_edge.ferry then true else maneuver.ferry }
  let maneuver :=
    { maneuver with rail_ferry := if prev_edge.rail_ferry then true else maneuver.rail_ferry }
  let maneuver :=
    { maneuver with roundabout := if prev_edge.roundabout then true else maneuver.roundabout }
  let maneuver :=
    { maneuver with
      internal_intersection :=
        if prev_edge.internal_intersection then true else maneuver.internal_intersection }
  UpdateManeuver C P maneuver node_index

/-- `ManeuversBuilder::DetermineRelativeDirection(Maneuver& maneuver)`: the
bucket of the turn degree, refined by the node's similar-edge counts. -/
def DetermineRelativeDirection_maneuver (P : TripPath) (maneuver : Maneuver) :
    Except Err Maneuver := do
  let prev_edge := P.GetPrevEdge maneuver.begin_node_index 1
  let node ← deref (P.GetEnhancedNode maneuver.begin_node_index)
  let prev_edge ← deref prev_edge
  let counts := node.CalculateRightLeftIntersectingEdgeCounts prev_edge.end_heading
  let relative_direction := DetermineRelativeDirection maneuver.turn_degree
  let maneuver := { maneuver with begin_relative_direction := relative_direction }
  pure
    { maneuver with
      begin_relative_direction :=
        if counts.right_similar_count = 0 ∧ counts.left_similar_count > 0
            ∧ relative_direction = RelativeDirection.kKeepStraight then
          RelativeDirection.kKeepRight
        else if counts.right_similar_count > 0 ∧ counts.left_similar_count = 0
            ∧ relative_direction = RelativeDirection.kKeepStraight then
          RelativeDirection.kKeepLeft
        else maneuver.begin_relative_direction }

/-- `ManeuversBuilder::SetSimpleDirectionalManeuverType(maneuver)`; the test
`if (trip_path_)` holds, the builder having a path. -/
def SetSimpleDirectionalManeuverType (C : Collaborators) (P : TripPath)
    (maneuver : Maneuver) : Maneuver :=
  match C.GetType maneuver.turn_degree with
  | TurnType.kStraight =>
      let maneuver := { maneuver with type := ManeuverType.kContinue }
      let man_begin_edge := P.GetCurrEdge maneuver.begin_node_index
      match man_begin_edge with
      | some man_begin_edge =>
          if man_begin_edge.turn_channel
              && maneuver.begin_relative_direction != RelativeDirection.kKeepStraight then
            if maneuver.begin_relative_direction = RelativeDirection.kKeepRight then
              { maneuver with type := ManeuverType.kSlightRight }
            else if maneuver.begin_relative_direction = RelativeDirection.kKeepLeft then
              { maneuver with type := ManeuverType.kSlightLeft }
            else maneuver
          else maneuver
      | none => maneuver
  | TurnType.kSlightRight => { maneuver with type := ManeuverType.kSlightRight }
  | TurnType.kRight => { maneuver with type := ManeuverType.kRight }
  | TurnType.kSharpRight => { maneuver with type := ManeuverType.kSharpRight }
  | TurnType.kReverse =>
      if maneuver.internal_left_turn_count > maneuver.internal_right_turn_count then
        { maneuver with type := ManeuverType.kUturnLeft }
      else if maneuver.internal_right_turn_count > maneuver.internal_left_turn_count then
        { maneuver with type := ManeuverType.kUturnRight }
      else if IsRightSideOfStreetDriving then
        if maneuver.turn_degree < 180 then { maneuver with type := ManeuverType.kUturnRight }
        else { maneuver with type := ManeuverType.kUturnLeft }
      else
        if maneuver.turn_degree > 180 then { maneuver with type := ManeuverType.kUturnLeft }
        else { maneuver with type := ManeuverType.kUturnRight }
  | TurnType.kSharpLeft => { maneuver with type := ManeuverType.kSharpLeft }
  | TurnType.kLeft => { maneuver with type := ManeuverType.kLeft }
  | TurnType.kSlightLeft => { maneuver with type := ManeuverType.kSlightLeft }

/-- The exit branch of `SetManeuverType`: the `switch` on the relative
direction, with `kExitRight` as the logged default. -/
def exit_type (d : RelativeDirection) : ManeuverType :=
  match d with
  | RelativeDirection.kKeepRight => ManeuverType.kExitRight
  | RelativeDirection.kRight => ManeuverType.kExitRight
  | RelativeDirection.kKeepLeft => ManeuverType.kExitLeft
  | RelativeDirection.kLeft => ManeuverType.kExitLeft
  | _ => ManeuverType.kExitRight

/-- The on-ramp branch of `SetManeuverType`: the `switch` on the relative
direction, with `kRampRight` as the logged default. -/
def ramp_type (d : RelativeDirection) : ManeuverType :=
  match d with
  | RelativeDirection.kKeepRight => ManeuverType.kRampRight
  | RelativeDirection.kRight => ManeuverType.kRampRight
  | RelativeDirection.kKeepLeft => ManeuverType.kRampLeft
  | RelativeDirection.kLeft => ManeuverType.kRampLeft
  | RelativeDirection.kKeepStraight => ManeuverType.kRampStraight
  | _ => ManeuverType.kRampRight

/-- `ManeuversBuilder::SetManeuverType(maneuver)`.  The previous and current
edge of the begin node are fetched as pointers and dereferenced without a null
check where a condition reads them; `&&` and `||` evaluate left to right and
stop early as in C++. -/
def SetManeuverType (C : Collaborators) (P : TripPath) (maneuver : Maneuver) :
    Except Err Maneuver :=
  if maneuver.type ≠ ManeuverType.kNone then pure maneuver
  else
    let prev_edge := P.GetPrevEdge maneuver.begin_node_index 1
    let curr_edge := P.GetCurrEdge maneuver.begin_node_index
    if maneuver.internal_intersection then pure { maneuver with type := ManeuverType.kNone }
    else if maneuver.turn_channel then pure { maneuver with type := ManeuverType.kNone }
    else do
      let is_exit ←
        if maneuver.ramp then do
          let prev ← deref prev_edge
          pure (prev.IsHighway || maneuver.HasExitNumberSign)
        else pure false
      if is_exit then
        pure { maneuver with type := exit_type maneuver.begin_relative_direction }
      else do
        let is_on_ramp ←
          if maneuver.ramp then do
            let prev ← deref prev_edge
            pure (!prev.IsHighway)
          else pure false
        if is_on_ramp then
          pure { maneuver with type := ramp_type maneuver.begin_relative_direction }
        else do
          let curr ← deref curr_edge
          let is_merge ←
            if curr.IsHighway then do
              let prev ← deref prev_edge
              pure prev.ramp
            else pure false
          if is_merge then pure { maneuver with type := ManeuverType.kMerge }
          else if maneuver.roundabout then
            pure { maneuver with type := ManeuverType.kRoundaboutEnter }
          else do
            let prev ← deref prev_edge
            if prev.roundabout then
              pure { maneuver with type := ManeuverType.kRoundaboutExit }
            else if maneuver.ferry || maneuver.rail_ferry then
              pure { maneuver with type := ManeuverType.kFerryEnter }
            else if prev.ferry || prev.rail_ferry then
              pure { maneuver with type := ManeuverType.kFerryExit }
            else pure (SetSimpleDirectionalManeuverType C P maneuver)

/-- `ManeuversBuilder::FinalizeManeuver(maneuver, node_index)`: fixes the begin
boundary of the maneuver at the node. -/
def FinalizeManeuver (C : Collaborators) (P : TripPath) (maneuver : Maneuver)
    (node_index : Nat) : Except Err Maneuver := do
  let curr_edge ← deref (P.GetCurrEdge node_index)
  let cardinal ← DetermineCardinalDirection curr_edge.begin_heading
  let maneuver := { maneuver with begin_cardinal_direction := cardinal }
  let maneuver := { maneuver with begin_heading := curr_edge.begin_heading }
  let maneuver := { maneuver with begin_node_index := node_index }
  let maneuver := { maneuver with begin_shape_index := curr_edge.begin_shape_index }
  let maneuver ←
    match P.GetPrevEdge node_index 1 with
    | some prev_edge =>
        DetermineRelativeDirection_maneuver P
          { maneuver with
            turn_degree := C.GetTurnDegree prev_edge.end_heading curr_edge.begin_heading }
    | none => pure maneuver
  SetManeuverType C P maneuver

/-- `ManeuversBuilder::CreateDestinationManeuver(maneuver)`. -/
def CreateDestinationManeuver (P : TripPath) (maneuver : Maneuver) : Except Err Maneuver := do
  let node_index := P.GetLastNodeIndex
  let maneuver := { maneuver with type := ManeuverType.kDestination }
  let maneuver := { maneuver with begin_node_index := node_index }
  let maneuver := { maneuver with end_node_index := node_index }
  let prev_edge ← deref (P.GetPrevEdge node_index 1)
  let maneuver := { maneuver with begin_shape_index := prev_edge.end_shape_index }
  pure { maneuver with end_shape_index := prev_edge.end_shape_index }

/-- `ManeuversBuilder::CreateStartManeuver(maneuver)`. -/
def CreateStartManeuver (C : Collaborators) (P : TripPath) (maneuver : Maneuver) :
    Except Err Maneuver :=
  let node_index := 0
  FinalizeManeuver C P { maneuver with type := ManeuverType.kStart } node_index

/-- `ManeuversBuilder::CanManeuverIncludePrevEdge(maneuver, node_index)`: the
decision, and the maneuver as the call leaves it (its street names are
replaced when a common base name decides the inclusion). -/
def CanManeuverIncludePrevEdge (C : Collaborators) (P : TripPath) (maneuver : Maneuver)
    (node_index : Nat) : Except Err (Bool × Maneuver) := do
  let prev_edge ← deref (P.GetPrevEdge node_index 1)
  -- Process internal intersection
  if prev_edge.internal_intersection && !maneuver.internal_intersection then
    pure (false, maneuver)
  else if !prev_edge.internal_intersection && maneuver.internal_intersection then
    pure (false, maneuver)
  else if prev_edge.internal_intersection && maneuver.internal_intersection then
    pure (true, maneuver)
  -- Process simple turn channel
  else if prev_edge.turn_channel && !maneuver.turn_channel then pure (false, maneuver)
  else if !prev_edge.turn_channel && maneuver.turn_channel then pure (false, maneuver)
  else if prev_edge.turn_channel && maneuver.turn_channel then pure (true, maneuver)
  -- Process signs
  else if maneuver.HasExitSign then pure (false, maneuver)
  -- Process ramps
  else if maneuver.ramp && !prev_edge.ramp then pure (false, maneuver)
  else if prev_edge.ramp && !maneuver.ramp then pure (false, maneuver)
  else if maneuver.ramp && prev_edge.ramp then pure (true, maneuver)
  -- Process ferries
  else if maneuver.ferry && !prev_edge.ferry then pure (false, maneuver)
  else if prev_edge.ferry && !maneuver.ferry then pure (false, maneuver)
  else if maneuver.ferry && prev_edge.ferry then pure (true, maneuver)
  -- Process rail ferries
  else if maneuver.rail_ferry && !prev_edge.rail_ferry then pure (false, maneuver)
  else if prev_edge.rail_ferry && !maneuver.rail_ferry then pure (false, maneuver)
  else if maneuver.rail_ferry && prev_edge.rail_ferry then pure (true, maneuver)
  -- Process roundabouts
  else if maneuver.roundabout && !prev_edge.roundabout then pure (false, maneuver)
  else if prev_edge.roundabout && !maneuver.roundabout then pure (false, maneuver)
  else if maneuver.roundabout && prev_edge.roundabout then pure (true, maneuver)
  -- Process same names
  else if maneuver.street_names = prev_edge.name then pure (true, maneuver)
  else
    -- Process common base names
    let common_base_names := C.FindCommonBaseNames prev_edge.name maneuver.street_names
    if !common_base_names.isEmpty then
      pure (true, { maneuver with street_names := common_base_names })
    else pure (false, maneuver)

/-- The `for` loop of `Produce`: `i` runs from the given index down to 1;
`front` is `maneuvers.front()`, the open maneuver, and `rest` the maneuvers
behind it. -/
def ProduceLoop (C : Collaborators) (P : TripPath) :
    Nat → Maneuver → List Maneuver → Except Err (List Maneuver)
  | 0, front, rest => pure (front :: rest)
  | i + 1, front, rest => do
      let (included, front) ← CanManeuverIncludePrevEdge C P front (i + 1)
      if included then do
        let front ← UpdateManeuver C P front (i + 1)
        ProduceLoop C P i front rest
      else do
        -- Finalize current maneuver
        let front ← FinalizeManeuver C P front (i + 1)
        -- Initialize new maneuver
        let opened ← InitializeManeuver C P {} (i + 1)
        ProduceLoop C P i opened (front :: rest)

/-- `ManeuversBuilder::Produce()`. -/
def Produce (C : Collaborators) (P : TripPath) : Except Err (List Maneuver) :=
  -- Validate trip path node list
  if P.node_size < 1 then
    throw (Err.runtime_error "Trip path does not have any nodes")
  -- Check for a single node
  else if P.node_size = 1 then
    throw (Err.runtime_error "Trip path has only one node")
  else do
    -- Process the Destination maneuver
    let destination ← CreateDestinationManeuver P {}
    -- Initialize maneuver prior to loop
    let opened ← InitializeManeuver C P {} P.GetLastNodeIndex
    -- Step through nodes in reverse order, excluding the last and first nodes
    let maneuvers ← ProduceLoop C P (P.GetLastNodeIndex - 1) opened [destination]
    -- Process the Start maneuver
    match maneuvers with
    | front :: rest => do
        let start ← CreateStartManeuver C P front
        pure (start :: rest)
    | [] => throw Err.null_dereference

/-- The part of `CombineInternalManeuver` and `CombineTurnChannelManeuver`
that sets the turn degree of the next maneuver: from the current maneuver when
it is the first of the list, from the previous maneuver otherwise. -/
def combined_turn_degree (C : Collaborators) (prev_man curr_man next_man : Maneuver)
    (start_man : Bool) : Nat :=
  if start_man then C.GetTurnDegree curr_man.end_heading next_man.begin_heading
  else C.GetTurnDegree prev_man.end_heading next_man.begin_heading

/-- `ManeuversBuilder::CombineInternalManeuver`: the next maneuver after the
internal-intersection maneuver `curr_man` was folded into it (the caller
erases `curr_man`). -/
def CombineInternalManeuver (C : Collaborators) (P : TripPath)
    (prev_man curr_man next_man : Maneuver) (start_man : Bool) : Except Err Maneuver :=
  let next_man :=
    { next_man with turn_degree := combined_turn_degree C prev_man curr_man next_man start_man }
  -- Set the cross street names
  let next_man :=
    { next_man with
      cross_street_names :=
        if C.HasUsableInternalIntersectionName curr_man then curr_man.street_names
        else next_man.cross_street_names }
  -- Set the right and left internal turn counts
  let next_man :=
    { next_man with internal_right_turn_count := curr_man.internal_right_turn_count }
  let next_man :=
    { next_man with internal_left_turn_count := curr_man.internal_left_turn_count }
  -- Set relative direction
  let next_man :=
    { next_man with
      begin_relative_direction := DetermineRelativeDirection next_man.turn_degree }
  let next_man := { next_man with distance := next_man.distance + curr_man.distance }
  let next_man := { next_man with time := next_man.time + curr_man.time }
  let next_man := { next_man with begin_node_index := curr_man.begin_node_index }
  let next_man := { next_man with begin_shape_index := curr_man.begin_shape_index }
  -- Set maneuver type to 'none' so the type will be processed again
  SetManeuverType C P { next_man with type := ManeuverType.kNone }

/-- `ManeuversBuilder::CombineTurnChannelManeuver`: the next maneuver after
the turn-channel maneuver `curr_man` was folded into it (the caller erases
`curr_man`). -/
def CombineTurnChannelManeuver (C : Collaborators) (P : TripPath)
    (prev_man curr_man next_man : Maneuver) (start_man : Bool) : Except Err Maneuver :=
  let next_man :=
    { next_man with turn_degree := combined_turn_degree C prev_man curr_man next_man start_man }
  -- Set relative direction
  let next_man :=
    { next_man with begin_relative_direction := curr_man.begin_relative_direction }
  let next_man := { next_man with distance := next_man.distance + curr_man.distance }
  let next_man := { next_man with time := next_man.time + curr_man.time }
  let next_man := { next_man with begin_node_index := curr_man.begin_node_index }
  let next_man := { next_man with begin_shape_index := curr_man.begin_shape_index }
  -- Set maneuver type to 'none' so the type will be processed again
  SetManeuverType C P { next_man with type := ManeuverType.kNone }

/-- `ManeuversBuilder::CombineSameNameStraightManeuver`: the current maneuver
after the next maneuver was folded into it (the caller erases `next_man`).
The end heading is set from `next_man->end_node_index()`, as in the source. -/
def CombineSameNameStraightManeuver (curr_man next_man : Maneuver) : Maneuver :=
  let curr_man := { curr_man with distance := curr_man.distance + next_man.distance }
  let curr_man := { curr_man with time := curr_man.time + next_man.time }
  -- Update end heading
  let curr_man := { curr_man with end_heading := next_man.end_node_index }
  let curr_man := { curr_man with end_node_index := next_man.end_node_index }
  let curr_man := { curr_man with end_shape_index := next_man.end_shape_index }
  let curr_man := { curr_man with ramp := if next_man.ramp then true else curr_man.ramp }
  let curr_man := { curr_man with ferry := if next_man.ferry then true else curr_man.ferry }
  let curr_man :=
    { curr_man with rail_ferry := if next_man.rail_ferry then true else curr_man.rail_ferry }
  let curr_man :=
    { curr_man with roundabout := if next_man.roundabout then true else curr_man.roundabout }
  let curr_man :=
    { curr_man with
      portions_toll := if next_man.portions_toll then true else curr_man.portions_toll }
  let curr_man :=
    { curr_man with
      portions_unpaved :=
        if next_man.portions_unpaved then true else curr_man.portions_unpaved }
  let curr_man :=
    { curr_man with
      portions_highway :=
        if next_man.portions_highway then true else curr_man.portions_highway }
  curr_man

/-- The condition of the 'same name straight' branch of `Combine`, given the
common base names of the current and the next maneuver. -/
def same_name_straight (P : TripPath) (curr_man next_man : Maneuver)
    (common_base_names : List String) : Bool :=
  let next_man_begin_edge := P.GetCurrEdge next_man.begin_node_index
  (next_man.begin_relative_direction == RelativeDirection.kKeepStraight)
    && (match next_man_begin_edge with
        | some next_man_begin_edge => !next_man_begin_edge.turn_channel
        | none => false)
    && !next_man.internal_intersection && !curr_man.ramp
    && !next_man.ramp && !common_base_names.isEmpty

/-- The inner `while (next_man != maneuvers.end())` loop of `Combine`.  The
list is held as the maneuvers before `curr_man` (`done`, nearest first), the
element `prev_man` points to, `curr_man`, and the maneuvers from `next_man` on
(`next_man` is always the element after `curr_man`, so `curr_man != next_man`
holds at every test).  `curr_man == maneuvers.begin()` is `done = []`.  The
result is the list and the flag `maneuvers_have_been_combined`. -/
def CombineScan (C : Collaborators) (P : TripPath) :
    List Maneuver → Maneuver → Maneuver → List Maneuver → Bool →
      Except Err (List Maneuver × Bool)
  | done, _, curr_man, [], combined => pure (done.reverse ++ [curr_man], combined)
  | done, prev_man, curr_man, next_man :: rest, combined =>
      -- Process common base names
      let common_base_names :=
        C.FindCommonBaseNames curr_man.street_names next_man.street_names
      -- Combine current internal maneuver with next maneuver
      if curr_man.internal_intersection then do
        let merged ← CombineInternalManeuver C P prev_man curr_man next_man done.isEmpty
        CombineScan C P done prev_man merged rest true
      -- Combine current turn channel maneuver with next maneuver
      else if curr_man.turn_channel then do
        let merged ← CombineTurnChannelManeuver C P prev_man curr_man next_man done.isEmpty
        CombineScan C P done prev_man merged rest true
      -- Combine the 'same name straight' next maneuver with the current maneuver
      else if same_name_straight P curr_man next_man common_base_names then
        let curr_man := { curr_man with street_names := common_base_names }
        CombineScan C P done prev_man (CombineSameNameStraightManeuver curr_man next_man) rest
          combined
      -- Update with no combine
      else CombineScan C P (curr_man :: done) curr_man next_man rest combined

/-- One round of the outer `while` loop of `Combine`: the flag is reset, the
three iterators start at `maneuvers.begin()` (with `next_man` advanced once)
and the inner loop runs to the end of the list. -/
def CombinePass (C : Collaborators) (P : TripPath) (maneuvers : List Maneuver) :
    Except Err (List Maneuver × Bool) :=
  match maneuvers with
  | [] => pure ([], false)
  | first :: rest => CombineScan C P [] first first rest false

/-- The outer loop `while (maneuvers_have_been_combined)` of `Combine`, with a
bound on the number of rounds. -/
def CombineLoop (C : Collaborators) (P : TripPath) :
    Nat → List Maneuver → Except Err (List Maneuver)
  | 0, _ => throw Err.fuel_exhausted
  | fuel + 1, maneuvers => do
      let (maneuvers, maneuvers_have_been_combined) ← CombinePass C P maneuvers
      if maneuvers_have_been_combined then CombineLoop C P fuel maneuvers
      else pure maneuvers

/-- `ManeuversBuilder::Combine(maneuvers)`: the list as the call leaves it.
The bound `length + 1` on the rounds is never reached (`CombineLoop_fuel`). -/
def Combine (C : Collaborators) (P : TripPath) (maneuvers : List Maneuver) :
    Except Err (List Maneuver) :=
  CombineLoop C P (maneuvers.length + 1) maneuvers

/-- `ManeuversBuilder::Build()`. -/
def Build (C : Collaborators) (P : TripPath) : Except Err (List Maneuver) := do
  -- Create the maneuvers
  let maneuvers ← Produce C P
  -- Combine maneuvers
  Combine C P maneuvers

/-! ## Sample collaborators and paths, used to run the definitions -/

/-- Modelled from the spec: a turn-degree primitive with values in [0,360). -/
def sampleGetTurnDegree (from_heading to_heading : Nat) : Nat :=
  (to_heading + 360 - from_heading) % 360

/-- Modelled from the spec: an eight-way bucketing of the turn degree,
symmetric around 0 and widening toward 180. -/
def sampleGetType (turn_degree : Nat) : TurnType :=
  if turn_degree > 349 ∨ turn_degree < 11 then TurnType.kStraight
  else if turn_degree < 45 then TurnType.kSlightRight
  else if turn_degree < 136 then TurnType.kRight
  else if turn_degree < 170 then TurnType.kSharpRight
  else if turn_degree < 191 then TurnType.kReverse
  else if turn_degree < 226 then TurnType.kSharpLeft
  else if turn_degree < 316 then TurnType.kLeft
  else TurnType.kSlightLeft

/-- Modelled from the spec: a common-base-name reduction that strips nothing,
the names of the first set that also occur in the second. -/
def sampleFindCommonBaseNames (names other : List String) : List String :=
  names.filter (fun n => other.contains n)

/-- Modelled from the spec: seconds needed for a length at a speed. -/
def sampleGetTime (length speed : Nat) : Nat := length * 3600 / speed

/-- Sample collaborators. -/
def sampleCollaborators : Collaborators where
  GetTurnDegree := sampleGetTurnDegree
  GetType := sampleGetType
  FindCommonBaseNames := sampleFindCommonBaseNames
  GetTime := sampleGetTime
  HasUsableInternalIntersectionName := fun m =>
    m.internal_intersection && !m.street_names.isEmpty

/-- A path of four nodes: Main St, an internal-intersection edge, then a right
turn onto Oak Ave. -/
def crossingPath : TripPath where
  node :=
    [ { edge := { name := ["Main St"], length := 100, speed := 50, end_shape_index := 4 } },
      { edge :=
          { name := ["Elm St"], length := 10, speed := 50, begin_shape_index := 4,
            end_shape_index := 5, internal_intersection := true } },
      { edge :=
          { name := ["Oak Ave"], length := 200, speed := 50, begin_heading := 90,
            end_heading := 90, begin_shape_index := 5, end_shape_index := 9 } },
      {} ]

/-- A path of four nodes that stays on Main St across an internal-intersection
edge. -/
def straightPath : TripPath where
  node :=
    [ { edge := { name := ["Main St"], length := 100, speed := 50, end_shape_index := 4 } },
      { edge :=
          { name := ["Elm St"], length := 10, speed := 50, begin_shape_index := 4,
            end_shape_index := 5, internal_intersection := true } },
      { edge :=
          { name := ["Main St"], length := 200, speed := 50, begin_shape_index := 5,
            end_shape_index := 9 } },
      {} ]

/-- A path of three nodes whose first edge is an internal-intersection edge. -/
def internalFirstPath : TripPath where
  node :=
    [ { edge :=
          { name := ["Elm St"], length := 10, speed := 50, end_shape_index := 1,
            internal_intersection := true } },
      { edge :=
          { name := ["Main St"], length := 100, speed := 50, begin_shape_index := 1,
            end_shape_index := 5 } },
      {} ]

/-! ## Predicates of the claims -/

/-- The node-index ranges of the maneuvers chain from node `b` to node `N`:
the first maneuver begins at `b`, no maneuver ends before it begins, every
maneuver ends where the next begins, and the last ends at `N` (for the empty
list, `b = N`). -/
def TilesFrom (N : Nat) : Nat → List Maneuver → Prop
  | b, [] => b = N
  | b, m :: ms =>
      m.begin_node_index = b ∧ m.begin_node_index ≤ m.end_node_index
        ∧ TilesFrom N m.end_node_index ms

/-- The node-index ranges of the maneuvers tile `[0, N]`: the first maneuver
has `begin_node_index` 0, the `end_node_index` of every maneuver is the
`begin_node_index` of the maneuver after it, the last maneuver has
`end_node_index` `N`, and no maneuver ends before it begins (so the ranges
share boundary nodes only). -/
def Tiles (N : Nat) (ms : List Maneuver) : Prop :=
  (∃ first, ms.head? = some first ∧ first.begin_node_index = 0)
  ∧ List.Chain' (fun a b : Maneuver => a.end_node_index = b.begin_node_index) ms
  ∧ (∃ last, ms.getLast? = some last ∧ last.end_node_index = N)
  ∧ ∀ m ∈ ms, m.begin_node_index ≤ m.end_node_index

/-- The sum of the distances of the maneuvers. -/
def total_distance (ms : List Maneuver) : Nat := (ms.map Maneuver.distance).sum

/-- The sum of the times of the maneuvers. -/
def total_time (ms : List Maneuver) : Nat := (ms.map Maneuver.time).sum

/-- The sum of the lengths of the edges of the path. -/
def path_length (P : TripPath) : Nat := (P.edges.map Edge.length).sum

/-- The sum of the per-edge times of the path. -/
def path_time (C : Collaborators) (P : TripPath) : Nat :=
  (P.edges.map (fun e => C.GetTime e.length e.speed)).sum

/-- The maneuver is a placeholder that `Combine` has to absorb: an
internal-intersection or a turn-channel maneuver. -/
def Maneuver.placeholder (m : Maneuver) : Bool := m.internal_intersection || m.turn_channel

/-- One of the three merge rules of `Combine` applies to the adjacent
maneuvers `curr_man`, `next_man`: the current maneuver is an
internal-intersection or a turn-channel maneuver, or the same-name-straight
condition holds. -/
def merge_applies (C : Collaborators) (P : TripPath) (curr_man next_man : Maneuver) : Bool :=
  curr_man.internal_intersection || curr_man.turn_channel
    || same_name_straight P curr_man next_man
        (C.FindCommonBaseNames curr_man.street_names next_man.street_names)

/-- No merge rule applies to the adjacent maneuvers of the list made of the
maneuvers `done` (nearest first) followed by `curr_man`. -/
def no_merge_before (C : Collaborators) (P : TripPath) : List Maneuver → Maneuver → Prop
  | [], _ => True
  | prev_man :: done, curr_man =>
      merge_applies C P prev_man curr_man = false ∧ no_merge_before C P done prev_man

/-- The common-base-name reduction creates no common name: names that have
nothing in common with a set have nothing in common with a reduction of that
set either. -/
def reduction_adds_nothing (C : Collaborators) : Prop :=
  ∀ a b c : List String,
    (C.FindCommonBaseNames a b).isEmpty = true →
      (C.FindCommonBaseNames a (C.FindCommonBaseNames b c)).isEmpty = true

/-- The maneuvers of the straight path after the first pass of `Combine`
absorbed the internal-intersection maneuver: Start on Main St, Continue on
Main St, Destination. -/
def straightAbsorbed : List Maneuver :=
  [ { type := ManeuverType.kStart, street_names := ["Main St"], distance := 100, time := 7200,
      end_node_index := 1, end_shape_index := 4 },
    { type := ManeuverType.kContinue, street_names := ["Main St"], distance := 210,
      time := 15120, begin_relative_direction := RelativeDirection.kKeepStraight,
      begin_node_index := 1, end_node_index := 3, begin_shape_index := 4,
      end_shape_index := 9 },
    { type := ManeuverType.kDestination, begin_node_index := 3, end_node_index := 3,
      begin_shape_index := 9, end_shape_index := 9 } ]

/-- The body of `SetSimpleDirectionalManeuverType` (maneuversbuilder.cc 677–751)
with the value returned by `IsRightSideOfStreetDriving()` taken as the
argument `right_side_driving`: the source reads that value only in the last
branch of the `kReverse` case.  `SetSimpleDirectionalManeuverType` is this
function at the value the source's `IsRightSideOfStreetDriving` returns. -/
def SetSimpleDirectionalManeuverType_side (right_side_driving : Bool) (C : Collaborators)
    (P : TripPath) (maneuver : Maneuver) : Maneuver :=
  match C.GetType maneuver.turn_degree with
  | TurnType.kStraight =>
      let maneuver := { maneuver with type := ManeuverType.kContinue }
      let man_begin_edge := P.GetCurrEdge maneuver.begin_node_index
      match man_begin_edge with
      | some man_begin_edge =>
          if man_begin_edge.turn_channel
              && maneuver.begin_relative_direction != RelativeDirection.kKeepStraight then
            if maneuver.begin_relative_direction = RelativeDirection.kKeepRight then
              { maneuver with type := ManeuverType.kSlightRight }
            else if maneuver.begin_relative_direction = RelativeDirection.kKeepLeft then
              { maneuver with type := ManeuverType.kSlightLeft }
            else maneuver
          else maneuver
      | none => maneuver
  | TurnType.kSlightRight => { maneuver with type := ManeuverType.kSlightRight }
  | TurnType.kRight => { maneuver with type := ManeuverType.kRight }
  | TurnType.kSharpRight => { maneuver with type := ManeuverType.kSharpRight }
  | TurnType.kReverse =>
      if maneuver.internal_left_turn_count > maneuver.internal_right_turn_count then
        { maneuver with type := ManeuverType.kUturnLeft }
      else if maneuver.internal_right_turn_count > maneuver.internal_left_turn_count then
        { maneuver with type := ManeuverType.kUturnRight }
      else if right_side_driving then
        if maneuver.turn_degree < 180 then { maneuver with type := ManeuverType.kUturnRight }
        else { maneuver with type := ManeuverType.kUturnLeft }
      else
        if maneuver.turn_degree > 180 then { maneuver with type := ManeuverType.kUturnLeft }
        else { maneuver with type := ManeuverType.kUturnRight }
  | TurnType.kSharpLeft => { maneuver with type := ManeuverType.kSharpLeft }
  | TurnType.kLeft => { maneuver with type := ManeuverType.kLeft }
  | TurnType.kSlightLeft => { maneuver with type := ManeuverType.kSlightLeft }

/-- The types the simple directional classification can assign. -/
def ManeuverType.simple_directional (t : ManeuverType) : Bool :=
  match t with
  | ManeuverType.kContinue | ManeuverType.kSlightRight | ManeuverType.kRight
  | ManeuverType.kSharpRight | ManeuverType.kUturnRight | ManeuverType.kUturnLeft
  | ManeuverType.kSharpLeft | ManeuverType.kLeft | ManeuverType.kSlightLeft => true
  | _ => false

/-- A path of three nodes whose first edge is a ramp and whose second edge is
a highway edge. -/
def rampHighwayPath : TripPath where
  node :=
    [ { edge := { name := ["Ramp"], length := 30, speed := 60, end_shape_index := 2,
                  ramp := true } },
      { edge := { name := ["I 81"], length := 500, speed := 100, begin_shape_index := 2,
                  end_shape_index := 9, IsHighway := true } },
      {} ]

/-- A path of three nodes whose first edge is a highway edge and whose second
edge is a ramp. -/
def highwayRampPath : TripPath where
  node :=
    [ { edge := { name := ["I 81"], length := 500, speed := 100, end_shape_index := 7,
                  IsHighway := true } },
      { edge := { name := ["Ramp"], length := 30, speed := 60, begin_shape_index := 7,
                  end_shape_index := 9, ramp := true } },
      {} ]

/-- A path of three nodes whose first edge is a roundabout edge and whose
second edge is a ferry edge. -/
def roundaboutFerryPath : TripPath where
  node :=
    [ { edge := { name := ["Circle"], length := 20, speed := 30, end_shape_index := 3,
                  roundabout := true } },
      { edge := { name := ["Ferry"], length := 900, speed := 20, begin_shape_index := 3,
                  end_shape_index := 4, ferry := true } },
      {} ]

/-- A none-typed ramp maneuver beginning at node 1 and keeping left. -/
def rampKeepLeft : Maneuver :=
  { begin_node_index := 1, ramp := true,
    begin_relative_direction := RelativeDirection.kKeepLeft }

/-- A none-typed ramp maneuver beginning at node 1 and keeping straight. -/
def rampKeepStraight : Maneuver :=
  { begin_node_index := 1, ramp := true,
    begin_relative_direction := RelativeDirection.kKeepStraight }

/-- A none-typed roundabout maneuver beginning at node 1. -/
def roundaboutManeuver : Maneuver := { begin_node_index := 1, roundabout := true }

/-- A none-typed ferry maneuver beginning at node 1. -/
def ferryManeuver : Maneuver := { begin_node_index := 1, ferry := true }

/-- A maneuver turning by 175 degrees after two internal left turns. -/
def uturnTwoLeft : Maneuver := { turn_degree := 175, internal_left_turn_count := 2 }

/-- A maneuver turning by 175 degrees after no internal turn. -/
def uturnNoInternal : Maneuver := { turn_degree := 175 }

/-- A maneuver on Main St from node 0 to node 1, arriving with heading 10. -/
def mainStFirst : Maneuver :=
  { type := ManeuverType.kStart, street_names := ["Main St"], distance := 100, time := 60,
    end_heading := 10, end_node_index := 1, end_shape_index := 4, portions_toll := true }

/-- A maneuver that continues on Main St from node 1 to node 3, arriving with
heading 270. -/
def mainStSecond : Maneuver :=
  { type := ManeuverType.kContinue, street_names := ["Main St"], distance := 200, time := 90,
    begin_relative_direction := RelativeDirection.kKeepStraight, begin_heading := 10,
    end_heading := 270, begin_node_index := 1, end_node_index := 3, begin_shape_index := 4,
    end_shape_index := 9, portions_highway := true }

/-- The inner loop of `Combine` as the spec words it: an absorption computes
the turn degree from the maneuver immediately before `curr_man` in the list
(the head of `done`, the maneuvers before `curr_man`, nearest first), and
from `curr_man` itself when it is the first of the list.  There is no
`prev_man` iterator. -/
def CombineScan_immediate (C : Collaborators) (P : TripPath) :
    List Maneuver → Maneuver → List Maneuver → Bool → Except Err (List Maneuver × Bool)
  | done, curr_man, [], combined => pure (done.reverse ++ [curr_man], combined)
  | done, curr_man, next_man :: rest, combined =>
      let common_base_names :=
        C.FindCommonBaseNames curr_man.street_names next_man.street_names
      let before := done.head?.getD curr_man
      if curr_man.internal_intersection then do
        let merged ← CombineInternalManeuver C P before curr_man next_man done.isEmpty
        CombineScan_immediate C P done merged rest true
      else if curr_man.turn_channel then do
        let merged ← CombineTurnChannelManeuver C P before curr_man next_man done.isEmpty
        CombineScan_immediate C P done merged rest true
      else if same_name_straight P curr_man next_man common_base_names then
        let curr_man := { curr_man with street_names := common_base_names }
        CombineScan_immediate C P done (CombineSameNameStraightManeuver curr_man next_man) rest
          combined
      else CombineScan_immediate C P (curr_man :: done) next_man rest combined

/-- One round of the outer loop of `Combine`, with the inner loop as the spec
words it. -/
def CombinePass_immediate (C : Collaborators) (P : TripPath) (maneuvers : List Maneuver) :
    Except Err (List Maneuver × Bool) :=
  match maneuvers with
  | [] => pure ([], false)
  | first :: rest => CombineScan_immediate C P [] first rest false
/-- Four maneuvers on the crossing path: a first maneuver ending with heading
10, two internal-intersection maneuvers ending with headings 20 and 30, and a
maneuver beginning with heading 100. -/
def twoInternals : List Maneuver :=
  [ { type := ManeuverType.kStart, street_names := ["Main St"], end_heading := 10,
      end_node_index := 1 },
    { street_names := ["Elm St"], begin_heading := 10, end_heading := 20,
      begin_node_index := 1, end_node_index := 2, internal_intersection := true },
    { street_names := ["Elm St"], begin_heading := 20, end_heading := 30,
      begin_node_index := 2, end_node_index := 2, internal_intersection := true },
    { street_names := ["Oak Ave"], begin_heading := 100, end_heading := 100,
      begin_node_index := 2, end_node_index := 3 } ]

/-- A maneuver over the second edge of the crossing path, with two internal
left turns counted. -/
def absorbedManeuver : Maneuver :=
  { street_names := ["Elm St"], distance := 10, time := 720, begin_heading := 0,
    end_heading := 0, begin_node_index := 1, end_node_index := 2, begin_shape_index := 4,
    end_shape_index := 5, begin_relative_direction := RelativeDirection.kKeepLeft,
    internal_left_turn_count := 2 }

/-- The maneuver onto Oak Ave of the crossing path as `Produce` leaves it,
with one internal right turn counted. -/
def oakAveManeuver : Maneuver :=
  { type := ManeuverType.kRight, street_names := ["Oak Ave"], distance := 200, time := 14400,
    turn_degree := 90, begin_relative_direction := RelativeDirection.kRight,
    begin_heading := 90, end_heading := 90, begin_node_index := 2, end_node_index := 3,
    begin_shape_index := 5, end_shape_index := 9, internal_right_turn_count := 1 }

/-- One flag check of `CanManeuverIncludePrevEdge` as the spec words it: edge
and maneuver disagreeing gives exclude (`some false`), both true gives include
(`some true`), both false passes on to the next check (`none`). -/
def flag_check (edge_flag maneuver_flag : Bool) : Option Bool :=
  if edge_flag != maneuver_flag then some false
  else if edge_flag then some true
  else none

/-- The street-name check, which always decides: include when the names are
equal or have a common base name. -/
def names_check (C : Collaborators) (prev_edge : Edge) (maneuver : Maneuver) : Bool :=
  decide (maneuver.street_names = prev_edge.name)
    || !(C.FindCommonBaseNames prev_edge.name maneuver.street_names).isEmpty

/-- The checks of `CanManeuverIncludePrevEdge` in the order of the spec. -/
def include_checks (C : Collaborators) (prev_edge : Edge) (maneuver : Maneuver) :
    List (Option Bool) :=
  [ flag_check prev_edge.internal_intersection maneuver.internal_intersection,
    flag_check prev_edge.turn_channel maneuver.turn_channel,
    if maneuver.HasExitSign then some false else none,
    flag_check prev_edge.ramp maneuver.ramp,
    flag_check prev_edge.ferry maneuver.ferry,
    flag_check prev_edge.rail_ferry maneuver.rail_ferry,
    flag_check prev_edge.roundabout maneuver.roundabout,
    some (names_check C prev_edge maneuver) ]

/-- The decision of the first check that applies. -/
def include_decision (C : Collaborators) (prev_edge : Edge) (maneuver : Maneuver) : Bool :=
  ((include_checks C prev_edge maneuver).findSome? id).getD false

/-- A path of three nodes with two internal-intersection edges that differ in
name and ramp flag. -/
def twoInternalEdgesPath : TripPath where
  node :=
    [ { edge := { name := ["Elm St"], length := 10, speed := 50, end_shape_index := 1,
                  internal_intersection := true, ramp := true } },
      { edge := { name := ["Oak Ave"], length := 12, speed := 50, begin_shape_index := 1,
                  end_shape_index := 2, internal_intersection := true } },
      {} ]

/-- An internal-intersection maneuver on Oak Ave beginning at node 1. -/
def internalOak : Maneuver :=
  { street_names := ["Oak Ave"], begin_node_index := 1, end_node_index := 2,
    internal_intersection := true }

/-- A ramp maneuver beginning at node 1 that carries an exit sign. -/
def signedRamp : Maneuver :=
  { street_names := ["Ramp"], begin_node_index := 1, end_node_index := 2, ramp := true,
    signs := { exit_toward := ["Harrisburg"] } }
/-- A plain maneuver with two street names, one of them Main St. -/
def twoNames : Maneuver :=
  { street_names := ["Main St", "US 1"], begin_node_index := 1, end_node_index := 2 }

/-- The begin edge of the maneuver exists and is a turn channel
(`man_begin_edge && man_begin_edge->turn_channel()`). -/
def begins_on_turn_channel (P : TripPath) (maneuver : Maneuver) : Bool :=
  match P.GetCurrEdge maneuver.begin_node_index with
  | some man_begin_edge => man_begin_edge.turn_channel
  | none => false

/-- A path of three nodes whose second edge is a turn channel, and whose
second node has one similar-heading alternative on the left. -/
def turnChannelPath : TripPath where
  node :=
    [ { edge := { name := ["Main St"], length := 100, speed := 50, end_shape_index := 4 } },
      { edge := { name := [], length := 15, speed := 30, begin_shape_index := 4,
                  end_shape_index := 6, turn_channel := true },
        CalculateRightLeftIntersectingEdgeCounts := fun _ =>
          { left_count := 1, left_similar_count := 1 } },
      {} ]

/-- A none-typed maneuver beginning at node 1, keeping right at a turn degree
of 5. -/
def keepRightManeuver : Maneuver :=
  { begin_node_index := 1, end_node_index := 2, turn_degree := 5,
    begin_relative_direction := RelativeDirection.kKeepRight }

/-- The body of `UsableInternalIntersectionName` (maneuversbuilder.cc 927–951)
with the value returned by `IsRightSideOfStreetDriving()` taken as the
argument `right_side_driving`.  `UsableInternalIntersectionName` is this
function at the value the source's `IsRightSideOfStreetDriving` returns. -/
def UsableInternalIntersectionName_side (right_side_driving : Bool) (C : Collaborators)
    (P : TripPath) (maneuver : Maneuver) (node_index : Nat) : Except Err Bool := do
  let turn_degree ← prev_prev_2prev_turn_degree C P node_index
  let relative_direction := DetermineRelativeDirection turn_degree
  if maneuver.internal_intersection
      && ((right_side_driving && relative_direction == RelativeDirection.kLeft)
        || (!right_side_driving && relative_direction == RelativeDirection.kRight)) then
    pure true
  else
    pure false

/-- A path of four nodes that turns left from Main St (heading 0) onto an
internal-intersection edge (heading 270). -/
def leftTurnPath : TripPath where
  node :=
    [ { edge := { name := ["Main St"], length := 100, speed := 50, end_shape_index := 4 } },
      { edge := { name := ["Elm St"], length := 10, speed := 50, begin_heading := 270,
                  end_heading := 270, begin_shape_index := 4, end_shape_index := 5,
                  internal_intersection := true } },
      { edge := { name := ["Oak Ave"], length := 200, speed := 50, begin_heading := 180,
                  end_heading := 180, begin_shape_index := 5, end_shape_index := 9 } },
      {} ]

/-- A path of three nodes without any internal-intersection edge: Main St,
then a right turn onto Oak Ave. -/
def rightTurnPath : TripPath where
  node :=
    [ { edge := { name := ["Main St"], length := 100, speed := 50, end_shape_index := 4 } },
      { edge :=
          { name := ["Oak Ave"], length := 200, speed := 50, begin_heading := 90,
            end_heading := 90, begin_shape_index := 4, end_shape_index := 9 } },
      {} ]

/-- A path of three nodes whose last edge is an internal-intersection edge. -/
def internalLastPath : TripPath where
  node :=
    [ { edge := { name := ["Main St"], length := 100, speed := 50, end_shape_index := 4 } },
      { edge :=
          { name := ["Elm St"], length := 10, speed := 50, begin_shape_index := 4,
            end_shape_index := 5, internal_intersection := true } },
      {} ]

/-- A path of three nodes whose first edge is an internal-intersection edge
and whose second edge is a roundabout edge. -/
def internalRoundaboutPath : TripPath where
  node :=
    [ { edge :=
          { name := ["Elm St"], length := 10, speed := 50, end_shape_index := 1,
            internal_intersection := true } },
      { edge :=
          { name := ["Ring Rd"], length := 100, speed := 50, begin_shape_index := 1,
            end_shape_index := 5, roundabout := true } },
      {} ]

/-- The calls of `CanManeuverIncludePrevEdge` that the `for` loop of `Produce`
makes from index `i` down to 1 with the open maneuver `front`: the node index
of each call and the decision it returned, in the order of the calls.  The
maneuvers pass through the loop body as in `ProduceLoop`; the record ends
where a step of the body fails. -/
def ProduceLoop_decisions (C : Collaborators) (P : TripPath) :
    Nat → Maneuver → List (Nat × Bool)
  | 0, _ => []
  | i + 1, front =>
      match CanManeuverIncludePrevEdge C P front (i + 1) with
      | Except.ok (true, front) =>
          (i + 1, true) ::
            (match UpdateManeuver C P front (i + 1) with
              | Except.ok front => ProduceLoop_decisions C P i front
              | Except.error _ => [])
      | Except.ok (false, front) =>
          (i + 1, false) ::
            (match FinalizeManeuver C P front (i + 1), InitializeManeuver C P {} (i + 1) with
              | Except.ok _, Except.ok opened => ProduceLoop_decisions C P i opened
              | _, _ => [])
      | Except.error _ => []

/-- The calls of `CanManeuverIncludePrevEdge` in a run of `Produce`: those of
its loop, which starts below the last node with the maneuver that
`InitializeManeuver` opened there. -/
def Produce_decisions (C : Collaborators) (P : TripPath) : List (Nat × Bool) :=
  match InitializeManeuver C P {} P.GetLastNodeIndex with
  | Except.ok opened => ProduceLoop_decisions C P (P.GetLastNodeIndex - 1) opened
  | Except.error _ => []

/-- The maneuver is homogeneous in the internal-intersection attribute: every
path edge from its begin node to its end node (the edge leaving node `k` for
`begin_node_index ≤ k < end_node_index`) has the flag of the maneuver. -/
def internal_homogeneous (P : TripPath) (m : Maneuver) : Prop :=
  ∀ k, k < m.end_node_index → m.begin_node_index ≤ k →
    (P.GetCurrEdge k).map Edge.internal_intersection = some m.internal_intersection

instance (P : TripPath) (m : Maneuver) : Decidable (internal_homogeneous P m) := by
  unfold internal_homogeneous
  infer_instance

/-- A path of four nodes: two edges of Main St, then a right turn onto Oak
Ave. -/
def mainThenOakPath : TripPath where
  node :=
    [ { edge := { name := ["Main St"], length := 100, speed := 50, end_shape_index := 4 } },
      { edge :=
          { name := ["Main St"], length := 50, speed := 50, begin_shape_index := 4,
            end_shape_index := 6 } },
      { edge :=
          { name := ["Oak Ave"], length := 200, speed := 50, begin_heading := 90,
            end_heading := 90, begin_shape_index := 6, end_shape_index := 9 } },
      {} ]

/-- A path of three nodes whose first edge is an internal-intersection edge
and whose second edge is a ramp with an exit-number sign. -/
def internalThenExitPath : TripPath where
  node :=
    [ { edge :=
          { name := ["Elm St"], length := 10, speed := 50, end_shape_index := 1,
            internal_intersection := true } },
      { edge :=
          { name := ["Exit 12"], length := 100, speed := 50, begin_shape_index := 1,
            end_shape_index := 5, ramp := true, has_sign := true,
            sign := { exit_number := ["12"] } } },
      {} ]

/-- A path of three nodes whose first edge is an internal-intersection edge
and whose second edge is a ramp without signs. -/
def internalThenRampPath : TripPath where
  node :=
    [ { edge :=
          { name := ["Elm St"], length := 10, speed := 50, end_shape_index := 1,
            internal_intersection := true } },
      { edge :=
          { name := ["Ramp"], length := 100, speed := 50, begin_shape_index := 1,
            end_shape_index := 5, ramp := true } },
      {} ]

/-- A path of three nodes whose first edge is an internal-intersection edge
and whose second edge is a ferry. -/
def internalThenFerryPath : TripPath where
  node :=
    [ { edge :=
          { name := ["Elm St"], length := 10, speed := 50, end_shape_index := 1,
            internal_intersection := true } },
      { edge :=
          { name := ["Ferry"], length := 100, speed := 50, begin_shape_index := 1,
            end_shape_index := 5, ferry := true } },
      {} ]

end Odin

/-! ## midgard and baldr: constants, timezones and time strings

The date-time helpers of `valhalla/baldr/datetime.h` and
`src/baldr/datetime.cc`.  A `std::string` is read as its list of characters,
an `int32_t` is an integer kept in range by `int32`, a thrown
`std::invalid_argument` or `std::out_of_range` and a read past the end of a
vector are results in `Except Err`. -/

namespace Midgard

/-- Modelled from the spec: `midgard::kSecondsPerMinute`, declared in
`valhalla/midgard/constants.h`, which is outside the given sources. -/
def kSecondsPerMinute : Int := 60

/-- Modelled from the spec: `midgard::kSecondsPerHour`, declared in
`valhalla/midgard/constants.h`, which is outside the given sources. -/
def kSecondsPerHour : Int := 3600

/-- Modelled from the spec: `midgard::kSecondsPerWeek`, declared in
`valhalla/midgard/constants.h`, which is outside the given sources. -/
def kSecondsPerWeek : Int := 604800

end Midgard

namespace Baldr
namespace DateTime

/-- How a date-time function can end without a value: the two exceptions of
`std::stoi`, a read of `timezones_[0]` in an empty vector, and the fuel of the
model's loop (never reached, see `timestring_loop_fuel`). -/
inductive Err where
  | invalid_argument
  | out_of_range
  | out_of_bounds
  | fuel_exhausted
  deriving DecidableEq, Repr

/-- Smallest value of an `int32_t`. -/
def INT32_MIN : Int := -2147483648

/-- Largest value of an `int32_t`. -/
def INT32_MAX : Int := 2147483647

/-- The `int32_t` that holds the integer `x` on a two's-complement machine:
`x` itself when it is in range, else `x` reduced modulo `2^32`. -/
def int32 (x : Int) : Int := (x + 2147483648) % 4294967296 - 2147483648

/-- `normalize_seconds_of_week` (datetime.h 268–276).  One week is added to a
negative input and subtracted from an input above one week; the sum and the
difference are stored in the `int32_t` result. -/
def normalize_seconds_of_week (secs : Int) : Int :=
  if secs < 0 then int32 (secs + Midgard.kSecondsPerWeek)
  else if secs > Midgard.kSecondsPerWeek then int32 (secs - Midgard.kSecondsPerWeek)
  else secs

/-- C `isspace` in the default locale: space, and the controls 9 to 13. -/
def isspace (c : Char) : Bool := c.toNat = 32 || (9 ≤ c.toNat && c.toNat ≤ 13)

/-- C `isdigit`: the characters 0 to 9. -/
def isdigit (c : Char) : Bool := 48 ≤ c.toNat && c.toNat ≤ 57

/-- Value of a string of decimal digits, most significant digit first. -/
def decimal_value (ds : List Char) : Nat :=
  ds.foldl (fun acc c => 10 * acc + (c.toNat - 48)) 0

/-- `std::stoi(str)` of the C++ standard library, base 10: leading white space
is skipped, one sign is accepted, the longest run of digits is converted and
what follows it is ignored; no digit throws `std::invalid_argument`, a value
outside `int` throws `std::out_of_range`. -/
def stoi (str : List Char) : Except Err Int :=
  let s := str.dropWhile isspace
  let negative : Bool := s.head? = some '-'
  let s := if s.head? = some '-' ∨ s.head? = some '+' then s.drop 1 else s
  let ds := s.takeWhile isdigit
  if ds.isEmpty then throw Err.invalid_argument
  else
    let v : Int := if negative then -(decimal_value ds : Int) else (decimal_value ds : Int)
    if v < INT32_MIN ∨ INT32_MAX < v then throw Err.out_of_range else pure v

/-- `std::getline(ss, item, delim)` on the unread characters of the stream:
`none` when nothing is left to read (the extraction fails and the loop ends),
else the characters before the first delimiter and the characters after it. -/
def getline (delim : Char) (ss : List Char) : Option (List Char × List Char) :=
  match ss with
  | [] => none
  | _ :: _ => some (ss.takeWhile (fun c => c != delim),
      (ss.dropWhile (fun c => c != delim)).drop 1)

/-- The `while (std::getline(ss, item, ':'))` loop of `timestring_to_seconds`
(datetime.cc 121–129) on the unread characters `ss`, with the running `secs`
and `multiplier`.  Each round reads at least one character, so a fuel of one
more than the number of unread characters is never exhausted. -/
def timestring_loop (negate : Bool) :
    Nat → List Char → Int → Int → Except Err Int
  | 0, _, _, _ => throw Err.fuel_exhausted
  | fuel + 1, ss, secs, multiplier =>
      match getline ':' ss with
      | none => pure secs
      | some (item, rest) => do
          let v ← stoi item
          let secs :=
            if negate then int32 (secs - int32 (v * multiplier))
            else int32 (secs + int32 (v * multiplier))
          let multiplier :=
            if multiplier = Midgard.kSecondsPerHour then Midgard.kSecondsPerMinute else 1
          timestring_loop negate fuel rest secs multiplier

/-- `timestring_to_seconds` (datetime.cc 106–131): an optional leading sign,
then the items between colons, the first counted in hours, the second in
minutes and every later one in seconds. -/
def timestring_to_seconds (str : String) : Except Err Int :=
  let negate : Bool := str.data.head? = some '-'
  let idx : Nat := if str.data.head? = some '-' ∨ str.data.head? = some '+' then 1 else 0
  let s := str.data.drop idx
  timestring_loop negate (s.length + 1) s 0 Midgard.kSecondsPerHour

/-- `TimezoneInfo` (datetime.h 29–63). -/
structure TimezoneInfo where
  id_ : String := ""
  abbrev_ : String := ""
  name_ : String := ""
  dst_abbrev_ : String := ""
  dst_name_ : String := ""
  gmt_offset_ : String := ""
  dst_adjust_ : String := ""
  start_date_ : String := ""
  start_time_ : String := ""
  end_date_ : String := ""
  end_time_ : String := ""
  gmt_offset_secs_ : Int := 0
  deriving DecidableEq, Repr

/-- `TimezoneInfo::operator==`: two entries are equal when their ids are. -/
def TimezoneInfo.eq (a other : TimezoneInfo) : Bool := a.id_ == other.id_

/-- `std::find(first, last, comp)` over the vector, as the distance of the
returned iterator from `first`: the position of the first element equal to
`comp`, or the length of the vector when there is none. -/
def std_find (timezones : List TimezoneInfo) (comp : TimezoneInfo) : Nat :=
  match timezones with
  | [] => 0
  | tz :: rest => if tz.eq comp then 0 else std_find rest comp + 1

/-- `TimezoneDB` (datetime.h 65–98): the vector of timezones. -/
structure TimezoneDB where
  timezones_ : List TimezoneInfo := []
  deriving DecidableEq, Repr

/-- `TimezoneDB::to_index` (datetime.h 74–83). -/
def TimezoneDB.to_index (db : TimezoneDB) (id : String) : Nat :=
  let comp : TimezoneInfo := { id_ := id }
  let it := std_find db.timezones_ comp
  if it = db.timezones_.length then 0 else it + 1

/-- `TimezoneDB::from_index` (datetime.h 88–95).  An index out of range
returns the first timezone; in an empty vector that read is out of bounds. -/
def TimezoneDB.from_index (db : TimezoneDB) (index : Nat) : Except Err TimezoneInfo :=
  if index < 1 ∨ index > db.timezones_.length then
    match db.timezones_[0]? with
    | some tz => pure tz
    | none => throw Err.out_of_bounds
  else
    match db.timezones_[index - 1]? with
    | some tz => pure tz
    | none => throw Err.out_of_bounds

/-- A database of three timezones, two of them with the same id. -/
def sampleTimezoneDB : TimezoneDB where
  timezones_ :=
    [ { id_ := "America/New_York", gmt_offset_secs_ := -18000 },
      { id_ := "America/Chicago", gmt_offset_secs_ := -21600 },
      { id_ := "America/Chicago", name_ := "duplicate", gmt_offset_secs_ := -21600 } ]

/-- The digit string `ds` writes the natural number `n` in decimal: it is not
empty, holds digits only, and its value is `n` (leading zeros allowed). -/
def written_in_decimal (ds : List Char) (n : Nat) : Bool :=
  !ds.isEmpty && ds.all isdigit && decimal_value ds == n

/-- `DateTime::is_restricted` (datetime.cc 321–337): whether the date falls in
the range of a restriction.  The body returns false; what follows the return
is commented out. -/
def is_restricted (_type : Bool) (_begin_hrs _begin_mins _end_hrs _end_mins _dow
    _begin_week _begin_month _begin_day_dow _end_week _end_month _end_day_dow : Nat)
    (_current_time : Nat) (_time_zone : TimezoneInfo) : Bool :=
  false

/-- `DateTime::seconds_to_date` (datetime.cc 172–319) as a function from the
two strings passed by reference to their values on return.  The whole body is
commented out, so nothing is assigned. -/
def seconds_to_date (_is_depart_at : Bool) (_origin_seconds _dest_seconds : Nat)
    (_origin_tz _dest_tz : TimezoneInfo) (iso_origin iso_dest : String) : String × String :=
  (iso_origin, iso_dest)

end DateTime
end Baldr

/-! ## sif: pedestrian costing

The option parsing, the constructor and the edge access check of
`src/sif/pedestriancost.cc`.  A `float` is read as a rational number (JSON
numbers are finite, and the comparisons that matter are exact on the
constants below); a `uint32_t` is a natural number, reduced modulo `2^32`
where the source adds two of them. -/

namespace Sif

/-- Modelled from the spec: `ranged_default_t<T>` of `sif/costconstants.h`,
which is outside the given sources: a range `[min, max]` with a default. -/
structure ranged_default_t (α : Type) where
  min : α
  def_ : α
  max : α

/-- Modelled from the spec: `ranged_default_t<T>::operator()`, outside the
given sources.  A value outside `[min, max]` is replaced by the default, a
value inside is returned as it is. -/
def ranged_default_t.apply {α : Type} [LT α] [DecidableRel (fun a b : α => a < b)]
    (r : ranged_default_t α) (value : α) : α :=
  if value < r.min ∨ value > r.max then r.def_ else value

/-- The condition on a range constant: `min <= default <= max`. -/
def ranged_default_t.valid {α : Type} [LE α] (r : ranged_default_t α) : Prop :=
  r.min ≤ r.def_ ∧ r.def_ ≤ r.max

/-- The value lies within `[min, max]` of the range. -/
def ranged_default_t.contains {α : Type} [LE α] (r : ranged_default_t α) (value : α) : Prop :=
  r.min ≤ value ∧ value ≤ r.max

/-- Modelled from the spec: `midgard::kSecPerHour`, declared outside the given
sources. -/
def kSecPerHour : ℚ := 3600

def kMaxDistanceFoot : Nat := 100000
def kMaxDistanceWheelchair : Nat := 10000
def kDefaultSpeedFoot : ℚ := 5.1
def kDefaultSpeedWheelchair : ℚ := 4.0
def kDefaultStepPenaltyFoot : ℚ := 30.0
def kDefaultStepPenaltyWheelchair : ℚ := 600.0
def kDefaultMaxGradeFoot : Nat := 90
def kDefaultMaxGradeWheelchair : Nat := 12
def kDefaultMaxHikingDifficulty : Nat := 1
def kModeFactor : ℚ := 1.5
def kDefaultManeuverPenalty : ℚ := 5.0
def kDefaultGatePenalty : ℚ := 10.0
def kDefaultWalkwayFactor : ℚ := 0.9
def kDefaultSideWalkFactor : ℚ := 0.95
def kDefaultAlleyFactor : ℚ := 2.0
def kDefaultDrivewayFactor : ℚ := 5.0
def kDefaultFerryCost : ℚ := 300.0
def kDefaultCountryCrossingCost : ℚ := 600.0
def kDefaultCountryCrossingPenalty : ℚ := 0.0
def kDefaultUseFerry : ℚ := 1.0
def kTransitStartEndMaxDistance : Nat := 2415
def kTransitTransferMaxDistance : Nat := 805
def kMaxFerryPenalty : ℚ := 8.0 * 3600.0
def kMinPedestrianSpeed : ℚ := 0.5
def kMaxPedestrianSpeed : ℚ := 25.0
def kMaxSeconds : ℚ := 12.0 * kSecPerHour
def kMinFactor : ℚ := 0.1
def kMaxFactor : ℚ := 100000.0

def kMaxDistanceWheelchairRange : ranged_default_t Nat :=
  ⟨0, kMaxDistanceWheelchair, kMaxDistanceFoot⟩
def kMaxDistanceFootRange : ranged_default_t Nat := ⟨0, kMaxDistanceFoot, kMaxDistanceFoot⟩
def kSpeedWheelchairRange : ranged_default_t ℚ :=
  ⟨kMinPedestrianSpeed, kDefaultSpeedWheelchair, kMaxPedestrianSpeed⟩
def kSpeedFootRange : ranged_default_t ℚ :=
  ⟨kMinPedestrianSpeed, kDefaultSpeedFoot, kMaxPedestrianSpeed⟩
def kStepPenaltyWheelchairRange : ranged_default_t ℚ :=
  ⟨0, kDefaultStepPenaltyWheelchair, kMaxSeconds⟩
def kStepPenaltyFootRange : ranged_default_t ℚ := ⟨0, kDefaultStepPenaltyFoot, kMaxSeconds⟩
def kMaxGradeWheelchairRange : ranged_default_t Nat :=
  ⟨0, kDefaultMaxGradeWheelchair, kDefaultMaxGradeFoot⟩
def kMaxGradeFootRange : ranged_default_t Nat :=
  ⟨0, kDefaultMaxGradeFoot, kDefaultMaxGradeFoot⟩
def kMaxHikingDifficultyRange : ranged_default_t Nat := ⟨0, kDefaultMaxHikingDifficulty, 6⟩
def kModeFactorRange : ranged_default_t ℚ := ⟨kMinFactor, kModeFactor, kMaxFactor⟩
def kManeuverPenaltyRange : ranged_default_t ℚ :=
  ⟨kMinFactor, kDefaultManeuverPenalty, kMaxSeconds⟩
def kGatePenaltyRange : ranged_default_t ℚ := ⟨kMinFactor, kDefaultGatePenalty, kMaxSeconds⟩
def kWalkwayFactorRange : ranged_default_t ℚ := ⟨kMinFactor, kDefaultWalkwayFactor, kMaxFactor⟩
def kSideWalkFactorRange : ranged_default_t ℚ :=
  ⟨kMinFactor, kDefaultSideWalkFactor, kMaxFactor⟩
def kAlleyFactorRange : ranged_default_t ℚ := ⟨kMinFactor, kDefaultAlleyFactor, kMaxFactor⟩
def kDrivewayFactorRange : ranged_default_t ℚ :=
  ⟨kMinFactor, kDefaultDrivewayFactor, kMaxFactor⟩
def kFerryCostRange : ranged_default_t ℚ := ⟨0, kDefaultFerryCost, kMaxSeconds⟩
def kCountryCrossingCostRange : ranged_default_t ℚ :=
  ⟨0, kDefaultCountryCrossingCost, kMaxSeconds⟩
def kCountryCrossingPenaltyRange : ranged_default_t ℚ :=
  ⟨0, kDefaultCountryCrossingPenalty, kMaxSeconds⟩
def kTransitStartEndMaxDistanceRange : ranged_default_t Nat :=
  ⟨0, kTransitStartEndMaxDistance, 100000⟩
def kTransitTransferMaxDistanceRange : ranged_default_t Nat :=
  ⟨0, kTransitTransferMaxDistance, 50000⟩
def kUseFerryRange : ranged_default_t ℚ := ⟨0, kDefaultUseFerry, 1.0⟩

/-- The children of the pedestrian costing options of the request JSON, each
as `rapidjson::get_optional` returns it: `none` when the member is absent or
not of the type asked for. -/
structure PedestrianJson where
  maneuver_penalty : Option ℚ := none
  gate_penalty : Option ℚ := none
  country_crossing_cost : Option ℚ := none
  country_crossing_penalty : Option ℚ := none
  ferry_cost : Option ℚ := none
  use_ferry : Option ℚ := none
  type : Option String := none
  max_distance : Option Nat := none
  walking_speed : Option ℚ := none
  step_penalty : Option ℚ := none
  max_grade : Option Nat := none
  max_hiking_difficulty : Option Nat := none
  mode_factor : Option ℚ := none
  walkway_factor : Option ℚ := none
  sidewalk_factor : Option ℚ := none
  alley_factor : Option ℚ := none
  driveway_factor : Option ℚ := none
  transit_start_end_max_distance : Option Nat := none
  transit_transfer_max_distance : Option Nat := none

/-- Modelled from the spec: the fields of `odin::CostingOptions` (a protocol
buffer message declared outside the given sources) that the pedestrian
costing sets and reads. -/
structure CostingOptions where
  maneuver_penalty : ℚ := 0
  gate_penalty : ℚ := 0
  country_crossing_cost : ℚ := 0
  country_crossing_penalty : ℚ := 0
  ferry_cost : ℚ := 0
  use_ferry : ℚ := 0
  transport_type : String := ""
  max_distance : Nat := 0
  walking_speed : ℚ := 0
  step_penalty : ℚ := 0
  max_grade : Nat := 0
  max_hiking_difficulty : Nat := 0
  mode_factor : ℚ := 0
  walkway_factor : ℚ := 0
  sidewalk_factor : ℚ := 0
  alley_factor : ℚ := 0
  driveway_factor : ℚ := 0
  transit_start_end_max_distance : Nat := 0
  transit_transfer_max_distance : Nat := 0

/-- `ParsePedestrianCostOptions` (pedestriancost.cc 679–828), as the options
it leaves in `pbf_costing_options`; the argument is the child of the document
under the costing options key, if there is one.  The hiking difficulty is
read as a `uint32_t` and passed to a range over `uint8_t`, which keeps its
low eight bits. -/
def ParsePedestrianCostOptions (json_costing_options : Option PedestrianJson) :
    CostingOptions :=
  match json_costing_options with
  | some json =>
      let transport_type := json.type.getD "foot"
      let wheelchair : Bool := transport_type = "wheelchair"
      { maneuver_penalty :=
          kManeuverPenaltyRange.apply (json.maneuver_penalty.getD kDefaultManeuverPenalty)
        gate_penalty := kGatePenaltyRange.apply (json.gate_penalty.getD kDefaultGatePenalty)
        country_crossing_cost :=
          kCountryCrossingCostRange.apply
            (json.country_crossing_cost.getD kDefaultCountryCrossingCost)
        country_crossing_penalty :=
          kCountryCrossingPenaltyRange.apply
            (json.country_crossing_penalty.getD kDefaultCountryCrossingPenalty)
        ferry_cost := kFerryCostRange.apply (json.ferry_cost.getD kDefaultFerryCost)
        use_ferry := kUseFerryRange.apply (json.use_ferry.getD kDefaultUseFerry)
        transport_type := transport_type
        max_distance :=
          if wheelchair then
            kMaxDistanceWheelchairRange.apply (json.max_distance.getD kMaxDistanceWheelchair)
          else kMaxDistanceFootRange.apply (json.max_distance.getD kMaxDistanceFoot)
        walking_speed :=
          if wheelchair then
            kSpeedWheelchairRange.apply (json.walking_speed.getD kDefaultSpeedWheelchair)
          else kSpeedFootRange.apply (json.walking_speed.getD kDefaultSpeedFoot)
        step_penalty :=
          if wheelchair then
            kStepPenaltyWheelchairRange.apply
              (json.step_penalty.getD kDefaultStepPenaltyWheelchair)
          else kStepPenaltyFootRange.apply (json.step_penalty.getD kDefaultStepPenaltyFoot)
        max_grade :=
          if wheelchair then
            kMaxGradeWheelchairRange.apply (json.max_grade.getD kDefaultMaxGradeWheelchair)
          else kMaxGradeFootRange.apply (json.max_grade.getD kDefaultMaxGradeFoot)
        max_hiking_difficulty :=
          kMaxHikingDifficultyRange.apply
            ((json.max_hiking_difficulty.getD kDefaultMaxHikingDifficulty) % 256)
        mode_factor := kModeFactorRange.apply (json.mode_factor.getD kModeFactor)
        walkway_factor :=
          kWalkwayFactorRange.apply (json.walkway_factor.getD kDefaultWalkwayFactor)
        sidewalk_factor :=
          kSideWalkFactorRange.apply (json.sidewalk_factor.getD kDefaultSideWalkFactor)
        alley_factor := kAlleyFactorRange.apply (json.alley_factor.getD kDefaultAlleyFactor)
        driveway_factor :=
          kDrivewayFactorRange.apply (json.driveway_factor.getD kDefaultDrivewayFactor)
        transit_start_end_max_distance :=
          kTransitStartEndMaxDistanceRange.apply
            (json.transit_start_end_max_distance.getD kTransitStartEndMaxDistance)
        transit_transfer_max_distance :=
          kTransitTransferMaxDistanceRange.apply
            (json.transit_transfer_max_distance.getD kTransitTransferMaxDistance) }
  | none =>
      { maneuver_penalty := kDefaultManeuverPenalty
        gate_penalty := kDefaultGatePenalty
        country_crossing_cost := kDefaultCountryCrossingCost
        country_crossing_penalty := kDefaultCountryCrossingPenalty
        ferry_cost := kDefaultFerryCost
        use_ferry := kDefaultUseFerry
        transport_type := "foot"
        max_distance := kMaxDistanceFoot
        walking_speed := kDefaultSpeedFoot
        step_penalty := kDefaultStepPenaltyFoot
        max_grade := kDefaultMaxGradeFoot
        max_hiking_difficulty := kDefaultMaxHikingDifficulty
        mode_factor := kModeFactor
        walkway_factor := kDefaultWalkwayFactor
        sidewalk_factor := kDefaultSideWalkFactor
        alley_factor := kDefaultAlleyFactor
        driveway_factor := kDefaultDrivewayFactor
        transit_start_end_max_distance := kTransitStartEndMaxDistance
        transit_transfer_max_distance := kTransitTransferMaxDistance }

/-- `PedestrianType`. -/
inductive PedestrianType where
  | kFoot
  | kWheelchair
  | kSegway
  deriving DecidableEq, Repr

/-- Modelled from the spec: the values of `baldr::Use` that the pedestrian
costing tests (the enumeration is declared outside the given sources); every
other use is `kOther`. -/
inductive Use where
  | kFootway
  | kAlley
  | kDriveway
  | kSidewalk
  | kSteps
  | kFerry
  | kPlatformConnection
  | kEgressConnection
  | kTransitConnection
  | kOther
  deriving DecidableEq, Repr

/-- Modelled from the spec: `baldr::AccessType` of a timed access restriction
(declared outside the given sources). -/
inductive AccessType where
  | kTimedAllowed
  | kTimedDenied
  | kOther
  deriving DecidableEq, Repr

/-- Modelled from the spec: an access restriction, its type and its value. -/
structure AccessRestriction where
  type : AccessType := AccessType.kOther
  value : Nat := 0
  deriving DecidableEq, Repr

/-- Modelled from the spec: the attributes of a `baldr::DirectedEdge` that
`PedestrianCost::Allowed` and the transition costs read (the class is declared
outside the given sources).  `surface` and `sac_scale` are the numeric values
of their enumerations, a larger surface being a worse one; `edge_to_right`,
`edge_to_left` and `stopimpact` take the local index of the other edge. -/
structure DirectedEdge where
  forwardaccess : Nat := 0
  surface : Nat := 0
  is_shortcut : Bool := false
  sac_scale : Nat := 0
  max_up_slope : Nat := 0
  max_down_slope : Nat := 0
  length : Nat := 0
  use : Use := Use.kOther
  access_restriction : Bool := false
  link : Bool := false
  localedgeidx : Nat := 0
  edge_to_right : Nat → Bool := fun _ => false
  edge_to_left : Nat → Bool := fun _ => false
  stopimpact : Nat → Nat := fun _ => 0

/-- Modelled from the spec: the access masks and surfaces the constructor
assigns, constants of `baldr/graphconstants.h`, outside the given sources. -/
def kPedestrianAccess : Nat := 2

/-- Modelled from the spec: see `kPedestrianAccess`. -/
def kWheelchairAccess : Nat := 256

/-- Modelled from the spec: `Surface::kCompacted`. -/
def Surface_kCompacted : Nat := 3

/-- Modelled from the spec: `Surface::kPath`. -/
def Surface_kPath : Nat := 6

/-- The members of `PedestrianCost` (pedestriancost.cc 361–405), with
`allow_transit_connections_` of the base class `DynamicCost`. -/
structure PedestrianCost where
  type_ : PedestrianType := PedestrianType.kFoot
  access_mask_ : Nat := 0
  max_distance_ : Nat := 0
  mode_factor_ : ℚ := 0
  transit_start_end_max_distance_ : Nat := 0
  transit_transfer_max_distance_ : Nat := 0
  minimal_allowed_surface_ : Nat := 0
  max_grade_ : Nat := 0
  max_hiking_difficulty_ : Nat := 0
  speed_ : ℚ := 0
  speedfactor_ : ℚ := 0
  walkway_factor_ : ℚ := 0
  sidewalk_factor_ : ℚ := 0
  alley_factor_ : ℚ := 0
  driveway_factor_ : ℚ := 0
  step_penalty_ : ℚ := 0
  gate_penalty_ : ℚ := 0
  maneuver_penalty_ : ℚ := 0
  country_crossing_cost_ : ℚ := 0
  country_crossing_penalty_ : ℚ := 0
  ferry_cost_ : ℚ := 0
  ferry_penalty_ : ℚ := 0
  ferry_factor_ : ℚ := 0
  use_ferry_ : ℚ := 0
  allow_transit_connections_ : Bool := false

/-- The constructor `PedestrianCost::PedestrianCost` (pedestriancost.cc
409–478) on the costing options of the request. -/
def PedestrianCost.ctor (costing_options : CostingOptions) : PedestrianCost :=
  let type_ :=
    if costing_options.transport_type = "wheelchair" then PedestrianType.kWheelchair
    else if costing_options.transport_type = "segway" then PedestrianType.kSegway
    else PedestrianType.kFoot
  let use_ferry_ := costing_options.use_ferry
  { type_ := type_
    access_mask_ :=
      if type_ = PedestrianType.kWheelchair then kWheelchairAccess else kPedestrianAccess
    minimal_allowed_surface_ :=
      if type_ = PedestrianType.kWheelchair then Surface_kCompacted else Surface_kPath
    max_distance_ := costing_options.max_distance
    speed_ := costing_options.walking_speed
    step_penalty_ := costing_options.step_penalty
    max_grade_ := costing_options.max_grade
    max_hiking_difficulty_ :=
      if type_ = PedestrianType.kFoot then costing_options.max_hiking_difficulty else 0
    mode_factor_ := costing_options.mode_factor
    maneuver_penalty_ := costing_options.maneuver_penalty
    gate_penalty_ := costing_options.gate_penalty
    walkway_factor_ := costing_options.walkway_factor
    sidewalk_factor_ := costing_options.sidewalk_factor
    alley_factor_ := costing_options.alley_factor
    driveway_factor_ := costing_options.driveway_factor
    ferry_cost_ := costing_options.ferry_cost
    country_crossing_cost_ := costing_options.country_crossing_cost
    country_crossing_penalty_ := costing_options.country_crossing_penalty
    transit_start_end_max_distance_ := costing_options.transit_start_end_max_distance
    transit_transfer_max_distance_ := costing_options.transit_transfer_max_distance
    use_ferry_ := use_ferry_
    ferry_penalty_ :=
      if use_ferry_ < 0.5 then ((Int.toNat ⌊kMaxFerryPenalty * (1.0 - use_ferry_ * 2.0)⌋ : Nat) : ℚ)
      else 0.0
    ferry_factor_ := if use_ferry_ < 0.5 then 10.0 - use_ferry_ * 18.0 else 1.5 - use_ferry_
    speedfactor_ := (kSecPerHour * 0.001) / costing_options.walking_speed
    allow_transit_connections_ := false }

/-- The loop of `PedestrianCost::Allowed` over the access restrictions of the
edge: the first timed restriction decides; `none` when there is none.
`IsRestricted` belongs to the base class `DynamicCost`, outside the given
sources, and is taken as the argument of that name. -/
def restrictions_loop (IsRestricted : Nat → Nat → Nat → Bool) (current_time tz_index : Nat) :
    List AccessRestriction → Option Bool
  | [] => none
  | restriction :: rest =>
      if restriction.type = AccessType.kTimedAllowed then
        some (if current_time ≠ 0 ∧ restriction.value ≠ 0 then
          IsRestricted restriction.value current_time tz_index else true)
      else if restriction.type = AccessType.kTimedDenied then
        some (if current_time ≠ 0 ∧ restriction.value ≠ 0 then
          !IsRestricted restriction.value current_time tz_index else false)
      else restrictions_loop IsRestricted current_time tz_index rest

/-- `PedestrianCost::Allowed` for a directed edge (pedestriancost.cc 484–525).
`path_distance` is `pred.path_distance()`, `user_avoid` the result of
`IsUserAvoidEdge(edgeid)`, `restrictions` what
`tile->GetAccessRestrictions(edgeid.id(), access_mask_)` returns; the sum of
two `uint32_t` is reduced modulo `2^32`.  The test of the maximum grade is
commented out in the source and so is absent here. -/
def PedestrianCost.Allowed (c : PedestrianCost) (edge : DirectedEdge) (path_distance : Nat)
    (user_avoid : Bool) (restrictions : List AccessRestriction)
    (IsRestricted : Nat → Nat → Nat → Bool) (current_time tz_index : Nat) : Bool :=
  if edge.forwardaccess &&& c.access_mask_ = 0 ∨ edge.surface > c.minimal_allowed_surface_
      ∨ edge.is_shortcut = true ∨ user_avoid = true
      ∨ edge.sac_scale > c.max_hiking_difficulty_
      ∨ (path_distance + edge.length) % 4294967296 > c.max_distance_ then
    false
  else if c.allow_transit_connections_ = false
      ∧ (edge.use = Use.kPlatformConnection ∨ edge.use = Use.kEgressConnection
        ∨ edge.use = Use.kTransitConnection) then
    false
  else if edge.access_restriction then
    match restrictions_loop IsRestricted current_time tz_index restrictions with
    | some allowed => allowed
    | none => true
  else true

/-- The wheelchair costing built from a request that gives the type only: its
maximum grade is the default 12. -/
def wheelchairCost : PedestrianCost :=
  PedestrianCost.ctor (ParsePedestrianCostOptions (some { type := some "wheelchair" }))

/-- A paved edge of 50 metres open to every mode, rising by up to 30 percent. -/
def steepEdge : DirectedEdge :=
  { forwardaccess := 4095, surface := 1, length := 50, max_up_slope := 30 }

/-- Every option stored by `ParsePedestrianCostOptions` lies within the range
of its name; the range of the four options that depend on the transport type
is the wheelchair range for the type `wheelchair` and the foot range
otherwise. -/
def options_within_ranges (o : CostingOptions) : Prop :=
  kManeuverPenaltyRange.contains o.maneuver_penalty
  ∧ kGatePenaltyRange.contains o.gate_penalty
  ∧ kCountryCrossingCostRange.contains o.country_crossing_cost
  ∧ kCountryCrossingPenaltyRange.contains o.country_crossing_penalty
  ∧ kFerryCostRange.contains o.ferry_cost
  ∧ kUseFerryRange.contains o.use_ferry
  ∧ (if o.transport_type = "wheelchair" then
      kMaxDistanceWheelchairRange.contains o.max_distance
      ∧ kSpeedWheelchairRange.contains o.walking_speed
      ∧ kStepPenaltyWheelchairRange.contains o.step_penalty
      ∧ kMaxGradeWheelchairRange.contains o.max_grade
    else
      kMaxDistanceFootRange.contains o.max_distance
      ∧ kSpeedFootRange.contains o.walking_speed
      ∧ kStepPenaltyFootRange.contains o.step_penalty
      ∧ kMaxGradeFootRange.contains o.max_grade)
  ∧ kMaxHikingDifficultyRange.contains o.max_hiking_difficulty
  ∧ kModeFactorRange.contains o.mode_factor
  ∧ kWalkwayFactorRange.contains o.walkway_factor
  ∧ kSideWalkFactorRange.contains o.sidewalk_factor
  ∧ kAlleyFactorRange.contains o.alley_factor
  ∧ kDrivewayFactorRange.contains o.driveway_factor
  ∧ kTransitStartEndMaxDistanceRange.contains o.transit_start_end_max_distance
  ∧ kTransitTransferMaxDistanceRange.contains o.transit_transfer_max_distance

/-- Every field of `PedestrianCost` that holds an option lies within the range
of that option. -/
def cost_within_ranges (c : PedestrianCost) : Prop :=
  kManeuverPenaltyRange.contains c.maneuver_penalty_
  ∧ kGatePenaltyRange.contains c.gate_penalty_
  ∧ kCountryCrossingCostRange.contains c.country_crossing_cost_
  ∧ kCountryCrossingPenaltyRange.contains c.country_crossing_penalty_
  ∧ kFerryCostRange.contains c.ferry_cost_
  ∧ kUseFerryRange.contains c.use_ferry_
  ∧ (if c.type_ = PedestrianType.kWheelchair then
      kMaxDistanceWheelchairRange.contains c.max_distance_
      ∧ kSpeedWheelchairRange.contains c.speed_
      ∧ kStepPenaltyWheelchairRange.contains c.step_penalty_
      ∧ kMaxGradeWheelchairRange.contains c.max_grade_
    else
      kMaxDistanceFootRange.contains c.max_distance_
      ∧ kSpeedFootRange.contains c.speed_
      ∧ kStepPenaltyFootRange.contains c.step_penalty_
      ∧ kMaxGradeFootRange.contains c.max_grade_)
  ∧ kMaxHikingDifficultyRange.contains c.max_hiking_difficulty_
  ∧ kModeFactorRange.contains c.mode_factor_
  ∧ kWalkwayFactorRange.contains c.walkway_factor_
  ∧ kSideWalkFactorRange.contains c.sidewalk_factor_
  ∧ kAlleyFactorRange.contains c.alley_factor_
  ∧ kDrivewayFactorRange.contains c.driveway_factor_
  ∧ kTransitStartEndMaxDistanceRange.contains c.transit_start_end_max_distance_
  ∧ kTransitTransferMaxDistanceRange.contains c.transit_transfer_max_distance_

/-- Every range constant of the pedestrian costing satisfies
`min <= default <= max`. -/
def range_constants_valid : Prop :=
  kMaxDistanceWheelchairRange.valid ∧ kMaxDistanceFootRange.valid
  ∧ kSpeedWheelchairRange.valid ∧ kSpeedFootRange.valid
  ∧ kStepPenaltyWheelchairRange.valid ∧ kStepPenaltyFootRange.valid
  ∧ kMaxGradeWheelchairRange.valid ∧ kMaxGradeFootRange.valid
  ∧ kMaxHikingDifficultyRange.valid ∧ kModeFactorRange.valid
  ∧ kManeuverPenaltyRange.valid ∧ kGatePenaltyRange.valid
  ∧ kWalkwayFactorRange.valid ∧ kSideWalkFactorRange.valid
  ∧ kAlleyFactorRange.valid ∧ kDrivewayFactorRange.valid
  ∧ kFerryCostRange.valid ∧ kCountryCrossingCostRange.valid
  ∧ kCountryCrossingPenaltyRange.valid ∧ kTransitStartEndMaxDistanceRange.valid
  ∧ kTransitTransferMaxDistanceRange.valid ∧ kUseFerryRange.valid
/-- Modelled from the spec: the values of `baldr::NodeType` that the
transition costs test (the enumeration is declared outside the given
sources); every other type is `kOther`. -/
inductive NodeType where
  | kBorderControl
  | kGate
  | kOther
  deriving DecidableEq, Repr

/-- Modelled from the spec: the attributes of a `baldr::NodeInfo` that the
transition costs read (the class is declared outside the given sources);
`name_consistency` takes two local edge indices. -/
structure NodeInfo where
  type : NodeType := NodeType.kOther
  name_consistency : Nat → Nat → Bool := fun _ _ => false

/-- Modelled from the spec: the attributes of a `sif::EdgeLabel` that
`TransitionCost` reads (the class is declared outside the given sources). -/
structure EdgeLabel where
  use : Use := Use.kOther
  opp_local_idx : Nat := 0
  deriving DecidableEq, Repr

/-- Modelled from the spec: `sif::Cost`, a cost and the seconds elapsed (the
structure is declared outside the given sources). -/
structure Cost where
  cost : ℚ
  secs : ℚ
  deriving DecidableEq

/-- `kCrossingCosts` (pedestriancost.cc 75). -/
def kCrossingCosts : List Nat := [0, 0, 1, 1, 2, 3, 5, 15]

/-- `PedestrianCost::TransitionCost` (pedestriancost.cc 602–637): the cost of
the transition from the predecessor label `pred` onto `edge` at `node`.
`none` is a read of `kCrossingCosts` beyond its eight entries. -/
def PedestrianCost.TransitionCost (c : PedestrianCost) (edge : DirectedEdge)
    (node : NodeInfo) (pred : EdgeLabel) : Option Cost :=
  if edge.use = Use.kSteps then some ⟨c.step_penalty_, 0⟩
  else
    let seconds : ℚ := 0
    let penalty : ℚ := 0
    let (seconds, penalty) :=
      if node.type = NodeType.kBorderControl then
        (seconds + c.country_crossing_cost_, penalty + c.country_crossing_penalty_)
      else if node.type = NodeType.kGate then (seconds, penalty + c.gate_penalty_)
      else (seconds, penalty)
    let (seconds, penalty) :=
      if edge.use = Use.kFerry ∧ pred.use ≠ Use.kFerry then
        (seconds + c.ferry_cost_, penalty + c.ferry_penalty_)
      else (seconds, penalty)
    let idx := pred.opp_local_idx
    let penalty :=
      if edge.link = false ∧ edge.use ≠ Use.kEgressConnection
          ∧ edge.use ≠ Use.kPlatformConnection
          ∧ node.name_consistency idx edge.localedgeidx = false then
        penalty + c.maneuver_penalty_
      else penalty
    if edge.edge_to_right idx = true ∧ edge.edge_to_left idx = true then
      match kCrossingCosts.get? (edge.stopimpact idx) with
      | some crossing =>
          let seconds := seconds + (crossing : ℚ)
          some ⟨seconds + penalty, seconds⟩
      | none => none
    else some ⟨seconds + penalty, seconds⟩

/-- `PedestrianCost::TransitionCostReverse` (pedestriancost.cc 643–677): the
cost of the same transition in a reverse search, from the local index `idx`
and the predecessor edge `pred`. -/
def PedestrianCost.TransitionCostReverse (c : PedestrianCost) (idx : Nat)
    (node : NodeInfo) (pred : DirectedEdge) (edge : DirectedEdge) : Option Cost :=
  if edge.use = Use.kSteps then some ⟨c.step_penalty_, 0⟩
  else
    let seconds : ℚ := 0
    let penalty : ℚ := 0
    let (seconds, penalty) :=
      if node.type = NodeType.kBorderControl then
        (seconds + c.country_crossing_cost_, penalty + c.country_crossing_penalty_)
      else if node.type = NodeType.kGate then (seconds, penalty + c.gate_penalty_)
      else (seconds, penalty)
    let (seconds, penalty) :=
      if edge.use = Use.kFerry ∧ pred.use ≠ Use.kFerry then
        (seconds + c.ferry_cost_, penalty + c.ferry_penalty_)
      else (seconds, penalty)
    let penalty :=
      if edge.link = false ∧ edge.use ≠ Use.kEgressConnection
          ∧ edge.use ≠ Use.kPlatformConnection
          ∧ node.name_consistency idx edge.localedgeidx = false then
        penalty + c.maneuver_penalty_
      else penalty
    if edge.edge_to_right idx = true ∧ edge.edge_to_left idx = true then
      match kCrossingCosts.get? (edge.stopimpact idx) with
      | some crossing =>
          let seconds := seconds + (crossing : ℚ)
          some ⟨seconds + penalty, seconds⟩
      | none => none
    else some ⟨seconds + penalty, seconds⟩

/-- The seconds that the transition costs add up before the crossing cost:
the country crossing cost at a border control, the ferry cost on entering a
ferry. -/
def transition_seconds (c : PedestrianCost) (edge : DirectedEdge) (node : NodeInfo)
    (pred_use : Use) : ℚ :=
  (if node.type = NodeType.kBorderControl then c.country_crossing_cost_ else 0)
    + (if edge.use = Use.kFerry ∧ pred_use ≠ Use.kFerry then c.ferry_cost_ else 0)

/-- The penalty that the transition costs add up: country crossing or gate,
ferry, maneuver. -/
def transition_penalty (c : PedestrianCost) (edge : DirectedEdge) (node : NodeInfo)
    (pred_use : Use) (idx : Nat) : ℚ :=
  (if node.type = NodeType.kBorderControl then c.country_crossing_penalty_
    else if node.type = NodeType.kGate then c.gate_penalty_ else 0)
    + (if edge.use = Use.kFerry ∧ pred_use ≠ Use.kFerry then c.ferry_penalty_ else 0)
    + (if edge.link = false ∧ edge.use ≠ Use.kEgressConnection
          ∧ edge.use ≠ Use.kPlatformConnection
          ∧ node.name_consistency idx edge.localedgeidx = false
        then c.maneuver_penalty_ else 0)

/-- The crossing cost of the transition: the entry of `kCrossingCosts` at the
stop impact when there are edges both to the right and to the left, else
nothing. -/
def transition_crossing (edge : DirectedEdge) (idx : Nat) : Option ℚ :=
  if edge.edge_to_right idx = true ∧ edge.edge_to_left idx = true then
    (kCrossingCosts.get? (edge.stopimpact idx)).map fun (n : Nat) => (n : ℚ)
  else some 0

/-- A pedestrian costing with distinct penalties and costs. -/
def transitionCosting : PedestrianCost :=
  { step_penalty_ := 30, gate_penalty_ := 10, maneuver_penalty_ := 5,
    country_crossing_cost_ := 600, country_crossing_penalty_ := 7,
    ferry_cost_ := 300, ferry_penalty_ := 3 }

/-- A ferry edge with edges to both sides and stop impact 7 for every
predecessor. -/
def ferryEdge : DirectedEdge :=
  { use := Use.kFerry, localedgeidx := 1,
    edge_to_right := fun _ => true, edge_to_left := fun _ => true,
    stopimpact := fun _ => 7 }

/-- A border control node without name consistency. -/
def borderNode : NodeInfo := { type := NodeType.kBorderControl }

/-- A footway predecessor label entering through local index 2. -/
def footwayLabel : EdgeLabel := { use := Use.kFootway, opp_local_idx := 2 }

/-- A footway predecessor edge. -/
def footwayEdge : DirectedEdge := { use := Use.kFootway }

end Sif

namespace Odin

deriving instance DecidableEq for Except

/-! ## Theorems -/

/-! ### Direction buckets -/

/-- The `kNone` branch of `DetermineRelativeDirection` is dead for every
unsigned turn degree. -/
theorem DetermineRelativeDirection_ne_kNone (d : Nat) :
    DetermineRelativeDirection d ≠ RelativeDirection.kNone := by
  unfold DetermineRelativeDirection
  split_ifs <;> first | omega | simp

/-- C8: for every integer turn degree `d` in [0,360), the relative direction
is never `kNone` and is the bucket of `d`: KeepStraight for `d <= 30` or
`d >= 330`, Right for 31..159, Reverse for 160..200, Left for 201..329. -/
theorem DetermineRelativeDirection_buckets (d : Nat) (hd : d < 360) :
    DetermineRelativeDirection d ≠ RelativeDirection.kNone
    ∧ ((d ≤ 30 ∨ 330 ≤ d) → DetermineRelativeDirection d = RelativeDirection.kKeepStraight)
    ∧ ((31 ≤ d ∧ d ≤ 159) → DetermineRelativeDirection d = RelativeDirection.kRight)
    ∧ ((160 ≤ d ∧ d ≤ 200) → DetermineRelativeDirection d = RelativeDirection.KReverse)
    ∧ ((201 ≤ d ∧ d ≤ 329) → DetermineRelativeDirection d = RelativeDirection.kLeft)
    ∧ (d ≤ 30 ∨ 330 ≤ d ∨ (31 ≤ d ∧ d ≤ 159) ∨ (160 ≤ d ∧ d ≤ 200) ∨ (201 ≤ d ∧ d ≤ 329)) := by
  refine ⟨DetermineRelativeDirection_ne_kNone d, ?_, ?_, ?_, ?_, by omega⟩
  all_goals (intro h; unfold DetermineRelativeDirection; split_ifs <;> first | rfl | omega)

/-- C8, at turn degree 45: the relative direction is Right. -/
theorem DetermineRelativeDirection_buckets_witness :
    45 < 360 ∧ DetermineRelativeDirection 45 = RelativeDirection.kRight :=
  ⟨by decide,
    (DetermineRelativeDirection_buckets 45 (by decide)).2.2.1 ⟨by decide, by decide⟩⟩

/-- C9: for every integer heading `h` in [0,360), the cardinal direction is
returned (no error) and is the bucket of `h`. -/
theorem DetermineCardinalDirection_buckets (h : Nat) (hh : h < 360) :
    ((337 ≤ h ∨ h < 24) →
        DetermineCardinalDirection h = Except.ok CardinalDirection.kNorth)
    ∧ ((24 ≤ h ∧ h < 67) →
        DetermineCardinalDirection h = Except.ok CardinalDirection.kNorthEast)
    ∧ ((67 ≤ h ∧ h < 114) →
        DetermineCardinalDirection h = Except.ok CardinalDirection.kEast)
    ∧ ((114 ≤ h ∧ h < 157) →
        DetermineCardinalDirection h = Except.ok CardinalDirection.kSouthEast)
    ∧ ((157 ≤ h ∧ h < 204) →
        DetermineCardinalDirection h = Except.ok CardinalDirection.kSouth)
    ∧ ((204 ≤ h ∧ h < 247) →
        DetermineCardinalDirection h = Except.ok CardinalDirection.kSouthWest)
    ∧ ((247 ≤ h ∧ h < 294) →
        DetermineCardinalDirection h = Except.ok CardinalDirection.kWest)
    ∧ ((294 ≤ h ∧ h < 337) →
        DetermineCardinalDirection h = Except.ok CardinalDirection.kNorthWest)
    ∧ (337 ≤ h ∨ h < 24 ∨ (24 ≤ h ∧ h < 67) ∨ (67 ≤ h ∧ h < 114) ∨ (114 ≤ h ∧ h < 157)
        ∨ (157 ≤ h ∧ h < 204) ∨ (204 ≤ h ∧ h < 247) ∨ (247 ≤ h ∧ h < 294)
        ∨ (294 ≤ h ∧ h < 337)) := by
  refine ⟨?_, ?_, ?_, ?_, ?_, ?_, ?_, ?_, by omega⟩
  all_goals
    intro hb
    unfold DetermineCardinalDirection
    repeat (first | rw [if_pos (by omega)] | rw [if_neg (by omega)])

/-- C9, at heading 90: the cardinal direction is East. -/
theorem DetermineCardinalDirection_buckets_witness :
    90 < 360 ∧ DetermineCardinalDirection 90 = Except.ok CardinalDirection.kEast :=
  ⟨by decide,
    (DetermineCardinalDirection_buckets 90 (by decide)).2.2.1 ⟨by decide, by decide⟩⟩

/-- The `throw` of `DetermineCardinalDirection` is dead: the first test
`heading > 336` accepts every heading from 337 on, also those from 360 on. -/
theorem DetermineCardinalDirection_total (h : Nat) :
    ∃ d, DetermineCardinalDirection h = Except.ok d := by
  unfold DetermineCardinalDirection
  split_ifs <;> first | exact ⟨_, rfl⟩ | omega

/-- C10 (the code at the failing input): heading 360, outside [0,360), is not
rejected; `DetermineCardinalDirection` returns North. -/
theorem DetermineCardinalDirection_360 :
    DetermineCardinalDirection 360 = Except.ok CardinalDirection.kNorth := by
  decide

/-! ### Path accessors -/

/-- Node 0 has no previous edge. -/
theorem GetPrevEdge_zero (P : TripPath) : P.GetPrevEdge 0 1 = none := by
  simp [TripPath.GetPrevEdge]

/-- The previous edge of node `i + 1` is the edge of node `i`. -/
theorem GetPrevEdge_succ (P : TripPath) (i : Nat) :
    P.GetPrevEdge (i + 1) 1 = (P.node.get? i).map Node.edge := by
  simp [TripPath.GetPrevEdge]

/-- Every node after a node of the path has a previous edge. -/
theorem GetPrevEdge_some (P : TripPath) {i : Nat} (h : i < P.node_size) :
    ∃ e, P.GetPrevEdge (i + 1) 1 = some e := by
  rw [GetPrevEdge_succ]
  unfold TripPath.node_size at h
  exact ⟨(P.node.get ⟨i, h⟩).edge, by rw [List.get?_eq_get h]; rfl⟩

/-- The current edge of a node that is not the last is the previous edge of the
next node. -/
theorem GetCurrEdge_eq (P : TripPath) {i : Nat} (h : i + 1 < P.node_size) :
    P.GetCurrEdge i = P.GetPrevEdge (i + 1) 1 := by
  rw [GetPrevEdge_succ, TripPath.GetCurrEdge, if_pos h]

/-- Every index below the node count has a node. -/
theorem GetEnhancedNode_some (P : TripPath) {i : Nat} (h : i < P.node_size) :
    ∃ n, P.GetEnhancedNode i = some n := by
  unfold TripPath.node_size at h
  exact ⟨P.node.get ⟨i, h⟩, by rw [TripPath.GetEnhancedNode, List.get?_eq_get h]⟩

/-- A path has one edge less than it has nodes. -/
theorem edges_length (P : TripPath) : P.edges.length = P.node_size - 1 := by
  simp [TripPath.edges, TripPath.node_size]

/-- Edge `i` of the path is the previous edge of node `i + 1`. -/
theorem edges_get_eq (P : TripPath) {i : Nat} (h : i + 1 < P.node_size) :
    P.edges.get? i = P.GetPrevEdge (i + 1) 1 := by
  rw [GetPrevEdge_succ]
  unfold TripPath.edges
  unfold TripPath.node_size at h
  rw [List.get?_eq_getElem?, List.get?_eq_getElem?, List.getElem?_map, List.dropLast_eq_take, List.getElem?_take]
  have : i < P.node.length - 1 := by omega
  simp [this]

/-- The first `i + 1` edges are the first `i` edges and the previous edge of
node `i + 1`. -/
theorem edges_take_succ (P : TripPath) {i : Nat} {e : Edge} (h : i + 1 < P.node_size)
    (he : P.GetPrevEdge (i + 1) 1 = some e) : P.edges.take (i + 1) = P.edges.take i ++ [e] := by
  have h1 : P.edges.get? i = some e := by rw [edges_get_eq P h, he]
  rw [List.take_succ, ← List.get?_eq_getElem?, h1]
  rfl

/-! ### Maneuver updates and classification -/

/-- The turn degree two edges back is computed without failure where the node
has a previous edge. -/
theorem prev_prev_2prev_turn_degree_ok (C : Collaborators) {P : TripPath} {i : Nat} {e : Edge}
    (h : P.GetPrevEdge i 1 = some e) : ∃ d, prev_prev_2prev_turn_degree C P i = Except.ok d := by
  unfold prev_prev_2prev_turn_degree
  cases P.GetPrevEdge i 2 with
  | none => exact ⟨_, rfl⟩
  | some pp => exact ⟨_, by simp only [h, deref]; rfl⟩

/-- `UsableInternalIntersectionName` succeeds where the node has a previous
edge. -/
theorem UsableInternalIntersectionName_ok (C : Collaborators) {P : TripPath} {i : Nat} {e : Edge}
    (h : P.GetPrevEdge i 1 = some e) (m : Maneuver) :
    ∃ b, UsableInternalIntersectionName C P m i = Except.ok b := by
  obtain ⟨d, hd⟩ := prev_prev_2prev_turn_degree_ok C h
  simp only [UsableInternalIntersectionName, hd, Except.bind, bind, pure, Except.pure]
  split <;> exact ⟨_, rfl⟩

/-- `UpdateManeuver` succeeds where the node has a previous edge; it adds the
edge's length and time and leaves the node indices and the type alone. -/
theorem UpdateManeuver_ok (C : Collaborators) {P : TripPath} {i : Nat} {e : Edge}
    (h : P.GetPrevEdge i 1 = some e) (m : Maneuver) :
    ∃ m', UpdateManeuver C P m i = Except.ok m'
      ∧ m'.begin_node_index = m.begin_node_index ∧ m'.end_node_index = m.end_node_index
      ∧ m'.distance = m.distance + e.length
      ∧ m'.time = m.time + C.GetTime e.length e.speed ∧ m'.type = m.type := by
  obtain ⟨d, hd⟩ := prev_prev_2prev_turn_degree_ok C h
  obtain ⟨b, hb⟩ := UsableInternalIntersectionName_ok C h m
  simp only [UpdateManeuver, UpdateInternalTurnCount, h, hd, hb,
    deref, Except.bind, bind, pure, Except.pure]
  split
  all_goals
    exact ⟨_, rfl, rfl, rfl, rfl, rfl, rfl⟩

/-- `InitializeManeuver` succeeds where the node has a previous edge; the
maneuver ends at the node and carries the edge's length and time. -/
theorem InitializeManeuver_ok (C : Collaborators) {P : TripPath} {i : Nat} {e : Edge}
    (h : P.GetPrevEdge i 1 = some e) (m : Maneuver) :
    ∃ m', InitializeManeuver C P m i = Except.ok m'
      ∧ m'.begin_node_index = m.begin_node_index ∧ m'.end_node_index = i
      ∧ m'.distance = m.distance + e.length
      ∧ m'.time = m.time + C.GetTime e.length e.speed ∧ m'.type = m.type := by
  simp only [InitializeManeuver, h, deref, Except.bind, bind, pure, Except.pure]
  obtain ⟨m', h1, h2⟩ := UpdateManeuver_ok C h
    { m with
      end_heading := e.end_heading, end_node_index := i, end_shape_index := e.end_shape_index,
      ramp := if e.ramp then true else m.ramp,
      turn_channel := if e.turn_channel then true else m.turn_channel,
      ferry := if e.ferry then true else m.ferry,
      rail_ferry := if e.rail_ferry then true else m.rail_ferry,
      roundabout := if e.roundabout then true else m.roundabout,
      internal_intersection :=
        if e.internal_intersection then true else m.internal_intersection }
  exact ⟨m', h1, h2⟩

/-- A property of both branches of an `if` holds of the `if`. -/
theorem ite_ind {α : Type} (Q : α → Prop) {c : Prop} [Decidable c] {a b : α}
    (ha : Q a) (hb : Q b) : Q (if c then a else b) := by
  by_cases hc : c
  · rw [if_pos hc]; exact ha
  · rw [if_neg hc]; exact hb

/-- `CanManeuverIncludePrevEdge` succeeds where the node has a previous edge,
and changes at most the street names of the maneuver. -/
theorem CanManeuverIncludePrevEdge_ok (C : Collaborators) {P : TripPath} {i : Nat} {e : Edge}
    (h : P.GetPrevEdge i 1 = some e) (m : Maneuver) :
    ∃ b names, CanManeuverIncludePrevEdge C P m i
      = Except.ok (b, { m with street_names := names }) := by
  obtain ⟨Q, hQ⟩ : ∃ Q : Except Err (Bool × Maneuver) → Prop, Q = fun x =>
    ∃ b names, x = Except.ok (b, { m with street_names := names }) := ⟨_, rfl⟩
  have hm : ∀ b, Q (Except.ok (b, m)) := fun b => by
    rw [hQ]; exact ⟨b, m.street_names, rfl⟩
  have hn : ∀ b names, Q (Except.ok (b, { m with street_names := names })) := fun b names => by
    rw [hQ]; exact ⟨b, names, rfl⟩
  suffices hs : Q (CanManeuverIncludePrevEdge C P m i) by rw [hQ] at hs; exact hs
  unfold CanManeuverIncludePrevEdge
  rw [h]
  dsimp only [deref, Except.bind, bind, pure, Except.pure]
  repeat (first | exact hm _ | exact hn _ _ | refine ite_ind Q ?_ ?_)

/-- `DetermineRelativeDirection(Maneuver&)` succeeds where the begin node and
its previous edge exist, and changes only the relative direction. -/
theorem DetermineRelativeDirection_maneuver_ok {P : TripPath} {m : Maneuver} {e : Edge}
    {n : Node} (hn : P.GetEnhancedNode m.begin_node_index = some n)
    (h : P.GetPrevEdge m.begin_node_index 1 = some e) :
    ∃ d, DetermineRelativeDirection_maneuver P m
      = Except.ok { m with begin_relative_direction := d } := by
  simp only [DetermineRelativeDirection_maneuver, h, hn, deref, Except.bind, bind, pure,
    Except.pure]
  exact ⟨_, rfl⟩

/-- `SetSimpleDirectionalManeuverType` changes only the type. -/
theorem SetSimpleDirectionalManeuverType_frame (C : Collaborators) (P : TripPath) (m : Maneuver) :
    ∃ t, SetSimpleDirectionalManeuverType C P m = { m with type := t } := by
  unfold SetSimpleDirectionalManeuverType
  cases C.GetType m.turn_degree <;> simp only []
  · cases P.GetCurrEdge m.begin_node_index with
    | none => exact ⟨_, rfl⟩
    | some e =>
      simp only []
      split_ifs <;> exact ⟨_, rfl⟩
  all_goals first | exact ⟨_, rfl⟩ | (split_ifs <;> exact ⟨_, rfl⟩)

/-- `SetManeuverType` returns a maneuver whose type is already set as it is. -/
theorem SetManeuverType_typed (C : Collaborators) (P : TripPath) {m : Maneuver}
    (h : m.type ≠ ManeuverType.kNone) : SetManeuverType C P m = Except.ok m := by
  simp only [SetManeuverType, ne_eq, h, not_false_eq_true, if_true, pure, Except.pure]

/-- `SetManeuverType` changes only the type. -/
theorem SetManeuverType_frame {C : Collaborators} {P : TripPath} {m m' : Maneuver}
    (h : SetManeuverType C P m = Except.ok m') : ∃ t, m' = { m with type := t } := by
  obtain ⟨ts, hts⟩ := SetSimpleDirectionalManeuverType_frame C P m
  by_cases hty : m.type = ManeuverType.kNone
  swap
  · rw [SetManeuverType_typed C P hty] at h
    cases h; exact ⟨m.type, rfl⟩
  rcases hi : m.internal_intersection with _ | _
  swap
  · simp only [SetManeuverType, hty, hi, ne_eq, not_true_eq_false, if_false, if_true, pure,
      Except.pure] at h
    cases h; exact ⟨_, rfl⟩
  rcases htc : m.turn_channel with _ | _
  swap
  · simp only [SetManeuverType, hty, hi, htc, ne_eq, not_true_eq_false, if_false, if_true, pure,
      Except.pure, Bool.false_eq_true] at h
    cases h; exact ⟨_, rfl⟩
  rcases hr : m.ramp with _ | _ <;> cases hp : P.GetPrevEdge m.begin_node_index 1 <;>
    cases hc : P.GetCurrEdge m.begin_node_index <;>
    simp only [SetManeuverType, hty, hi, htc, hr, hp, hc, hts, deref, ne_eq, not_true_eq_false,
      if_false, if_true, pure, Except.pure, bind, Except.bind, Bool.false_eq_true] at h
  all_goals
    repeat' (split at h)
  all_goals
    cases h <;> exact ⟨_, rfl⟩

/-- `SetManeuverType` fails only by dereferencing the null previous or current
edge of the begin node. -/
theorem SetManeuverType_error {C : Collaborators} {P : TripPath} {m : Maneuver} {err : Err}
    (h : SetManeuverType C P m = Except.error err) :
    err = Err.null_dereference
      ∧ (P.GetPrevEdge m.begin_node_index 1 = none ∨ P.GetCurrEdge m.begin_node_index = none) := by
  by_cases hty : m.type = ManeuverType.kNone
  swap
  · rw [SetManeuverType_typed C P hty] at h
    cases h
  rcases hi : m.internal_intersection with _ | _
  swap
  · simp only [SetManeuverType, hty, hi, ne_eq, not_true_eq_false, if_false, if_true, pure,
      Except.pure] at h
    cases h
  rcases htc : m.turn_channel with _ | _
  swap
  · simp only [SetManeuverType, hty, hi, htc, ne_eq, not_true_eq_false, if_false, if_true, pure,
      Except.pure, Bool.false_eq_true] at h
    cases h
  rcases hr : m.ramp with _ | _ <;> cases hp : P.GetPrevEdge m.begin_node_index 1 <;>
    cases hc : P.GetCurrEdge m.begin_node_index <;>
    simp only [SetManeuverType, hty, hi, htc, hr, hp, hc, deref, ne_eq, not_true_eq_false,
      if_false, if_true, pure, Except.pure, bind, Except.bind, Bool.false_eq_true] at h
  all_goals
    repeat' (split at h)
  all_goals
    cases h <;> simp

/-- `SetManeuverType` succeeds where the begin node has a previous and a
current edge. -/
theorem SetManeuverType_ok (C : Collaborators) {P : TripPath} {m : Maneuver} {pe ce : Edge}
    (hp : P.GetPrevEdge m.begin_node_index 1 = some pe)
    (hc : P.GetCurrEdge m.begin_node_index = some ce) :
    ∃ t, SetManeuverType C P m = Except.ok { m with type := t } := by
  cases hres : SetManeuverType C P m with
  | error err =>
    rcases (SetManeuverType_error hres).2 with h | h
    · rw [hp] at h; cases h
    · rw [hc] at h; cases h
  | ok m' =>
    obtain ⟨t, ht⟩ := SetManeuverType_frame hres
    exact ⟨t, by rw [ht]⟩

/-- `FinalizeManeuver` succeeds at a node that has a current edge, a previous
edge and a node record; it sets the begin node index and leaves the end node
index, the distance and the time alone. -/
theorem FinalizeManeuver_ok (C : Collaborators) {P : TripPath} {i : Nat} {ce pe : Edge}
    {n : Node} (hc : P.GetCurrEdge i = some ce) (hp : P.GetPrevEdge i 1 = some pe)
    (hn : P.GetEnhancedNode i = some n) (m : Maneuver) :
    ∃ m', FinalizeManeuver C P m i = Except.ok m'
      ∧ m'.begin_node_index = i ∧ m'.end_node_index = m.end_node_index
      ∧ m'.distance = m.distance ∧ m'.time = m.time := by
  obtain ⟨cd, hcd⟩ := DetermineCardinalDirection_total ce.begin_heading
  obtain ⟨d, hd⟩ := DetermineRelativeDirection_maneuver_ok
    (m := { m with
      begin_cardinal_direction := cd, begin_heading := ce.begin_heading, begin_node_index := i,
      begin_shape_index := ce.begin_shape_index,
      turn_degree := C.GetTurnDegree pe.end_heading ce.begin_heading }) hn hp
  obtain ⟨t, ht⟩ := SetManeuverType_ok C
    (m := { m with
      begin_cardinal_direction := cd, begin_heading := ce.begin_heading, begin_node_index := i,
      begin_shape_index := ce.begin_shape_index,
      turn_degree := C.GetTurnDegree pe.end_heading ce.begin_heading,
      begin_relative_direction := d }) hp hc
  simp only [FinalizeManeuver, hc, hcd, hp, deref, Except.bind, bind, pure, Except.pure]
  rw [hd]
  simp only []
  rw [ht]
  exact ⟨_, rfl, rfl, rfl, rfl, rfl⟩

/-- `FinalizeManeuver` succeeds at a node without a previous edge when the
type of the maneuver is already set; the turn degree and the relative
direction are skipped. -/
theorem FinalizeManeuver_ok_first (C : Collaborators) {P : TripPath} {i : Nat} {ce : Edge}
    (hc : P.GetCurrEdge i = some ce) (hp : P.GetPrevEdge i 1 = none) {m : Maneuver}
    (hty : m.type ≠ ManeuverType.kNone) :
    ∃ m', FinalizeManeuver C P m i = Except.ok m'
      ∧ m'.begin_node_index = i ∧ m'.end_node_index = m.end_node_index
      ∧ m'.distance = m.distance ∧ m'.time = m.time ∧ m'.type = m.type
      ∧ m'.turn_degree = m.turn_degree
      ∧ m'.begin_relative_direction = m.begin_relative_direction := by
  obtain ⟨cd, hcd⟩ := DetermineCardinalDirection_total ce.begin_heading
  have ht := SetManeuverType_typed C P
    (m := { m with
      begin_cardinal_direction := cd, begin_heading := ce.begin_heading, begin_node_index := i,
      begin_shape_index := ce.begin_shape_index }) hty
  simp only [FinalizeManeuver, hc, hcd, hp, deref, Except.bind, bind, pure, Except.pure]
  rw [ht]
  exact ⟨_, rfl, rfl, rfl, rfl, rfl, rfl, rfl, rfl⟩

/-- `CreateDestinationManeuver` succeeds on a path of two or more nodes. -/
theorem CreateDestinationManeuver_ok {P : TripPath} (h : 2 ≤ P.node_size) (m : Maneuver) :
    ∃ m', CreateDestinationManeuver P m = Except.ok m'
      ∧ m'.type = ManeuverType.kDestination
      ∧ m'.begin_node_index = P.GetLastNodeIndex ∧ m'.end_node_index = P.GetLastNodeIndex
      ∧ m'.distance = m.distance ∧ m'.time = m.time
      ∧ m'.internal_intersection = m.internal_intersection
      ∧ m'.turn_channel = m.turn_channel := by
  have hl : P.GetLastNodeIndex = (P.node_size - 2) + 1 := by
    unfold TripPath.GetLastNodeIndex; omega
  obtain ⟨e, he⟩ := GetPrevEdge_some P (i := P.node_size - 2) (by omega)
  rw [← hl] at he
  simp only [CreateDestinationManeuver, he, deref, Except.bind, bind, pure, Except.pure]
  exact ⟨_, rfl, rfl, rfl, rfl, rfl, rfl, rfl, rfl⟩

/-! ### Tilings -/

/-- A concatenation chains from `b` to `N` exactly when the first part chains
from `b` to some node and the second part from that node to `N`. -/
theorem TilesFrom_append {N : Nat} (xs ys : List Maneuver) :
    ∀ b, TilesFrom N b (xs ++ ys) ↔ ∃ mid, TilesFrom mid b xs ∧ TilesFrom N mid ys := by
  induction xs with
  | nil =>
    intro b
    simp only [List.nil_append, TilesFrom]
    exact ⟨fun h => ⟨b, rfl, h⟩, fun ⟨mid, h1, h2⟩ => h1 ▸ h2⟩
  | cons x xs ih =>
    intro b
    show (x.begin_node_index = b ∧ x.begin_node_index ≤ x.end_node_index
        ∧ TilesFrom N x.end_node_index (xs ++ ys))
      ↔ ∃ mid, (x.begin_node_index = b ∧ x.begin_node_index ≤ x.end_node_index
          ∧ TilesFrom mid x.end_node_index xs) ∧ TilesFrom N mid ys
    rw [ih]
    constructor
    · rintro ⟨h1, hle, mid, h2, h3⟩
      exact ⟨mid, ⟨h1, hle, h2⟩, h3⟩
    · rintro ⟨mid, ⟨h1, hle, h2⟩, h3⟩
      exact ⟨h1, hle, mid, h2, h3⟩

/-- A non-empty chain read as first maneuver, adjacent pairs and last maneuver. -/
theorem TilesFrom_cons_Tiles {N : Nat} : ∀ (ms : List Maneuver) (m : Maneuver) (b : Nat),
    TilesFrom N b (m :: ms) →
      m.begin_node_index = b
      ∧ List.Chain' (fun a b : Maneuver => a.end_node_index = b.begin_node_index) (m :: ms)
      ∧ (∃ last, (m :: ms).getLast? = some last ∧ last.end_node_index = N)
      ∧ ∀ x ∈ m :: ms, x.begin_node_index ≤ x.end_node_index := by
  intro ms
  induction ms with
  | nil =>
    intro m b h
    refine ⟨h.1, List.chain'_singleton m, ⟨m, rfl, h.2.2⟩, fun x hx => ?_⟩
    simp only [List.mem_singleton] at hx
    subst hx
    exact h.2.1
  | cons x xs ih =>
    intro m b h
    obtain ⟨h1, hle, h2⟩ := h
    obtain ⟨hx, hchain, ⟨last, hlast, hend⟩, hall⟩ := ih x m.end_node_index h2
    refine ⟨h1, List.Chain'.cons hx.symm hchain, ⟨last, ?_, hend⟩, fun y hy => ?_⟩
    · rw [List.getLast?_cons_cons]
      exact hlast
    · rcases List.mem_cons.mp hy with hy | hy
      · subst hy; exact hle
      · exact hall y hy

/-- A non-empty list that chains from node 0 to node `N` tiles `[0, N]`. -/
theorem Tiles_of_TilesFrom {N : Nat} {ms : List Maneuver} (hne : ms ≠ [])
    (h : TilesFrom N 0 ms) : Tiles N ms := by
  cases ms with
  | nil => exact absurd rfl hne
  | cons m ms =>
    obtain ⟨h1, h2, h3, h4⟩ := TilesFrom_cons_Tiles ms m 0 h
    exact ⟨⟨m, rfl, h1⟩, h2, h3, h4⟩

/-! ### Produce -/

/-- The `for` loop of `Produce` never fails on the nodes `1 .. i` of a path
with more than `i + 1` nodes.  It keeps the maneuvers behind the open one,
puts new maneuvers in front of them so that the node ranges stay chained, and
adds the length and the time of each of the edges `0 .. i - 1` to exactly one
maneuver. -/
theorem ProduceLoop_ok (C : Collaborators) (P : TripPath) (N : Nat) :
    ∀ (i : Nat) (front : Maneuver) (rest : List Maneuver), i + 1 < P.node_size →
      i ≤ front.end_node_index → TilesFrom N front.end_node_index rest →
      ∃ front' pre, ProduceLoop C P i front rest = Except.ok (front' :: (pre ++ rest))
        ∧ TilesFrom N front'.end_node_index (pre ++ rest)
        ∧ total_distance (front' :: (pre ++ rest))
            = total_distance (front :: rest) + ((P.edges.take i).map Edge.length).sum
        ∧ total_time (front' :: (pre ++ rest))
            = total_time (front :: rest)
              + ((P.edges.take i).map (fun e => C.GetTime e.length e.speed)).sum := by
  intro i
  induction i with
  | zero =>
    intro front rest _ _ ht
    exact ⟨front, [], rfl, ht, by simp, by simp⟩
  | succ i ih =>
    intro front rest hi hle ht
    obtain ⟨e, he⟩ := GetPrevEdge_some P (i := i) (by omega)
    obtain ⟨ce, hce⟩ : ∃ ce, P.GetCurrEdge (i + 1) = some ce := by
      rw [GetCurrEdge_eq P hi]; exact GetPrevEdge_some P (by omega)
    obtain ⟨n, hn⟩ := GetEnhancedNode_some P (i := i + 1) (by omega)
    obtain ⟨b, names, hcan⟩ := CanManeuverIncludePrevEdge_ok C he front
    have htake := edges_take_succ P (by omega : i + 1 < P.node_size) he
    rw [ProduceLoop, hcan]
    simp only [Except.bind, bind]
    cases b with
    | true =>
      obtain ⟨f2, hf2, _, h2e, h2d, h2t, _⟩ :=
        UpdateManeuver_ok C he { front with street_names := names }
      dsimp only at h2e h2d h2t
      simp only [if_true, hf2]
      obtain ⟨front', pre, hres, htiles, hdist, htime⟩ :=
        ih f2 rest (by omega) (by rw [h2e]; omega) (by rw [h2e]; exact ht)
      refine ⟨front', pre, hres, htiles, ?_, ?_⟩
      · rw [hdist, htake]
        simp only [total_distance, List.map_cons, List.sum_cons, List.map_append, List.sum_append, List.map_nil,
          List.sum_nil, h2d]
        omega
      · rw [htime, htake]
        simp only [total_time, List.map_cons, List.sum_cons, List.map_append, List.sum_append, List.map_nil,
          List.sum_nil, h2t]
        omega
    | false =>
      obtain ⟨f2, hf2, h2b, h2e, h2d, h2t⟩ :=
        FinalizeManeuver_ok C hce he hn { front with street_names := names }
      obtain ⟨op, hop, _, hope, hopd, hopt, _⟩ := InitializeManeuver_ok C he {}
      dsimp only at h2e h2d h2t hopd hopt
      simp only [Bool.false_eq_true, if_false, hf2, hop]
      obtain ⟨front', pre, hres, htiles, hdist, htime⟩ :=
        ih op (f2 :: rest) (by omega) (by rw [hope]; omega) (by
          rw [hope]
          exact ⟨h2b, by rw [h2b, h2e]; exact hle, by rw [h2e]; exact ht⟩)
      refine ⟨front', pre ++ [f2], ?_, ?_, ?_, ?_⟩
      · rw [hres]; simp
      · simpa using htiles
      · have : pre ++ [f2] ++ rest = pre ++ f2 :: rest := by simp
        rw [this, hdist, htake]
        simp only [total_distance, List.map_cons, List.sum_cons, List.map_append, List.sum_append, List.map_nil,
          List.sum_nil, h2d, hopd]
        omega
      · have : pre ++ [f2] ++ rest = pre ++ f2 :: rest := by simp
        rw [this, htime, htake]
        simp only [total_time, List.map_cons, List.sum_cons, List.map_append, List.sum_append, List.map_nil,
          List.sum_nil, h2t, hopt]
        omega

/-- `Produce` returns on every path with two or more nodes.  The list begins
with the Start maneuver and ends with the Destination maneuver, its node
ranges chain from node 0 to the last node, and its distances and times add up
to those of the path edges. -/
theorem Produce_ok (C : Collaborators) (P : TripPath) (h : 2 ≤ P.node_size) :
    ∃ start pre dest, Produce C P = Except.ok (start :: (pre ++ [dest]))
      ∧ TilesFrom P.GetLastNodeIndex 0 (start :: (pre ++ [dest]))
      ∧ total_distance (start :: (pre ++ [dest])) = path_length P
      ∧ total_time (start :: (pre ++ [dest])) = path_time C P
      ∧ start.type = ManeuverType.kStart
      ∧ dest.type = ManeuverType.kDestination
      ∧ dest.internal_intersection = false ∧ dest.turn_channel = false := by
  have hl : P.GetLastNodeIndex = (P.node_size - 2) + 1 := by
    unfold TripPath.GetLastNodeIndex; omega
  obtain ⟨dest, hdest, hdty, hdb, hde, hdd, hdt, hdi, hdtc⟩ := CreateDestinationManeuver_ok h {}
  obtain ⟨e, he⟩ := GetPrevEdge_some P (i := P.node_size - 2) (by omega)
  obtain ⟨op, hop, _, hope, hopd, hopt, _⟩ := InitializeManeuver_ok C he {}
  obtain ⟨front', pre, hloop, htiles, hdist, htime⟩ :=
    ProduceLoop_ok C P P.GetLastNodeIndex (P.node_size - 2) op [dest] (by omega)
      (by rw [hope]; omega)
      (by rw [hope]; exact ⟨by rw [hdb, hl], by rw [hdb, hde], hde⟩)
  obtain ⟨ce, hce⟩ : ∃ ce, P.GetCurrEdge 0 = some ce := by
    rw [GetCurrEdge_eq P (by omega)]; exact GetPrevEdge_some P (by omega)
  obtain ⟨start, hstart, hsb, hse, hsd, hst, hsty, _, _⟩ :=
    FinalizeManeuver_ok_first C hce (GetPrevEdge_zero P)
      (m := { front' with type := ManeuverType.kStart }) (by simp)
  dsimp only at hse hsd hst hsty hopd hopt hdd hdt
  have htake := edges_take_succ P (by omega : (P.node_size - 2) + 1 < P.node_size) he
  have hall : P.edges.take ((P.node_size - 2) + 1) = P.edges := by
    apply List.take_of_length_le
    rw [edges_length]; omega
  rw [hall] at htake
  have h1 : ¬ P.node_size < 1 := by omega
  have h2 : ¬ P.node_size = 1 := by omega
  have hsub : P.GetLastNodeIndex - 1 = P.node_size - 2 := by rw [hl]; omega
  refine ⟨start, pre, dest, ?_, ?_, ?_, ?_, hsty, hdty, hdi, hdtc⟩
  · unfold Produce
    rw [if_neg h1, if_neg h2]
    simp only [hdest, Except.bind, bind, pure, Except.pure]
    rw [hl]
    simp only [hop, Nat.add_sub_cancel, hloop, CreateStartManeuver, hstart]
  · exact ⟨hsb, by rw [hsb]; exact Nat.zero_le _, by rw [hse]; exact htiles⟩
  · have := hdist
    simp only [total_distance, List.map_cons, List.sum_cons, List.map_append, List.sum_append,
      List.map_nil, List.sum_nil, hsd, hopd, hdd] at this ⊢
    rw [path_length, htake]
    simp only [List.map_append, List.sum_append, List.map_cons, List.sum_cons, List.map_nil,
      List.sum_nil]
    have h0 : ({} : Maneuver).distance = 0 := rfl
    omega
  · have := htime
    simp only [total_time, List.map_cons, List.sum_cons, List.map_append, List.sum_append,
      List.map_nil, List.sum_nil, hst, hopt, hdt] at this ⊢
    rw [path_time, htake]
    simp only [List.map_append, List.sum_append, List.map_cons, List.sum_cons, List.map_nil,
      List.sum_nil]
    have h0 : ({} : Maneuver).time = 0 := rfl
    omega

/-! ### Combine -/

/-- What an internal-intersection absorption leaves in the next maneuver: it
begins where the absorbed maneuver began, keeps its own end and flags, and
carries both distances and times. -/
theorem CombineInternalManeuver_spec {C : Collaborators} {P : TripPath}
    {prev_man curr_man next_man merged : Maneuver} {start_man : Bool}
    (h : CombineInternalManeuver C P prev_man curr_man next_man start_man = Except.ok merged) :
    merged.begin_node_index = curr_man.begin_node_index
      ∧ merged.end_node_index = next_man.end_node_index
      ∧ merged.distance = next_man.distance + curr_man.distance
      ∧ merged.time = next_man.time + curr_man.time
      ∧ merged.internal_intersection = next_man.internal_intersection
      ∧ merged.turn_channel = next_man.turn_channel := by
  unfold CombineInternalManeuver at h
  dsimp only at h
  obtain ⟨t, ht⟩ := SetManeuverType_frame h
  rw [ht]
  exact ⟨rfl, rfl, rfl, rfl, rfl, rfl⟩

/-- What a turn-channel absorption leaves in the next maneuver. -/
theorem CombineTurnChannelManeuver_spec {C : Collaborators} {P : TripPath}
    {prev_man curr_man next_man merged : Maneuver} {start_man : Bool}
    (h : CombineTurnChannelManeuver C P prev_man curr_man next_man start_man
      = Except.ok merged) :
    merged.begin_node_index = curr_man.begin_node_index
      ∧ merged.end_node_index = next_man.end_node_index
      ∧ merged.distance = next_man.distance + curr_man.distance
      ∧ merged.time = next_man.time + curr_man.time
      ∧ merged.internal_intersection = next_man.internal_intersection
      ∧ merged.turn_channel = next_man.turn_channel := by
  unfold CombineTurnChannelManeuver at h
  dsimp only at h
  obtain ⟨t, ht⟩ := SetManeuverType_frame h
  rw [ht]
  exact ⟨rfl, rfl, rfl, rfl, rfl, rfl⟩

/-- An absorption fails only by a null dereference. -/
theorem CombineInternalManeuver_error {C : Collaborators} {P : TripPath}
    {prev_man curr_man next_man : Maneuver} {start_man : Bool} {err : Err}
    (h : CombineInternalManeuver C P prev_man curr_man next_man start_man = Except.error err) :
    err = Err.null_dereference := by
  unfold CombineInternalManeuver at h
  dsimp only at h
  exact (SetManeuverType_error h).1

/-- An absorption fails only by a null dereference. -/
theorem CombineTurnChannelManeuver_error {C : Collaborators} {P : TripPath}
    {prev_man curr_man next_man : Maneuver} {start_man : Bool} {err : Err}
    (h : CombineTurnChannelManeuver C P prev_man curr_man next_man start_man
      = Except.error err) :
    err = Err.null_dereference := by
  unfold CombineTurnChannelManeuver at h
  dsimp only at h
  exact (SetManeuverType_error h).1

/-- What a same-name-straight merge leaves in the current maneuver. -/
theorem CombineSameNameStraightManeuver_spec (curr_man next_man : Maneuver) :
    (CombineSameNameStraightManeuver curr_man next_man).begin_node_index
        = curr_man.begin_node_index
      ∧ (CombineSameNameStraightManeuver curr_man next_man).end_node_index
        = next_man.end_node_index
      ∧ (CombineSameNameStraightManeuver curr_man next_man).distance
        = curr_man.distance + next_man.distance
      ∧ (CombineSameNameStraightManeuver curr_man next_man).time
        = curr_man.time + next_man.time
      ∧ (CombineSameNameStraightManeuver curr_man next_man).internal_intersection
        = curr_man.internal_intersection
      ∧ (CombineSameNameStraightManeuver curr_man next_man).turn_channel
        = curr_man.turn_channel :=
  ⟨rfl, rfl, rfl, rfl, rfl, rfl⟩

/-- Invariant rule for the inner loop of `Combine`: a property of the loop
state (maneuvers before the current one, previous, current, maneuvers after
it, flag) that every absorption, every same-name-straight merge and every
advance of the window preserves holds of the state in which the loop ends,
whose list is the returned one. -/
theorem CombineScan_invariant (C : Collaborators) (P : TripPath)
    (Inv : List Maneuver → Maneuver → Maneuver → List Maneuver → Bool → Prop)
    (h_internal : ∀ done prev_man curr_man next_man rest combined merged,
      Inv done prev_man curr_man (next_man :: rest) combined →
      curr_man.internal_intersection = true →
      CombineInternalManeuver C P prev_man curr_man next_man done.isEmpty = Except.ok merged →
      Inv done prev_man merged rest true)
    (h_channel : ∀ done prev_man curr_man next_man rest combined merged,
      Inv done prev_man curr_man (next_man :: rest) combined →
      curr_man.internal_intersection = false → curr_man.turn_channel = true →
      CombineTurnChannelManeuver C P prev_man curr_man next_man done.isEmpty
        = Except.ok merged →
      Inv done prev_man merged rest true)
    (h_same : ∀ done prev_man curr_man next_man rest combined,
      Inv done prev_man curr_man (next_man :: rest) combined →
      curr_man.internal_intersection = false → curr_man.turn_channel = false →
      same_name_straight P curr_man next_man
        (C.FindCommonBaseNames curr_man.street_names next_man.street_names) = true →
      Inv done prev_man
        (CombineSameNameStraightManeuver
          { curr_man with
            street_names :=
              C.FindCommonBaseNames curr_man.street_names next_man.street_names }
          next_man)
        rest combined)
    (h_advance : ∀ done prev_man curr_man next_man rest combined,
      Inv done prev_man curr_man (next_man :: rest) combined →
      curr_man.internal_intersection = false → curr_man.turn_channel = false →
      same_name_straight P curr_man next_man
        (C.FindCommonBaseNames curr_man.street_names next_man.street_names) = false →
      Inv (curr_man :: done) curr_man next_man rest combined) :
    ∀ (rest done : List Maneuver) (prev_man curr_man : Maneuver) (combined : Bool)
      (out : List Maneuver) (flag : Bool),
      Inv done prev_man curr_man rest combined →
      CombineScan C P done prev_man curr_man rest combined = Except.ok (out, flag) →
      ∃ done' prev' curr', out = done'.reverse ++ [curr'] ∧ Inv done' prev' curr' [] flag := by
  intro rest
  induction rest with
  | nil =>
    intro done prev_man curr_man combined out flag hinv h
    simp only [CombineScan, pure, Except.pure, Except.ok.injEq, Prod.mk.injEq] at h
    obtain ⟨h1, h2⟩ := h
    subst h1 h2
    exact ⟨done, prev_man, curr_man, rfl, hinv⟩
  | cons next_man rest ih =>
    intro done prev_man curr_man combined out flag hinv h
    rw [CombineScan] at h
    dsimp only at h
    by_cases hi : curr_man.internal_intersection = true
    · rw [if_pos hi] at h
      cases hm : CombineInternalManeuver C P prev_man curr_man next_man done.isEmpty with
      | error err => rw [hm] at h; cases h
      | ok merged =>
        rw [hm] at h
        exact ih done prev_man merged true out flag
          (h_internal _ _ _ _ _ _ _ hinv hi hm) h
    · rw [if_neg hi] at h
      have hi' : curr_man.internal_intersection = false := by simpa using hi
      by_cases htc : curr_man.turn_channel = true
      · rw [if_pos htc] at h
        cases hm : CombineTurnChannelManeuver C P prev_man curr_man next_man done.isEmpty with
        | error err => rw [hm] at h; cases h
        | ok merged =>
          rw [hm] at h
          exact ih done prev_man merged true out flag
            (h_channel _ _ _ _ _ _ _ hinv hi' htc hm) h
      · rw [if_neg htc] at h
        have htc' : curr_man.turn_channel = false := by simpa using htc
        by_cases hs : same_name_straight P curr_man next_man
            (C.FindCommonBaseNames curr_man.street_names next_man.street_names) = true
        · rw [if_pos hs] at h
          exact ih done prev_man _ combined out flag (h_same _ _ _ _ _ _ hinv hi' htc' hs) h
        · rw [if_neg hs] at h
          have hs' : same_name_straight P curr_man next_man
              (C.FindCommonBaseNames curr_man.street_names next_man.street_names) = false := by
            simpa using hs
          exact ih (curr_man :: done) curr_man next_man combined out flag
            (h_advance _ _ _ _ _ _ hinv hi' htc' hs') h

/-- The inner loop of `Combine` fails only by a null dereference. -/
theorem CombineScan_error (C : Collaborators) (P : TripPath) :
    ∀ (rest done : List Maneuver) (prev_man curr_man : Maneuver) (combined : Bool) (err : Err),
      CombineScan C P done prev_man curr_man rest combined = Except.error err →
      err = Err.null_dereference := by
  intro rest
  induction rest with
  | nil =>
    intro done prev_man curr_man combined err h
    simp only [CombineScan, pure, Except.pure] at h
    cases h
  | cons next_man rest ih =>
    intro done prev_man curr_man combined err h
    rw [CombineScan] at h
    dsimp only at h
    by_cases hi : curr_man.internal_intersection = true
    · rw [if_pos hi] at h
      cases hm : CombineInternalManeuver C P prev_man curr_man next_man done.isEmpty with
      | error e =>
        rw [hm] at h
        cases h
        exact CombineInternalManeuver_error hm
      | ok merged =>
        rw [hm] at h
        exact ih _ _ _ _ _ h
    · rw [if_neg hi] at h
      by_cases htc : curr_man.turn_channel = true
      · rw [if_pos htc] at h
        cases hm : CombineTurnChannelManeuver C P prev_man curr_man next_man done.isEmpty with
        | error e =>
          rw [hm] at h
          cases h
          exact CombineTurnChannelManeuver_error hm
        | ok merged =>
          rw [hm] at h
          exact ih _ _ _ _ _ h
      · rw [if_neg htc] at h
        by_cases hs : same_name_straight P curr_man next_man
            (C.FindCommonBaseNames curr_man.street_names next_man.street_names) = true
        · rw [if_pos hs] at h
          exact ih _ _ _ _ _ h
        · rw [if_neg hs] at h
          exact ih _ _ _ _ _ h

/-- Replacing two adjacent maneuvers by one that begins where the first began
and ends where the second ended keeps the node ranges chained. -/
theorem TilesFrom_merge {N b : Nat} {xs rest : List Maneuver} {c n m : Maneuver}
    (h : TilesFrom N b (xs ++ c :: n :: rest))
    (hb : m.begin_node_index = c.begin_node_index)
    (he : m.end_node_index = n.end_node_index) : TilesFrom N b (xs ++ m :: rest) := by
  rw [TilesFrom_append] at h ⊢
  obtain ⟨mid, h1, h2, hc, h3, hn, h4⟩ := h
  exact ⟨mid, h1, hb.trans h2, by omega, by rw [he]; exact h4⟩

/-- The inner loop of `Combine` keeps the node ranges chained. -/
theorem CombineScan_tiles {C : Collaborators} {P : TripPath} {N b : Nat}
    {rest done : List Maneuver} {prev_man curr_man : Maneuver} {combined flag : Bool}
    {out : List Maneuver}
    (ht : TilesFrom N b (done.reverse ++ curr_man :: rest))
    (h : CombineScan C P done prev_man curr_man rest combined = Except.ok (out, flag)) :
    TilesFrom N b out := by
  obtain ⟨done', _, curr', hout, hinv⟩ := CombineScan_invariant C P
    (fun done _ curr_man rest _ => TilesFrom N b (done.reverse ++ curr_man :: rest))
    (fun _ _ _ _ _ _ _ hinv _ hm =>
      TilesFrom_merge hinv (CombineInternalManeuver_spec hm).1 (CombineInternalManeuver_spec hm).2.1)
    (fun _ _ _ _ _ _ _ hinv _ _ hm =>
      TilesFrom_merge hinv (CombineTurnChannelManeuver_spec hm).1
        (CombineTurnChannelManeuver_spec hm).2.1)
    (fun _ _ _ _ _ _ hinv _ _ _ => TilesFrom_merge hinv rfl rfl)
    (fun done _ curr_man next_man rest _ hinv _ _ _ => by
      simpa using hinv)
    rest done prev_man curr_man combined out flag ht h
  rw [hout]
  exact hinv

/-- Replacing two adjacent maneuvers by one that carries both distances keeps
the total distance. -/
theorem total_distance_merge {xs rest : List Maneuver} {c n m : Maneuver}
    (hd : m.distance = n.distance + c.distance) :
    total_distance (xs ++ m :: rest) = total_distance (xs ++ c :: n :: rest) := by
  simp only [total_distance, List.map_append, List.map_cons, List.sum_append, List.sum_cons, hd]
  omega

/-- Replacing two adjacent maneuvers by one that carries both times keeps the
total time. -/
theorem total_time_merge {xs rest : List Maneuver} {c n m : Maneuver}
    (hd : m.time = n.time + c.time) :
    total_time (xs ++ m :: rest) = total_time (xs ++ c :: n :: rest) := by
  simp only [total_time, List.map_append, List.map_cons, List.sum_append, List.sum_cons, hd]
  omega

/-- The inner loop of `Combine` keeps the total distance and the total time. -/
theorem CombineScan_totals {C : Collaborators} {P : TripPath}
    {rest done : List Maneuver} {prev_man curr_man : Maneuver} {combined flag : Bool}
    {out : List Maneuver}
    (h : CombineScan C P done prev_man curr_man rest combined = Except.ok (out, flag)) :
    total_distance out = total_distance (done.reverse ++ curr_man :: rest)
      ∧ total_time out = total_time (done.reverse ++ curr_man :: rest) := by
  obtain ⟨done', _, curr', hout, hinv⟩ := CombineScan_invariant C P
    (fun d _ c r _ =>
      total_distance (d.reverse ++ c :: r) = total_distance (done.reverse ++ curr_man :: rest)
        ∧ total_time (d.reverse ++ c :: r) = total_time (done.reverse ++ curr_man :: rest))
    (fun _ _ _ _ _ _ _ hinv _ hm =>
      ⟨(total_distance_merge (CombineInternalManeuver_spec hm).2.2.1).trans hinv.1,
        (total_time_merge (CombineInternalManeuver_spec hm).2.2.2.1).trans hinv.2⟩)
    (fun _ _ _ _ _ _ _ hinv _ _ hm =>
      ⟨(total_distance_merge (CombineTurnChannelManeuver_spec hm).2.2.1).trans hinv.1,
        (total_time_merge (CombineTurnChannelManeuver_spec hm).2.2.2.1).trans hinv.2⟩)
    (fun _ _ c n _ _ hinv _ _ _ =>
      ⟨(total_distance_merge (by
          show c.distance + n.distance = n.distance + c.distance
          omega)).trans hinv.1,
        (total_time_merge (by
          show c.time + n.time = n.time + c.time
          omega)).trans hinv.2⟩)
    (fun done _ curr_man next_man rest _ hinv _ _ _ => by
      simpa using hinv)
    rest done prev_man curr_man combined out flag ⟨rfl, rfl⟩ h
  rw [hout]
  exact hinv

/-- The inner loop of `Combine` never lengthens the list, and returns the flag
set only if the flag was set before or the list got shorter. -/
theorem CombineScan_length {C : Collaborators} {P : TripPath}
    {rest done : List Maneuver} {prev_man curr_man : Maneuver} {combined flag : Bool}
    {out : List Maneuver}
    (h : CombineScan C P done prev_man curr_man rest combined = Except.ok (out, flag)) :
    out.length ≤ done.length + 1 + rest.length
      ∧ (flag = true → combined = true ∨ out.length < done.length + 1 + rest.length) := by
  obtain ⟨done', _, curr', hout, hinv⟩ := CombineScan_invariant C P
    (fun d _ _ r b =>
      d.length + 1 + r.length ≤ done.length + 1 + rest.length
        ∧ (b = true → combined = true ∨ d.length + 1 + r.length < done.length + 1 + rest.length))
    (fun _ _ _ _ _ _ _ hinv _ _ => by
      simp only [List.length_cons] at hinv
      exact ⟨by omega, fun _ => Or.inr (by omega)⟩)
    (fun _ _ _ _ _ _ _ hinv _ _ _ => by
      simp only [List.length_cons] at hinv
      exact ⟨by omega, fun _ => Or.inr (by omega)⟩)
    (fun _ _ _ _ _ _ hinv _ _ _ => by
      simp only [List.length_cons] at hinv
      exact ⟨by omega, fun hb => (hinv.2 hb).imp id (fun _ => by omega)⟩)
    (fun _ _ _ _ _ _ hinv _ _ _ => by
      simp only [List.length_cons] at hinv ⊢
      exact ⟨by omega, fun hb => (hinv.2 hb).imp id (fun _ => by omega)⟩)
    rest done prev_man curr_man combined out flag ⟨le_refl _, fun hb => Or.inl hb⟩ h
  rw [hout]
  simp only [List.length_append, List.length_reverse, List.length_singleton, List.length_nil,
    Nat.add_zero] at hinv ⊢
  exact hinv

/-- The last maneuver after two adjacent maneuvers were replaced by one. -/
theorem getLast_merge {Q : Maneuver → Prop} {c n m : Maneuver} {r : List Maneuver}
    (h : ∀ l, (c :: n :: r).getLast? = some l → Q l) (hm : Q n → Q m) :
    ∀ l, (m :: r).getLast? = some l → Q l := by
  cases r with
  | nil =>
    intro l hl
    simp only [List.getLast?_singleton, Option.some.injEq] at hl
    subst hl
    exact hm (h n (by simp))
  | cons x xs =>
    intro l hl
    rw [List.getLast?_cons_cons] at hl
    exact h l (by rw [List.getLast?_cons_cons, List.getLast?_cons_cons]; exact hl)

/-- The inner loop of `Combine` leaves no placeholder before the last
maneuver, and none at all when the last maneuver it started with is none:
a placeholder that becomes the current maneuver while it has a successor is
absorbed. -/
theorem CombineScan_placeholder {C : Collaborators} {P : TripPath}
    {rest done : List Maneuver} {prev_man curr_man : Maneuver} {combined flag : Bool}
    {out : List Maneuver} (hd : ∀ m ∈ done, m.placeholder = false)
    (h : CombineScan C P done prev_man curr_man rest combined = Except.ok (out, flag)) :
    ∃ init last, out = init ++ [last] ∧ (∀ m ∈ init, m.placeholder = false)
      ∧ ((∀ l, (curr_man :: rest).getLast? = some l → l.placeholder = false) →
          last.placeholder = false) := by
  obtain ⟨done', _, curr', hout, hinv⟩ := CombineScan_invariant C P
    (fun d _ c r _ => (∀ m ∈ d, m.placeholder = false)
      ∧ ((∀ l, (curr_man :: rest).getLast? = some l → l.placeholder = false) →
          ∀ l, (c :: r).getLast? = some l → l.placeholder = false))
    (fun _ _ _ _ _ _ _ hinv _ hm =>
      ⟨hinv.1, fun h0 => getLast_merge (hinv.2 h0) (fun hn => by
        obtain ⟨_, _, _, _, h5, h6⟩ := CombineInternalManeuver_spec hm
        simp only [Maneuver.placeholder, h5, h6] at hn ⊢
        exact hn)⟩)
    (fun _ _ _ _ _ _ _ hinv _ _ hm =>
      ⟨hinv.1, fun h0 => getLast_merge (hinv.2 h0) (fun hn => by
        obtain ⟨_, _, _, _, h5, h6⟩ := CombineTurnChannelManeuver_spec hm
        simp only [Maneuver.placeholder, h5, h6] at hn ⊢
        exact hn)⟩)
    (fun _ _ c n _ _ hinv hi htc _ =>
      ⟨hinv.1, fun h0 => getLast_merge (hinv.2 h0) (fun _ => by
        show (c.internal_intersection || c.turn_channel) = false
        rw [hi, htc]; rfl)⟩)
    (fun _ _ c n r _ hinv hi htc _ =>
      ⟨fun m hm => by
          rcases List.mem_cons.mp hm with hm | hm
          · subst hm
            show (m.internal_intersection || m.turn_channel) = false
            rw [hi, htc]; rfl
          · exact hinv.1 m hm,
        fun h0 l hl => hinv.2 h0 l (by rw [List.getLast?_cons_cons]; exact hl)⟩)
    rest done prev_man curr_man combined out flag ⟨hd, fun h0 => h0⟩ h
  refine ⟨done'.reverse, curr', hout, fun m hm => hinv.1 m (List.mem_reverse.mp hm), fun h0 => ?_⟩
  exact hinv.2 h0 curr' rfl

/-- An absorption sets the flag for the rest of the pass: once the flag is
set, the inner loop returns it set. -/
theorem CombineScan_flag {C : Collaborators} {P : TripPath}
    {rest done : List Maneuver} {prev_man curr_man : Maneuver} {flag : Bool}
    {out : List Maneuver}
    (h : CombineScan C P done prev_man curr_man rest true = Except.ok (out, flag)) :
    flag = true := by
  obtain ⟨_, _, _, _, hinv⟩ := CombineScan_invariant C P
    (fun _ _ _ _ b => b = true)
    (fun _ _ _ _ _ _ _ _ _ _ => rfl)
    (fun _ _ _ _ _ _ _ _ _ _ _ => rfl)
    (fun _ _ _ _ _ _ hinv _ _ _ => hinv)
    (fun _ _ _ _ _ _ hinv _ _ _ => hinv)
    rest done prev_man curr_man true out flag rfl h
  exact hinv

/-- One pass of `Combine` fails only by a null dereference. -/
theorem CombinePass_error {C : Collaborators} {P : TripPath} {ms : List Maneuver} {err : Err}
    (h : CombinePass C P ms = Except.error err) : err = Err.null_dereference := by
  cases ms with
  | nil => simp only [CombinePass, pure, Except.pure] at h; cases h
  | cons first rest => exact CombineScan_error C P rest [] first first false err h

/-- One pass of `Combine` keeps the node ranges chained and the totals, never
lengthens the list, and sets the flag only if the list got shorter. -/
theorem CombinePass_spec {C : Collaborators} {P : TripPath} {ms out : List Maneuver}
    {flag : Bool} (h : CombinePass C P ms = Except.ok (out, flag)) :
    (∀ N b, TilesFrom N b ms → TilesFrom N b out)
      ∧ total_distance out = total_distance ms ∧ total_time out = total_time ms
      ∧ out.length ≤ ms.length ∧ (flag = true → out.length < ms.length)
      ∧ (ms ≠ [] → out ≠ []) := by
  cases ms with
  | nil =>
    simp only [CombinePass, pure, Except.pure, Except.ok.injEq, Prod.mk.injEq] at h
    obtain ⟨h1, h2⟩ := h
    subst h1 h2
    refine ⟨fun _ _ ht => ht, rfl, rfl, le_refl _, ?_, fun hne => hne⟩
    intro hf
    cases hf
  | cons first rest =>
    have h' : CombineScan C P [] first first rest false = Except.ok (out, flag) := h
    obtain ⟨hlen, hflag⟩ := CombineScan_length h'
    obtain ⟨hd, ht⟩ := CombineScan_totals h'
    obtain ⟨init, last, hout, _, _⟩ := CombineScan_placeholder (by simp) h'
    simp only [List.length_nil, List.length_cons, List.reverse_nil, List.nil_append] at *
    refine ⟨fun N b htiles => CombineScan_tiles (by simpa using htiles) h', hd, ht, by omega,
      fun hf => ?_, fun _ => by rw [hout]; simp⟩
    rcases hflag hf with hc | hc
    · cases hc
    · omega

/-- After one pass of `Combine` no maneuver that has a successor is a
placeholder; if the last maneuver was none before the pass, none is left. -/
theorem CombinePass_placeholder {C : Collaborators} {P : TripPath} {ms out : List Maneuver}
    {flag : Bool} (h : CombinePass C P ms = Except.ok (out, flag)) :
    (∀ m ∈ out.dropLast, m.placeholder = false)
      ∧ ((∀ l, ms.getLast? = some l → l.placeholder = false) →
          ∀ m ∈ out, m.placeholder = false) := by
  cases ms with
  | nil =>
    simp only [CombinePass, pure, Except.pure, Except.ok.injEq, Prod.mk.injEq] at h
    obtain ⟨h1, h2⟩ := h
    subst h1 h2
    exact ⟨fun m hm => by simp at hm, fun _ m hm => by simp at hm⟩
  | cons first rest =>
    have h' : CombineScan C P [] first first rest false = Except.ok (out, flag) := h
    obtain ⟨init, last, hout, hinit, hlast⟩ := CombineScan_placeholder (by simp) h'
    subst hout
    refine ⟨fun m hm => hinit m (by simpa using hm), fun h0 m hm => ?_⟩
    rcases List.mem_append.mp hm with hm | hm
    · exact hinit m hm
    · simp only [List.mem_singleton] at hm
      subst hm
      exact hlast h0

/-- A pass on a list in which no maneuver with a successor is a placeholder
performs no absorption: it cannot fail and returns the flag unset. -/
theorem CombineScan_no_placeholder (C : Collaborators) (P : TripPath) :
    ∀ (rest done : List Maneuver) (prev_man curr_man : Maneuver),
      (∀ m ∈ (curr_man :: rest).dropLast, m.placeholder = false) →
      ∃ out, CombineScan C P done prev_man curr_man rest false = Except.ok (out, false) := by
  intro rest
  induction rest with
  | nil =>
    intro done prev_man curr_man _
    exact ⟨_, rfl⟩
  | cons next_man rest ih =>
    intro done prev_man curr_man hclean
    have hc : curr_man.placeholder = false := hclean curr_man (by simp [List.dropLast])
    have hrest : ∀ m ∈ (next_man :: rest).dropLast, m.placeholder = false := fun m hm =>
      hclean m (by simp only [List.dropLast_cons₂, List.mem_cons]; exact Or.inr hm)
    simp only [Maneuver.placeholder, Bool.or_eq_false_iff] at hc
    rw [CombineScan]
    dsimp only
    rw [if_neg (by simp [hc.1]), if_neg (by simp [hc.2])]
    by_cases hs : same_name_straight P curr_man next_man
        (C.FindCommonBaseNames curr_man.street_names next_man.street_names) = true
    · rw [if_pos hs]
      apply ih
      intro m hm
      cases rest with
      | nil => simp [List.dropLast] at hm
      | cons x xs =>
        simp only [List.dropLast_cons₂, List.mem_cons] at hm
        rcases hm with hm | hm
        · subst hm
          show (curr_man.internal_intersection || curr_man.turn_channel) = false
          rw [hc.1, hc.2]; rfl
        · exact hrest m (by simp only [List.dropLast_cons₂, List.mem_cons]; exact Or.inr hm)
    · rw [if_neg hs]
      exact ih _ _ _ hrest

/-- Invariant rule for the outer loop of `Combine`: a property of the list
that every pass preserves holds of the returned list, and the returned list
is the result of a pass that left the flag unset. -/
theorem CombineLoop_invariant (C : Collaborators) (P : TripPath) (Inv : List Maneuver → Prop)
    (hpass : ∀ ms out flag, Inv ms → CombinePass C P ms = Except.ok (out, flag) → Inv out) :
    ∀ (fuel : Nat) (ms out : List Maneuver), Inv ms → CombineLoop C P fuel ms = Except.ok out →
      Inv out ∧ ∃ last_in, Inv last_in ∧ CombinePass C P last_in = Except.ok (out, false) := by
  intro fuel
  induction fuel with
  | zero =>
    intro ms out _ h
    simp only [CombineLoop, throw, throwThe, MonadExceptOf.throw] at h
    cases h
  | succ fuel ih =>
    intro ms out hinv h
    rw [CombineLoop] at h
    cases hp : CombinePass C P ms with
    | error err => rw [hp] at h; cases h
    | ok r =>
      obtain ⟨ms', flag⟩ := r
      rw [hp] at h
      simp only [Except.bind, bind, pure, Except.pure] at h
      cases flag with
      | true =>
        simp only [if_true] at h
        exact ih ms' out (hpass ms ms' true hinv hp) h
      | false =>
        simp only [Bool.false_eq_true, if_false, Except.ok.injEq] at h
        subst h
        exact ⟨hpass ms ms' false hinv hp, ms, hinv, hp⟩

/-- The outer loop of `Combine` ends within `length + 1` rounds: with more
fuel than the list is long it does not run out of fuel. -/
theorem CombineLoop_fuel (C : Collaborators) (P : TripPath) :
    ∀ (fuel : Nat) (ms : List Maneuver), ms.length < fuel →
      CombineLoop C P fuel ms ≠ Except.error Err.fuel_exhausted := by
  intro fuel
  induction fuel with
  | zero => intro ms h; omega
  | succ fuel ih =>
    intro ms hlen h
    rw [CombineLoop] at h
    cases hp : CombinePass C P ms with
    | error err =>
      rw [hp] at h
      have := CombinePass_error hp
      subst this
      cases h
    | ok r =>
      obtain ⟨ms', flag⟩ := r
      rw [hp] at h
      simp only [Except.bind, bind, pure, Except.pure] at h
      cases flag with
      | true =>
        simp only [if_true] at h
        have := (CombinePass_spec hp).2.2.2.2.1 rfl
        exact ih ms' (by omega) h
      | false =>
        simp only [Bool.false_eq_true, if_false] at h
        cases h

/-- The result of the outer loop of `Combine` does not depend on the fuel,
once there is more fuel than the list is long. -/
theorem CombineLoop_fuel_irrelevant (C : Collaborators) (P : TripPath) :
    ∀ (fuel fuel' : Nat) (ms : List Maneuver), ms.length < fuel → ms.length < fuel' →
      CombineLoop C P fuel ms = CombineLoop C P fuel' ms := by
  intro fuel
  induction fuel with
  | zero => intro fuel' ms h; omega
  | succ fuel ih =>
    intro fuel' ms hlen hlen'
    cases fuel' with
    | zero => omega
    | succ fuel' =>
      rw [CombineLoop, CombineLoop]
      cases hp : CombinePass C P ms with
      | error err => rfl
      | ok r =>
        obtain ⟨ms', flag⟩ := r
        simp only [Except.bind, bind, pure, Except.pure]
        cases flag with
        | true =>
          simp only [if_true]
          have := (CombinePass_spec hp).2.2.2.2.1 rfl
          exact ih fuel' ms' (by omega) (by omega)
        | false => rfl

/-- `Combine` runs a pass, and a further `Combine` on its result exactly when
the pass set the flag. -/
theorem Combine_unfold (C : Collaborators) (P : TripPath) {ms ms' : List Maneuver} {flag : Bool}
    (hp : CombinePass C P ms = Except.ok (ms', flag)) :
    Combine C P ms = if flag then Combine C P ms' else Except.ok ms' := by
  unfold Combine
  rw [CombineLoop, hp]
  simp only [Except.bind, bind, pure, Except.pure]
  cases flag with
  | true =>
    simp only [if_true]
    have := (CombinePass_spec hp).2.2.2.2.1 rfl
    exact CombineLoop_fuel_irrelevant C P _ _ ms' (by omega) (by omega)
  | false => rfl

/-- `Combine` fails only by a null dereference. -/
theorem Combine_error {C : Collaborators} {P : TripPath} {ms : List Maneuver} {err : Err}
    (h : Combine C P ms = Except.error err) : err = Err.null_dereference := by
  have key : ∀ (fuel : Nat) (ms : List Maneuver), ms.length < fuel →
      CombineLoop C P fuel ms = Except.error err → err = Err.null_dereference := by
    intro fuel
    induction fuel with
    | zero => intro ms h; omega
    | succ fuel ih =>
      intro ms hlen h
      rw [CombineLoop] at h
      cases hp : CombinePass C P ms with
      | error e =>
        rw [hp] at h
        cases h
        exact CombinePass_error hp
      | ok r =>
        obtain ⟨ms', flag⟩ := r
        rw [hp] at h
        simp only [Except.bind, bind, pure, Except.pure] at h
        cases flag with
        | true =>
          simp only [if_true] at h
          have := (CombinePass_spec hp).2.2.2.2.1 rfl
          exact ih ms' (by omega) h
        | false =>
          simp only [Bool.false_eq_true, if_false] at h
          cases h
  exact key _ ms (Nat.lt_succ_self _) h

/-- What `Combine` preserves and establishes: the node ranges stay chained,
the totals are kept, the list is not longer, no maneuver with a successor is a
placeholder, none at all if the last was none, and the returned list is the
result of a pass that left the flag unset. -/
theorem Combine_spec {C : Collaborators} {P : TripPath} {ms out : List Maneuver}
    (h : Combine C P ms = Except.ok out) :
    (∀ N b, TilesFrom N b ms → TilesFrom N b out)
      ∧ total_distance out = total_distance ms ∧ total_time out = total_time ms
      ∧ out.length ≤ ms.length
      ∧ (ms ≠ [] → out ≠ [])
      ∧ (∀ m ∈ out.dropLast, m.placeholder = false)
      ∧ ((∀ l, ms.getLast? = some l → l.placeholder = false) →
          ∀ m ∈ out, m.placeholder = false)
      ∧ ∃ last_in, CombinePass C P last_in = Except.ok (out, false) := by
  obtain ⟨⟨h1, h2, h3, h4, h5⟩, last_in, _, hlast⟩ := CombineLoop_invariant C P
    (fun l => (∀ N b, TilesFrom N b ms → TilesFrom N b l)
      ∧ total_distance l = total_distance ms ∧ total_time l = total_time ms
      ∧ l.length ≤ ms.length ∧ (ms ≠ [] → l ≠ []))
    (fun l out flag hinv hp => by
      obtain ⟨p1, p2, p3, p4, _, p6⟩ := CombinePass_spec hp
      exact ⟨fun N b ht => p1 N b (hinv.1 N b ht), p2.trans hinv.2.1, p3.trans hinv.2.2.1,
        le_trans p4 hinv.2.2.2.1, fun hne => p6 (hinv.2.2.2.2 hne)⟩)
    _ ms out ⟨fun _ _ ht => ht, rfl, rfl, le_refl _, fun hne => hne⟩ h
  refine ⟨h1, h2, h3, h4, h5, (CombinePass_placeholder hlast).1, fun h0 => ?_, last_in, hlast⟩
  obtain ⟨_, last_in', hin, hlast'⟩ := CombineLoop_invariant C P
    (fun l => ∀ x, l.getLast? = some x → x.placeholder = false)
    (fun l out flag hinv hp x hx =>
      (CombinePass_placeholder hp).2 hinv x (List.mem_of_mem_getLast? hx))
    _ ms out h0 h
  exact (CombinePass_placeholder hlast').2 hin

/-- A list that tiles `[0, N]` chains from node 0 to node `N`. -/
theorem TilesFrom_of_Tiles {N : Nat} {ms : List Maneuver} (h : Tiles N ms) :
    TilesFrom N 0 ms := by
  have key : ∀ (ms : List Maneuver) (m : Maneuver) (b : Nat), m.begin_node_index = b →
      List.Chain' (fun a b : Maneuver => a.end_node_index = b.begin_node_index) (m :: ms) →
      (∃ last, (m :: ms).getLast? = some last ∧ last.end_node_index = N) →
      (∀ x ∈ m :: ms, x.begin_node_index ≤ x.end_node_index) →
      TilesFrom N b (m :: ms) := by
    intro ms
    induction ms with
    | nil =>
      intro m b hb _ hl hall
      obtain ⟨last, hlast, hend⟩ := hl
      simp only [List.getLast?_singleton, Option.some.injEq] at hlast
      subst hlast
      exact ⟨hb, hall _ (List.mem_singleton_self _), hend⟩
    | cons x xs ih =>
      intro m b hb hc hl hall
      rw [List.chain'_cons] at hc
      rw [List.getLast?_cons_cons] at hl
      exact ⟨hb, hall m (List.mem_cons_self _ _),
        ih x m.end_node_index hc.1.symm hc.2 hl
          (fun y hy => hall y (List.mem_cons_of_mem _ hy))⟩
  obtain ⟨⟨first, hfirst, hb⟩, hc, hl, hall⟩ := h
  cases ms with
  | nil => simp at hfirst
  | cons m ms =>
    simp only [List.head?_cons, Option.some.injEq] at hfirst
    subst hfirst
    exact key ms m 0 hb hc hl hall

/-- Replacing two adjacent maneuvers of a tiling by one that begins where the
first began and ends where the second ended gives a tiling. -/
theorem Tiles_merge {N : Nat} {xs rest : List Maneuver} {c n m : Maneuver}
    (h : Tiles N (xs ++ c :: n :: rest))
    (hb : m.begin_node_index = c.begin_node_index)
    (he : m.end_node_index = n.end_node_index) : Tiles N (xs ++ m :: rest) :=
  Tiles_of_TilesFrom (by simp) (TilesFrom_merge (TilesFrom_of_Tiles h) hb he)

/-- `Build` is `Produce` followed by `Combine`. -/
theorem Build_ok_iff {C : Collaborators} {P : TripPath} {out : List Maneuver} :
    Build C P = Except.ok out ↔
      ∃ ms, Produce C P = Except.ok ms ∧ Combine C P ms = Except.ok out := by
  unfold Build
  cases hp : Produce C P with
  | error err =>
    simp only [Except.bind, bind]
    constructor
    · intro h; cases h
    · rintro ⟨ms, h, _⟩; cases h
  | ok ms =>
    simp only [Except.bind, bind]
    constructor
    · intro h; exact ⟨ms, rfl, h⟩
    · rintro ⟨ms', h, h'⟩
      cases h
      exact h'

/-- The number of edges is the index of the last node. -/
theorem edges_length_eq_last (P : TripPath) : P.edges.length = P.GetLastNodeIndex := by
  rw [edges_length]; rfl

/-! ### Fixpoint of the merge rules -/

/-- A list in which no merge rule applies, read front to back. -/
theorem no_merge_before_chain (C : Collaborators) (P : TripPath) :
    ∀ (done : List Maneuver) (curr_man : Maneuver), no_merge_before C P done curr_man →
      List.Chain' (fun a b => merge_applies C P a b = false) (done.reverse ++ [curr_man]) := by
  intro done
  induction done with
  | nil => intro c _; exact List.chain'_singleton c
  | cons p ds ih =>
    intro c h
    obtain ⟨h1, h2⟩ := h
    have h3 := ih p h2
    rw [List.reverse_cons, List.append_assoc]
    refine List.Chain'.append ?_ ?_ ?_
    · exact (List.chain'_append.mp h3).1
    · exact List.chain'_pair.mpr h1
    · intro x hx y hy
      have hlast := (List.chain'_append.mp h3).2.2 x hx p (by simp)
      simp only [List.singleton_append, List.head?_cons, Option.mem_def, Option.some.injEq] at hy
      subst hy
      exact hlast

/-- A same-name-straight merge of the current maneuver with its successor
does not make a merge rule apply between the previous maneuver and the
current one, when the reduction adds no common name. -/
theorem merge_applies_same_name {C : Collaborators} {P : TripPath}
    (hred : reduction_adds_nothing C) {p c n : Maneuver}
    (hp : merge_applies C P p c = false)
    (hs : same_name_straight P c n (C.FindCommonBaseNames c.street_names n.street_names) = true) :
    merge_applies C P p
      (CombineSameNameStraightManeuver
        { c with street_names := C.FindCommonBaseNames c.street_names n.street_names } n)
      = false := by
  simp only [merge_applies, Bool.or_eq_false_iff] at hp ⊢
  obtain ⟨⟨hpi, hpt⟩, hps⟩ := hp
  refine ⟨⟨hpi, hpt⟩, ?_⟩
  have hnr : n.ramp = false := by
    simp only [same_name_straight, Bool.and_eq_true, Bool.not_eq_true'] at hs
    exact hs.1.2
  have hnames := hred p.street_names c.street_names n.street_names
  simp only [same_name_straight, CombineSameNameStraightManeuver, hnr, Bool.false_eq_true,
    if_false] at hps ⊢
  cases hpc : (C.FindCommonBaseNames p.street_names c.street_names).isEmpty with
  | true =>
    rw [hnames hpc]
    simp
  | false =>
    rw [hpc] at hps
    simp only [Bool.not_false, Bool.and_true] at hps
    rw [hps]
    rfl

/-- A pass that ends with the flag unset leaves a list in which no merge rule
applies to adjacent maneuvers, when the reduction adds no common name. -/
theorem CombineScan_no_merge {C : Collaborators} {P : TripPath}
    (hred : reduction_adds_nothing C)
    {rest done : List Maneuver} {prev_man curr_man : Maneuver} {combined : Bool}
    {out : List Maneuver} (h0 : no_merge_before C P done curr_man)
    (h : CombineScan C P done prev_man curr_man rest combined = Except.ok (out, false)) :
    List.Chain' (fun a b => merge_applies C P a b = false) out := by
  obtain ⟨done', _, curr', hout, hinv⟩ := CombineScan_invariant C P
    (fun d _ c _ b => b = false → no_merge_before C P d c)
    (fun _ _ _ _ _ _ _ _ _ _ hb => by cases hb)
    (fun _ _ _ _ _ _ _ _ _ _ _ hb => by cases hb)
    (fun d _ c n _ _ hinv _ _ hs hb => by
      have hd := hinv hb
      cases d with
      | nil => trivial
      | cons p ds => exact ⟨merge_applies_same_name hred hd.1 hs, hd.2⟩)
    (fun d _ c n _ _ hinv hi htc hs hb => by
      refine ⟨?_, hinv hb⟩
      simp only [merge_applies, hi, htc, hs, Bool.or_self])
    rest done prev_man curr_man combined out false (fun _ => h0) h
  rw [hout]
  exact no_merge_before_chain C P done' curr' (hinv rfl)

/-- A pass over maneuvers to which no merge rule applies changes nothing. -/
theorem CombineScan_fixed (C : Collaborators) (P : TripPath) :
    ∀ (rest done : List Maneuver) (prev_man curr_man : Maneuver) (combined : Bool),
      List.Chain' (fun a b => merge_applies C P a b = false) (curr_man :: rest) →
      CombineScan C P done prev_man curr_man rest combined
        = Except.ok (done.reverse ++ curr_man :: rest, combined) := by
  intro rest
  induction rest with
  | nil => intro done prev_man curr_man combined _; rfl
  | cons n rest ih =>
    intro done prev_man curr_man combined hc
    rw [List.chain'_cons] at hc
    obtain ⟨h1, h2⟩ := hc
    simp only [merge_applies, Bool.or_eq_false_iff] at h1
    obtain ⟨⟨hi, htc⟩, hs⟩ := h1
    rw [CombineScan]
    dsimp only
    rw [if_neg (by simp [hi]), if_neg (by simp [htc]), if_neg (by simp [hs])]
    rw [ih (curr_man :: done) curr_man n combined h2]
    simp

/-- The sample reduction, which keeps the names of the first set that occur in
the second, adds no common name. -/
theorem sample_reduction_adds_nothing : reduction_adds_nothing sampleCollaborators := by
  intro a b c h
  simp only [sampleCollaborators, sampleFindCommonBaseNames, List.isEmpty_iff,
    List.filter_eq_nil_iff, List.contains_eq_any_beq, List.any_eq_true, beq_iff_eq,
    exists_eq_right, List.mem_filter] at h ⊢
  intro x hx hmem
  obtain ⟨y, ⟨hyb, _⟩, hxy⟩ := hmem
  subst hxy
  exact h x hx ⟨x, hyb, rfl⟩

/-- The list `Combine` returns is a fixpoint: no absorption rule applies in
it, a further pass performs no absorption, and when the reduction adds no
common name no merge rule applies to any adjacent maneuvers and a further pass
returns the list unchanged. -/
theorem Combine_fixpoint {C : Collaborators} {P : TripPath} {ms out : List Maneuver}
    (h : Combine C P ms = Except.ok out) :
    (∀ m ∈ out.dropLast, m.internal_intersection = false ∧ m.turn_channel = false)
    ∧ (∃ out', CombinePass C P out = Except.ok (out', false))
    ∧ (reduction_adds_nothing C →
        List.Chain' (fun a b => merge_applies C P a b = false) out
        ∧ CombinePass C P out = Except.ok (out, false)) := by
  obtain ⟨_, _, _, _, _, hdrop, _, last_in, hlast⟩ := Combine_spec h
  refine ⟨fun m hm => ?_, ?_, fun hred => ?_⟩
  · have := hdrop m hm
    simpa only [Maneuver.placeholder, Bool.or_eq_false_iff] using this
  · cases out with
    | nil => exact ⟨[], rfl⟩
    | cons first rest => exact CombineScan_no_placeholder C P rest [] first first hdrop
  · have hchain : List.Chain' (fun a b => merge_applies C P a b = false) out := by
      cases last_in with
      | nil =>
        simp only [CombinePass, pure, Except.pure, Except.ok.injEq, Prod.mk.injEq] at hlast
        rw [← hlast.1]
        exact List.chain'_nil
      | cons first rest =>
        have h0 : no_merge_before C P [] first := trivial
        exact CombineScan_no_merge hred h0 hlast
    refine ⟨hchain, ?_⟩
    cases out with
    | nil => rfl
    | cons first rest =>
      have := CombineScan_fixed C P rest [] first first false hchain
      simpa using this
/-! ### The claims -/

/-- C1: for every path with `N >= 1` edges, the node-index ranges of the
maneuvers tile `[0, N]` (first begins at 0, every maneuver ends where the next
begins, last ends at `N`, none ends before it begins) in the list `Produce`
returns; each of the three merges of `Combine` turns a tiling into a tiling,
so does `Combine`, and the list `Build` returns tiles `[0, N]`. -/
theorem Build_tiles (C : Collaborators) (P : TripPath) (hN : 1 ≤ P.edges.length) :
    (∀ ms, Produce C P = Except.ok ms → Tiles P.edges.length ms)
    ∧ (∀ xs rest prev_man curr_man next_man merged start_man,
        Tiles P.edges.length (xs ++ curr_man :: next_man :: rest) →
        CombineInternalManeuver C P prev_man curr_man next_man start_man = Except.ok merged →
        Tiles P.edges.length (xs ++ merged :: rest))
    ∧ (∀ xs rest prev_man curr_man next_man merged start_man,
        Tiles P.edges.length (xs ++ curr_man :: next_man :: rest) →
        CombineTurnChannelManeuver C P prev_man curr_man next_man start_man
          = Except.ok merged →
        Tiles P.edges.length (xs ++ merged :: rest))
    ∧ (∀ xs rest curr_man next_man names,
        Tiles P.edges.length (xs ++ curr_man :: next_man :: rest) →
        Tiles P.edges.length
          (xs ++ CombineSameNameStraightManeuver { curr_man with street_names := names }
            next_man :: rest))
    ∧ (∀ ms out, Tiles P.edges.length ms → Combine C P ms = Except.ok out →
        Tiles P.edges.length out)
    ∧ (∀ out, Build C P = Except.ok out → Tiles P.edges.length out) := by
  have h2 : 2 ≤ P.node_size := by rw [edges_length] at hN; omega
  obtain ⟨start, pre, dest, hprod, htiles, _⟩ := Produce_ok C P h2
  rw [← edges_length_eq_last] at htiles
  have hcomb : ∀ ms out, Tiles P.edges.length ms → Combine C P ms = Except.ok out →
      Tiles P.edges.length out := by
    intro ms out ht h
    obtain ⟨h1, _, _, _, hne, _⟩ := Combine_spec h
    have hms : ms ≠ [] := by
      obtain ⟨⟨first, hfirst, _⟩, _⟩ := ht
      intro hnil
      subst hnil
      simp at hfirst
    exact Tiles_of_TilesFrom (hne hms) (h1 _ _ (TilesFrom_of_Tiles ht))
  refine ⟨?_, ?_, ?_, ?_, hcomb, ?_⟩
  · intro ms h
    rw [hprod] at h
    cases h
    exact Tiles_of_TilesFrom (by simp) htiles
  · intro xs rest prev_man curr_man next_man merged start_man ht h
    exact Tiles_merge ht (CombineInternalManeuver_spec h).1 (CombineInternalManeuver_spec h).2.1
  · intro xs rest prev_man curr_man next_man merged start_man ht h
    exact Tiles_merge ht (CombineTurnChannelManeuver_spec h).1
      (CombineTurnChannelManeuver_spec h).2.1
  · intro xs rest curr_man next_man names ht
    exact Tiles_merge ht rfl rfl
  · intro out h
    obtain ⟨ms, hp, hc⟩ := Build_ok_iff.mp h
    rw [hprod] at hp
    cases hp
    exact hcomb _ out (Tiles_of_TilesFrom (by simp) htiles) hc

/-- C1, on the crossing path (3 edges): `Build` returns, and the list it
returns tiles `[0, 3]`. -/
theorem Build_tiles_witness :
    1 ≤ crossingPath.edges.length
    ∧ ∃ out, Build sampleCollaborators crossingPath = Except.ok out ∧ out.length = 3
        ∧ Tiles crossingPath.edges.length out :=
  ⟨by decide, _, rfl, rfl,
    (Build_tiles sampleCollaborators crossingPath (by decide)).2.2.2.2.2 _ rfl⟩

/-- C2: `Build` fails with the error of the node-count validation when the
path has no node or exactly one node; on a path with two or more nodes
`Produce` returns a list and `Build` fails with no `runtime_error` at all. -/
theorem Build_node_count (C : Collaborators) (P : TripPath) :
    (P.node_size = 0 →
      Build C P = Except.error (Err.runtime_error "Trip path does not have any nodes"))
    ∧ (P.node_size = 1 →
      Build C P = Except.error (Err.runtime_error "Trip path has only one node"))
    ∧ (2 ≤ P.node_size →
      (∃ ms, Produce C P = Except.ok ms)
        ∧ ∀ what, Build C P ≠ Except.error (Err.runtime_error what)) := by
  refine ⟨fun h => ?_, fun h => ?_, fun h => ?_⟩
  · unfold Build Produce
    rw [if_pos (by omega)]
    rfl
  · unfold Build Produce
    rw [if_neg (by omega), if_pos h]
    rfl
  · obtain ⟨start, pre, dest, hprod, _⟩ := Produce_ok C P h
    refine ⟨⟨_, hprod⟩, fun what hb => ?_⟩
    unfold Build at hb
    rw [hprod] at hb
    simp only [Except.bind, bind] at hb
    have := Combine_error hb
    cases this

/-- C3 (the code at the failing input): on the three-node path whose first
edge is an internal-intersection edge, `Produce` returns, and `Combine`
absorbs the Start maneuver into its successor, whose begin node becomes 0;
the reclassification of the successor reads the previous edge of node 0,
which is null, so `Build` returns no maneuver list. -/
theorem Build_internalFirstPath :
    internalFirstPath.node_size = 3
    ∧ internalFirstPath.GetPrevEdge 0 1 = none
    ∧ (∃ ms, Produce sampleCollaborators internalFirstPath = Except.ok ms)
    ∧ Build sampleCollaborators internalFirstPath = Except.error Err.null_dereference :=
  ⟨rfl, rfl, ⟨_, rfl⟩, rfl⟩

/-- C4: `Combine` leaves no maneuver with the internal-intersection or the
turn-channel flag set when the last maneuver of its input has neither; the
list `Produce` returns ends with the Destination maneuver, which has neither,
so the list `Build` returns contains no such maneuver. -/
theorem Combine_absorbs_placeholders (C : Collaborators) (P : TripPath) :
    (∀ ms out,
      (∀ l, ms.getLast? = some l → l.internal_intersection = false ∧ l.turn_channel = false) →
      Combine C P ms = Except.ok out →
      ∀ m ∈ out, m.internal_intersection = false ∧ m.turn_channel = false)
    ∧ (∀ ms, Produce C P = Except.ok ms →
        ∃ l, ms.getLast? = some l ∧ l.type = ManeuverType.kDestination
          ∧ l.internal_intersection = false ∧ l.turn_channel = false)
    ∧ (∀ out, Build C P = Except.ok out →
        ∀ m ∈ out, m.internal_intersection = false ∧ m.turn_channel = false) := by
  have hp : ∀ m : Maneuver,
      m.placeholder = false ↔ (m.internal_intersection = false ∧ m.turn_channel = false) := by
    intro m
    simp only [Maneuver.placeholder, Bool.or_eq_false_iff]
  have h1 : ∀ ms out,
      (∀ l, ms.getLast? = some l → l.internal_intersection = false ∧ l.turn_channel = false) →
      Combine C P ms = Except.ok out →
      ∀ m ∈ out, m.internal_intersection = false ∧ m.turn_channel = false := by
    intro ms out hlast h m hm
    exact (hp m).mp ((Combine_spec h).2.2.2.2.2.2.1 (fun l hl => (hp l).mpr (hlast l hl)) m hm)
  have h2 : ∀ ms, Produce C P = Except.ok ms →
      ∃ l, ms.getLast? = some l ∧ l.type = ManeuverType.kDestination
        ∧ l.internal_intersection = false ∧ l.turn_channel = false := by
    intro ms h
    have hsize : 2 ≤ P.node_size := by
      by_contra hlt
      unfold Produce at h
      by_cases h0 : P.node_size < 1
      · rw [if_pos h0] at h; cases h
      · rw [if_neg h0, if_pos (by omega)] at h; cases h
    obtain ⟨start, pre, dest, hprod, _, _, _, _, hdty, hdi, hdtc⟩ := Produce_ok C P hsize
    rw [hprod] at h
    cases h
    refine ⟨dest, ?_, hdty, hdi, hdtc⟩
    rw [← List.cons_append, List.getLast?_append, List.getLast?_singleton]
    rfl
  refine ⟨h1, h2, ?_⟩
  intro out h
  obtain ⟨ms, hprod, hc⟩ := Build_ok_iff.mp h
  obtain ⟨l, hl, _, hli, hltc⟩ := h2 ms hprod
  refine h1 ms out (fun l' hl' => ?_) hc
  rw [hl] at hl'
  cases hl'
  exact ⟨hli, hltc⟩

/-- C4, on the crossing path: `Produce` returns a list with an
internal-intersection maneuver, and the list `Combine` leaves has none. -/
theorem Combine_absorbs_placeholders_witness :
    ∃ ms out, Produce sampleCollaborators crossingPath = Except.ok ms
      ∧ (∃ m ∈ ms, m.internal_intersection = true)
      ∧ Combine sampleCollaborators crossingPath ms = Except.ok out
      ∧ ∀ m ∈ out, m.internal_intersection = false ∧ m.turn_channel = false :=
  ⟨_, _, rfl, ⟨_, List.mem_cons_of_mem _ (List.mem_cons_self _ _), rfl⟩, rfl,
    (Combine_absorbs_placeholders sampleCollaborators crossingPath).2.2 _ rfl⟩

/-- C5: on every path on which `Build` returns, the distances of the returned
maneuvers add up to the lengths of the path edges and their times to the
per-edge times; this holds of the list `Produce` returns, and `Combine` keeps
both totals. -/
theorem Build_totals (C : Collaborators) (P : TripPath) :
    (∀ ms, Produce C P = Except.ok ms →
      total_distance ms = path_length P ∧ total_time ms = path_time C P)
    ∧ (∀ ms out, Combine C P ms = Except.ok out →
      total_distance out = total_distance ms ∧ total_time out = total_time ms)
    ∧ (∀ out, Build C P = Except.ok out →
      total_distance out = path_length P ∧ total_time out = path_time C P) := by
  have h1 : ∀ ms, Produce C P = Except.ok ms →
      total_distance ms = path_length P ∧ total_time ms = path_time C P := by
    intro ms h
    have hsize : 2 ≤ P.node_size := by
      by_contra hlt
      unfold Produce at h
      by_cases h0 : P.node_size < 1
      · rw [if_pos h0] at h; cases h
      · rw [if_neg h0, if_pos (by omega)] at h; cases h
    obtain ⟨start, pre, dest, hprod, _, hd, ht, _⟩ := Produce_ok C P hsize
    rw [hprod] at h
    cases h
    exact ⟨hd, ht⟩
  have h2 : ∀ ms out, Combine C P ms = Except.ok out →
      total_distance out = total_distance ms ∧ total_time out = total_time ms :=
    fun ms out h => ⟨(Combine_spec h).2.1, (Combine_spec h).2.2.1⟩
  refine ⟨h1, h2, ?_⟩
  intro out h
  obtain ⟨ms, hprod, hc⟩ := Build_ok_iff.mp h
  exact ⟨(h2 ms out hc).1.trans (h1 ms hprod).1, (h2 ms out hc).2.trans (h1 ms hprod).2⟩

/-- C5, on the straight path (edges of length 100, 10 and 200): `Build`
returns two maneuvers whose distances add up to 310. -/
theorem Build_totals_witness :
    path_length straightPath = 310
    ∧ ∃ out, Build sampleCollaborators straightPath = Except.ok out ∧ out.length = 2
        ∧ total_distance out = path_length straightPath
        ∧ total_time out = path_time sampleCollaborators straightPath :=
  ⟨rfl, _, rfl, rfl, (Build_totals sampleCollaborators straightPath).2.2 _ rfl⟩

/-- C6: `Combine` terminates on every list: the bound of `length + 1` rounds
is never reached and more fuel does not change the result.  The returned list
is not longer than the input.  A pass never lengthens the list and sets the
flag only if it removed a maneuver, so a pass that removes none leaves the
flag unset and `Combine` returns its list. -/
theorem Combine_terminates (C : Collaborators) (P : TripPath) (ms : List Maneuver) :
    Combine C P ms ≠ Except.error Err.fuel_exhausted
    ∧ (∀ fuel, ms.length < fuel → CombineLoop C P fuel ms = Combine C P ms)
    ∧ (∀ out, Combine C P ms = Except.ok out → out.length ≤ ms.length)
    ∧ (∀ ms' flag, CombinePass C P ms = Except.ok (ms', flag) →
        ms'.length ≤ ms.length
        ∧ (flag = true → ms'.length < ms.length)
        ∧ (ms'.length = ms.length → flag = false ∧ Combine C P ms = Except.ok ms')) := by
  refine ⟨CombineLoop_fuel C P _ ms (Nat.lt_succ_self _),
    fun fuel hf => CombineLoop_fuel_irrelevant C P fuel _ ms hf (Nat.lt_succ_self _),
    fun out h => (Combine_spec h).2.2.2.1, ?_⟩
  intro ms' flag hp
  obtain ⟨_, _, _, hlen, hflag, _⟩ := CombinePass_spec hp
  refine ⟨hlen, hflag, fun heq => ?_⟩
  have hf : flag = false := by
    cases flag with
    | false => rfl
    | true => have := hflag rfl; omega
  subst hf
  exact ⟨rfl, by rw [Combine_unfold C P hp]; rfl⟩

/-- C7 (amended): an absorption sets the flag of the pass; a pass that ends
with the flag set is followed by a further full pass and a pass that ends with
the flag unset ends `Combine`; a same-name-straight merge leaves the flag as
it is and re-examines the merged maneuver against its new successor in the
same pass.  In the returned list no maneuver with a successor is an
internal-intersection or turn-channel maneuver and a further pass performs no
absorption; when the common-base-name reduction adds no common name, no merge
rule applies to any adjacent maneuvers and a further pass returns the list
unchanged. -/
theorem Combine_stops_at_fixpoint (C : Collaborators) (P : TripPath) :
    (∀ done prev_man curr_man next_man rest combined out flag,
      (curr_man.internal_intersection = true ∨ curr_man.turn_channel = true) →
      CombineScan C P done prev_man curr_man (next_man :: rest) combined
        = Except.ok (out, flag) →
      flag = true)
    ∧ (∀ ms ms', CombinePass C P ms = Except.ok (ms', true) →
        Combine C P ms = Combine C P ms')
    ∧ (∀ ms ms', CombinePass C P ms = Except.ok (ms', false) →
        Combine C P ms = Except.ok ms')
    ∧ (∀ done prev_man curr_man next_man rest combined,
        curr_man.internal_intersection = false → curr_man.turn_channel = false →
        same_name_straight P curr_man next_man
          (C.FindCommonBaseNames curr_man.street_names next_man.street_names) = true →
        CombineScan C P done prev_man curr_man (next_man :: rest) combined
          = CombineScan C P done prev_man
              (CombineSameNameStraightManeuver
                { curr_man with
                  street_names :=
                    C.FindCommonBaseNames curr_man.street_names next_man.street_names }
                next_man)
              rest combined)
    ∧ (∀ ms out, Combine C P ms = Except.ok out →
        (∀ m ∈ out.dropLast, m.internal_intersection = false ∧ m.turn_channel = false)
        ∧ (∃ out', CombinePass C P out = Except.ok (out', false))
        ∧ (reduction_adds_nothing C →
            List.Chain' (fun a b => merge_applies C P a b = false) out
            ∧ CombinePass C P out = Except.ok (out, false))) := by
  refine ⟨?_, ?_, ?_, ?_, fun ms out h => Combine_fixpoint h⟩
  · intro done prev_man curr_man next_man rest combined out flag hc h
    rw [CombineScan] at h
    dsimp only at h
    by_cases hi : curr_man.internal_intersection = true
    · rw [if_pos hi] at h
      cases hm : CombineInternalManeuver C P prev_man curr_man next_man done.isEmpty with
      | error err => rw [hm] at h; cases h
      | ok merged =>
        rw [hm] at h
        exact CombineScan_flag h
    · rw [if_neg hi] at h
      have htc : curr_man.turn_channel = true := hc.resolve_left hi
      rw [if_pos htc] at h
      cases hm : CombineTurnChannelManeuver C P prev_man curr_man next_man done.isEmpty with
      | error err => rw [hm] at h; cases h
      | ok merged =>
        rw [hm] at h
        exact CombineScan_flag h
  · intro ms ms' hp
    rw [Combine_unfold C P hp]
    rfl
  · intro ms ms' hp
    rw [Combine_unfold C P hp]
    rfl
  · intro done prev_man curr_man next_man rest combined hi htc hs
    rw [CombineScan]
    dsimp only
    rw [if_neg (by simp [hi]), if_neg (by simp [htc]), if_pos hs]

/-- C7 (amended), on the straight path: `Build` returns a list on which a
further pass changes nothing and leaves the flag unset. -/
theorem Combine_stops_at_fixpoint_witness :
    reduction_adds_nothing sampleCollaborators
    ∧ ∃ out, Build sampleCollaborators straightPath = Except.ok out ∧ out.length = 2
        ∧ CombinePass sampleCollaborators straightPath out = Except.ok (out, false) :=
  ⟨sample_reduction_adds_nothing, _, rfl, rfl,
    (((Combine_stops_at_fixpoint sampleCollaborators straightPath).2.2.2.2
      straightAbsorbed _ rfl).2.2 sample_reduction_adds_nothing).2⟩

/-- C7 (counterexample): on the straight path the first pass of `Combine`
leaves three maneuvers (Start and Continue on Main St, Destination); the next
pass merges Continue into Start by the same-name-straight rule, leaves two
maneuvers and the flag unset, and `Combine` stops with that list: it stopped
after a pass that performed a merge.  So a pass that removes a maneuver need
not set the flag. -/
theorem Combine_stops_after_merge :
    (Produce sampleCollaborators straightPath).bind
        (CombinePass sampleCollaborators straightPath)
      = Except.ok (straightAbsorbed, true)
    ∧ straightAbsorbed.length = 3
    ∧ (∃ out, CombinePass sampleCollaborators straightPath straightAbsorbed
          = Except.ok (out, false)
        ∧ out.length = 2
        ∧ Combine sampleCollaborators straightPath straightAbsorbed = Except.ok out)
    ∧ ¬ (∀ (C : Collaborators) (P : TripPath) (ms ms' : List Maneuver) (flag : Bool),
          CombinePass C P ms = Except.ok (ms', flag) → ms'.length < ms.length → flag = true) :=
  ⟨rfl, rfl, ⟨_, rfl, rfl, rfl⟩, fun h =>
    Bool.false_ne_true
      (h sampleCollaborators straightPath straightAbsorbed _ false rfl (by decide))⟩

theorem SetSimpleDirectionalManeuverType_side_eq (C : Collaborators) (P : TripPath)
    (m : Maneuver) :
    SetSimpleDirectionalManeuverType C P m
      = SetSimpleDirectionalManeuverType_side IsRightSideOfStreetDriving C P m := rfl

theorem SetSimpleDirectionalManeuverType_side_simple (s : Bool) (C : Collaborators)
    (P : TripPath) (m : Maneuver) :
    (SetSimpleDirectionalManeuverType_side s C P m).type.simple_directional = true := by
  unfold SetSimpleDirectionalManeuverType_side
  cases C.GetType m.turn_degree <;> dsimp only
  · cases P.GetCurrEdge m.begin_node_index <;> dsimp only
    · rfl
    · split_ifs <;> rfl
  all_goals first | rfl | (split_ifs <;> rfl)

theorem SetManeuverType_ramp {C : Collaborators} {P : TripPath} {m : Maneuver} {pe : Edge}
    (hty : m.type = ManeuverType.kNone) (hi : m.internal_intersection = false)
    (htc : m.turn_channel = false) (hr : m.ramp = true)
    (hp : P.GetPrevEdge m.begin_node_index 1 = some pe) :
    SetManeuverType C P m = Except.ok { m with type := (
      if pe.IsHighway || m.HasExitNumberSign then exit_type m.begin_relative_direction
      else ramp_type m.begin_relative_direction) } := by
  rcases hh : pe.IsHighway with _ | _ <;> rcases hs : m.HasExitNumberSign with _ | _ <;>
    simp only [SetManeuverType, hty, hi, htc, hr, hp, hh, hs, deref, Except.bind, bind, pure,
      Except.pure, ne_eq, not_true_eq_false, if_false, if_true, Bool.or_false, Bool.or_true,
      Bool.false_eq_true, Bool.not_false, Bool.not_true, Bool.or_self]

theorem SetManeuverType_not_ramp {C : Collaborators} {P : TripPath} {m : Maneuver}
    {pe ce : Edge}
    (hty : m.type = ManeuverType.kNone) (hi : m.internal_intersection = false)
    (htc : m.turn_channel = false) (hr : m.ramp = false)
    (hp : P.GetPrevEdge m.begin_node_index 1 = some pe)
    (hc : P.GetCurrEdge m.begin_node_index = some ce) :
    SetManeuverType C P m = Except.ok { m with type := (
      if ce.IsHighway && pe.ramp then ManeuverType.kMerge
      else if m.roundabout then ManeuverType.kRoundaboutEnter
      else if pe.roundabout then ManeuverType.kRoundaboutExit
      else if m.ferry || m.rail_ferry then ManeuverType.kFerryEnter
      else if pe.ferry || pe.rail_ferry then ManeuverType.kFerryExit
      else (SetSimpleDirectionalManeuverType C P m).type) } := by
  obtain ⟨t, ht⟩ := SetSimpleDirectionalManeuverType_frame C P m
  rw [ht]
  rcases h1 : ce.IsHighway with _ | _ <;> rcases h2 : pe.ramp with _ | _ <;>
  rcases h3 : m.roundabout with _ | _ <;> rcases h4 : pe.roundabout with _ | _ <;>
  rcases h5 : m.ferry with _ | _ <;> rcases h6 : m.rail_ferry with _ | _ <;>
  rcases h7 : pe.ferry with _ | _ <;> rcases h8 : pe.rail_ferry with _ | _ <;>
    simp only [SetManeuverType, hty, hi, htc, hr, hp, hc, h1, h2, h3, h4, h5, h6, h7, h8, ht,
      deref, Except.bind, bind, pure,
      Except.pure, ne_eq, not_true_eq_false, if_false, if_true, Bool.or_false, Bool.or_true,
      Bool.false_eq_true, Bool.not_false, Bool.not_true, Bool.or_self, Bool.and_false,
      Bool.and_true, Bool.and_self]

/-- C11: reclassification is a no-op on a classified maneuver.  For every
maneuver whose type is not none and every path, `SetManeuverType` returns the
maneuver itself: its type and every other field are unchanged. -/
theorem SetManeuverType_classified_unchanged (C : Collaborators) (P : TripPath)
    (m : Maneuver) (h : m.type ≠ ManeuverType.kNone) :
    SetManeuverType C P m = Except.ok m :=
  SetManeuverType_typed C P h

/-- C11 (witness): a Start maneuver at node 0 of a path whose first edge is an
internal intersection, where there is no previous edge to read. -/
theorem SetManeuverType_classified_unchanged_witness :
    ({ type := ManeuverType.kStart, internal_intersection := true } : Maneuver).type
        ≠ ManeuverType.kNone
    ∧ SetManeuverType sampleCollaborators internalFirstPath
          { type := ManeuverType.kStart, internal_intersection := true }
        = Except.ok { type := ManeuverType.kStart, internal_intersection := true } :=
  ⟨by decide, SetManeuverType_classified_unchanged _ _ _ (by decide)⟩

/-- C12: for every maneuver whose type is none and whose begin node has both
a previous and a current edge, `SetManeuverType` returns the maneuver with one
type `t` assigned and nothing else changed; `t` is none if and only if the
maneuver is an internal-intersection or turn-channel maneuver, so every other
maneuver receives a type different from none.  The simple-directional
fallback assigns one of its nine types whatever the turn type is. -/
theorem SetManeuverType_none_iff (C : Collaborators) (P : TripPath) (m : Maneuver)
    (pe ce : Edge) (hty : m.type = ManeuverType.kNone)
    (hp : P.GetPrevEdge m.begin_node_index 1 = some pe)
    (hc : P.GetCurrEdge m.begin_node_index = some ce) :
    (∃ t, SetManeuverType C P m = Except.ok { m with type := t }
      ∧ (t = ManeuverType.kNone
          ↔ (m.internal_intersection = true ∨ m.turn_channel = true)))
    ∧ (SetSimpleDirectionalManeuverType C P m).type.simple_directional = true
    ∧ (SetSimpleDirectionalManeuverType C P m).type ≠ ManeuverType.kNone := by
  have hs := SetSimpleDirectionalManeuverType_side_simple IsRightSideOfStreetDriving C P m
  rw [← SetSimpleDirectionalManeuverType_side_eq] at hs
  have hs' : (SetSimpleDirectionalManeuverType C P m).type ≠ ManeuverType.kNone := by
    intro h; rw [h] at hs; exact Bool.false_ne_true hs
  refine ⟨?_, hs, hs'⟩
  rcases Bool.eq_false_or_eq_true m.internal_intersection with hi | hi
  · refine ⟨ManeuverType.kNone, ?_, by simp [hi]⟩
    simp only [SetManeuverType, hty, hi, ne_eq, not_true_eq_false, if_false, if_true,
      pure, Except.pure]
  rcases Bool.eq_false_or_eq_true m.turn_channel with htc | htc
  · refine ⟨ManeuverType.kNone, ?_, by simp [htc]⟩
    simp only [SetManeuverType, hty, hi, htc, ne_eq, not_true_eq_false, if_false, if_true,
      Bool.false_eq_true, pure, Except.pure]
  rcases Bool.eq_false_or_eq_true m.ramp with hr | hr
  · refine ⟨_, SetManeuverType_ramp hty hi htc hr hp, ?_⟩
    simp only [hi, htc, Bool.false_eq_true, or_self, iff_false]
    split_ifs <;> cases m.begin_relative_direction <;> decide
  · refine ⟨_, SetManeuverType_not_ramp hty hi htc hr hp hc, ?_⟩
    simp only [hi, htc, Bool.false_eq_true, or_self, iff_false]
    split_ifs <;> first | exact hs' | decide

/-- C12 (witness): the maneuver beginning at node 1 of the ramp-to-highway
path. -/
theorem SetManeuverType_none_iff_witness :
    (∃ t, SetManeuverType sampleCollaborators rampHighwayPath { begin_node_index := 1 }
        = Except.ok { begin_node_index := 1, type := t }
      ∧ (t = ManeuverType.kNone ↔ (false = true ∨ false = true)))
    ∧ (SetSimpleDirectionalManeuverType sampleCollaborators rampHighwayPath
        { begin_node_index := 1 }).type.simple_directional = true
    ∧ (SetSimpleDirectionalManeuverType sampleCollaborators rampHighwayPath
        { begin_node_index := 1 }).type ≠ ManeuverType.kNone :=
  SetManeuverType_none_iff sampleCollaborators rampHighwayPath { begin_node_index := 1 }
    _ _ rfl rfl rfl

/-- The exit rule where the previous edge exists: for every none-typed maneuver
that is neither internal-intersection nor turn-channel, is a ramp, and whose
begin node has a previous edge `pe` that is a highway, or which carries an
exit-number sign, `SetManeuverType` returns the maneuver with only
the type changed: ExitRight when the begin relative direction is KeepRight or
Right, ExitLeft when it is KeepLeft or Left, ExitRight for KeepStraight,
Reverse and None. -/
theorem SetManeuverType_exit (C : Collaborators) (P : TripPath) (m : Maneuver) (pe : Edge)
    (hty : m.type = ManeuverType.kNone) (hi : m.internal_intersection = false)
    (htc : m.turn_channel = false) (hr : m.ramp = true)
    (hp : P.GetPrevEdge m.begin_node_index 1 = some pe)
    (hx : pe.IsHighway = true ∨ m.HasExitNumberSign = true) :
    ∃ t, SetManeuverType C P m = Except.ok { m with type := t }
      ∧ (m.begin_relative_direction = RelativeDirection.kKeepRight
          ∨ m.begin_relative_direction = RelativeDirection.kRight
          → t = ManeuverType.kExitRight)
      ∧ (m.begin_relative_direction = RelativeDirection.kKeepLeft
          ∨ m.begin_relative_direction = RelativeDirection.kLeft
          → t = ManeuverType.kExitLeft)
      ∧ (m.begin_relative_direction = RelativeDirection.kKeepStraight
          ∨ m.begin_relative_direction = RelativeDirection.KReverse
          ∨ m.begin_relative_direction = RelativeDirection.kNone
          → t = ManeuverType.kExitRight) := by
  refine ⟨_, SetManeuverType_ramp hty hi htc hr hp, ?_⟩
  have hx' : (pe.IsHighway || m.HasExitNumberSign) = true := by
    rcases hx with h | h <;> simp [h]
  rw [if_pos hx']
  cases m.begin_relative_direction <;> simp [exit_type]

/-- The exit rule on a ramp maneuver leaving the highway at node 1 of the
highway-to-ramp path, keeping left. -/
theorem SetManeuverType_exit_witness :
    ∃ t, SetManeuverType sampleCollaborators highwayRampPath
rampKeepLeft
        = Except.ok { rampKeepLeft with type := t }
      ∧ t = ManeuverType.kExitLeft :=
  let ⟨t, h, _, h2, _⟩ := SetManeuverType_exit sampleCollaborators highwayRampPath
    rampKeepLeft
    _ rfl rfl rfl rfl rfl (Or.inl rfl)
  ⟨t, h, h2 (Or.inl rfl)⟩

/-- The ramp rules where the previous edge exists: for every none-typed ramp
maneuver that is neither internal-intersection nor turn-channel and whose
begin node has the previous edge `pe`, `SetManeuverType` returns the maneuver with only the type changed,
and the type is one of ExitRight, ExitLeft, RampRight, RampLeft, RampStraight
(so never Merge, a roundabout, a ferry or a simple directional type).  When
`pe` is not a highway and the maneuver carries no exit-number sign the type is
RampRight for KeepRight and Right, RampLeft for KeepLeft and Left,
RampStraight for KeepStraight and RampRight for Reverse and None. -/
theorem SetManeuverType_on_ramp (C : Collaborators) (P : TripPath) (m : Maneuver) (pe : Edge)
    (hty : m.type = ManeuverType.kNone) (hi : m.internal_intersection = false)
    (htc : m.turn_channel = false) (hr : m.ramp = true)
    (hp : P.GetPrevEdge m.begin_node_index 1 = some pe) :
    ∃ t, SetManeuverType C P m = Except.ok { m with type := t }
      ∧ (t = ManeuverType.kExitRight ∨ t = ManeuverType.kExitLeft
          ∨ t = ManeuverType.kRampRight ∨ t = ManeuverType.kRampLeft
          ∨ t = ManeuverType.kRampStraight)
      ∧ t ≠ ManeuverType.kMerge ∧ t ≠ ManeuverType.kRoundaboutEnter
      ∧ t ≠ ManeuverType.kRoundaboutExit ∧ t ≠ ManeuverType.kFerryEnter
      ∧ t ≠ ManeuverType.kFerryExit ∧ t.simple_directional = false
      ∧ (pe.IsHighway = false → m.HasExitNumberSign = false →
          (m.begin_relative_direction = RelativeDirection.kKeepRight
              ∨ m.begin_relative_direction = RelativeDirection.kRight
              → t = ManeuverType.kRampRight)
          ∧ (m.begin_relative_direction = RelativeDirection.kKeepLeft
              ∨ m.begin_relative_direction = RelativeDirection.kLeft
              → t = ManeuverType.kRampLeft)
          ∧ (m.begin_relative_direction = RelativeDirection.kKeepStraight
              → t = ManeuverType.kRampStraight)
          ∧ (m.begin_relative_direction = RelativeDirection.KReverse
              ∨ m.begin_relative_direction = RelativeDirection.kNone
              → t = ManeuverType.kRampRight)) := by
  refine ⟨_, SetManeuverType_ramp hty hi htc hr hp, ?_⟩
  rcases Bool.eq_false_or_eq_true (pe.IsHighway || m.HasExitNumberSign) with hx | hx
  · rw [if_pos hx]
    have hne : ¬ (pe.IsHighway = false ∧ m.HasExitNumberSign = false) := by
      rintro ⟨h1, h2⟩; rw [h1, h2] at hx; exact Bool.false_ne_true hx
    refine ⟨?_, ?_, ?_, ?_, ?_, ?_, ?_, fun h1 h2 => absurd ⟨h1, h2⟩ hne⟩ <;>
      cases m.begin_relative_direction <;> simp [exit_type, ManeuverType.simple_directional]
  · rw [if_neg (by rw [hx]; exact Bool.false_ne_true)]
    refine ⟨?_, ?_, ?_, ?_, ?_, ?_, ?_, fun _ _ => ?_⟩ <;>
      cases m.begin_relative_direction <;> simp [ramp_type, ManeuverType.simple_directional]

/-- The ramp rules on a ramp maneuver entered from a ramp edge at node 1 of the
ramp-to-highway path, going straight. -/
theorem SetManeuverType_on_ramp_witness :
    ∃ t, SetManeuverType sampleCollaborators rampHighwayPath
rampKeepStraight
        = Except.ok { rampKeepStraight with type := t }
      ∧ t = ManeuverType.kRampStraight :=
  let ⟨t, h, _, _, _, _, _, _, _, h2⟩ := SetManeuverType_on_ramp sampleCollaborators
    rampHighwayPath
    rampKeepStraight
    _ rfl rfl rfl rfl rfl
  ⟨t, h, (h2 rfl rfl).2.2.1 rfl⟩

/-- The rule order where both edges exist: for every none-typed maneuver that
is not internal-intersection, not turn-channel and not a ramp, and whose begin
node has the previous edge `pe` and the current edge `ce`, `SetManeuverType` returns the maneuver with only
the type changed, and the type is that of the first matching rule in this
order: Merge if `ce` is a highway and `pe` is a ramp; RoundaboutEnter if the
maneuver is a roundabout; RoundaboutExit if `pe` is a roundabout; FerryEnter
if the maneuver is a ferry or rail ferry; FerryExit if `pe` is a ferry or
rail ferry; otherwise the type `SetSimpleDirectionalManeuverType` assigns. -/
theorem SetManeuverType_rule_order (C : Collaborators) (P : TripPath) (m : Maneuver)
    (pe ce : Edge)
    (hty : m.type = ManeuverType.kNone) (hi : m.internal_intersection = false)
    (htc : m.turn_channel = false) (hr : m.ramp = false)
    (hp : P.GetPrevEdge m.begin_node_index 1 = some pe)
    (hc : P.GetCurrEdge m.begin_node_index = some ce) :
    SetManeuverType C P m = Except.ok { m with type := (
      if ce.IsHighway = true ∧ pe.ramp = true then ManeuverType.kMerge
      else if m.roundabout = true then ManeuverType.kRoundaboutEnter
      else if pe.roundabout = true then ManeuverType.kRoundaboutExit
      else if m.ferry = true ∨ m.rail_ferry = true then ManeuverType.kFerryEnter
      else if pe.ferry = true ∨ pe.rail_ferry = true then ManeuverType.kFerryExit
      else (SetSimpleDirectionalManeuverType C P m).type) } := by
  rw [SetManeuverType_not_ramp hty hi htc hr hp hc]
  simp only [Bool.and_eq_true, Bool.or_eq_true]

/-- The rule order on two samples: a roundabout maneuver entered from a ramp
onto a highway edge is Merge, and a ferry maneuver entered from a roundabout
edge is RoundaboutExit. -/
theorem SetManeuverType_rule_order_witness :
    SetManeuverType sampleCollaborators rampHighwayPath roundaboutManeuver
        = Except.ok { roundaboutManeuver with type := ManeuverType.kMerge }
    ∧ SetManeuverType sampleCollaborators roundaboutFerryPath ferryManeuver
        = Except.ok { ferryManeuver with type := ManeuverType.kRoundaboutExit } :=
  ⟨SetManeuverType_rule_order sampleCollaborators rampHighwayPath roundaboutManeuver _ _
      rfl rfl rfl rfl rfl rfl,
    SetManeuverType_rule_order sampleCollaborators roundaboutFerryPath ferryManeuver _ _
      rfl rfl rfl rfl rfl rfl⟩

/-- C16: in the simple directional classification of a maneuver whose turn
degree falls in the Reverse turn type, unequal internal turn counts decide the
side, whatever the turn degree and the driving side are: more left than right
internal turns gives UturnLeft, more right than left gives UturnRight.  The
same holds of `SetSimpleDirectionalManeuverType` itself, which is the
classification at the driving side the source reports. -/
theorem SetSimpleDirectionalManeuverType_uturn_counts (side : Bool) (C : Collaborators)
    (P : TripPath) (m : Maneuver) (hrev : C.GetType m.turn_degree = TurnType.kReverse) :
    (m.internal_left_turn_count > m.internal_right_turn_count →
        SetSimpleDirectionalManeuverType_side side C P m
            = { m with type := ManeuverType.kUturnLeft }
        ∧ SetSimpleDirectionalManeuverType C P m
            = { m with type := ManeuverType.kUturnLeft })
    ∧ (m.internal_right_turn_count > m.internal_left_turn_count →
        SetSimpleDirectionalManeuverType_side side C P m
            = { m with type := ManeuverType.kUturnRight }
        ∧ SetSimpleDirectionalManeuverType C P m
            = { m with type := ManeuverType.kUturnRight }) := by
  constructor
  · intro h
    simp only [SetSimpleDirectionalManeuverType, SetSimpleDirectionalManeuverType_side, hrev,
      if_pos h, and_self]
  · intro h
    have h' : ¬ m.internal_left_turn_count > m.internal_right_turn_count := by omega
    simp only [SetSimpleDirectionalManeuverType, SetSimpleDirectionalManeuverType_side, hrev,
      if_pos h, if_neg h', and_self]

/-- C16 (witness): the example of the claim, left 2 and right 0 at a turn
degree of 175, which equal counts would classify UturnRight. -/
theorem SetSimpleDirectionalManeuverType_uturn_counts_witness :
    sampleCollaborators.GetType uturnTwoLeft.turn_degree = TurnType.kReverse
    ∧ uturnTwoLeft.internal_left_turn_count > uturnTwoLeft.internal_right_turn_count
    ∧ SetSimpleDirectionalManeuverType_side false sampleCollaborators crossingPath uturnTwoLeft
        = { uturnTwoLeft with type := ManeuverType.kUturnLeft }
    ∧ SetSimpleDirectionalManeuverType sampleCollaborators crossingPath uturnTwoLeft
        = { uturnTwoLeft with type := ManeuverType.kUturnLeft } :=
  ⟨rfl, by decide,
    (SetSimpleDirectionalManeuverType_uturn_counts false sampleCollaborators crossingPath
      uturnTwoLeft rfl).1 (by decide)⟩

/-- C17: in the simple directional classification of a Reverse turn with
equal internal left and right turn counts the driving side decides.  Under
right-side driving a turn degree below 180 gives UturnRight and one of 180 or
more gives UturnLeft; under left-side driving a turn degree above 180 gives
UturnLeft and one of 180 or less gives UturnRight.  The source's
`IsRightSideOfStreetDriving` reports right-side driving, so
`SetSimpleDirectionalManeuverType` follows the right-side rule. -/
theorem SetSimpleDirectionalManeuverType_uturn_side (C : Collaborators) (P : TripPath)
    (m : Maneuver) (hrev : C.GetType m.turn_degree = TurnType.kReverse)
    (heq : m.internal_left_turn_count = m.internal_right_turn_count) :
    (m.turn_degree < 180 →
        SetSimpleDirectionalManeuverType_side true C P m
          = { m with type := ManeuverType.kUturnRight })
    ∧ (m.turn_degree ≥ 180 →
        SetSimpleDirectionalManeuverType_side true C P m
          = { m with type := ManeuverType.kUturnLeft })
    ∧ (m.turn_degree > 180 →
        SetSimpleDirectionalManeuverType_side false C P m
          = { m with type := ManeuverType.kUturnLeft })
    ∧ (m.turn_degree ≤ 180 →
        SetSimpleDirectionalManeuverType_side false C P m
          = { m with type := ManeuverType.kUturnRight })
    ∧ IsRightSideOfStreetDriving = true
    ∧ SetSimpleDirectionalManeuverType C P m
        = SetSimpleDirectionalManeuverType_side true C P m := by
  have h1 : ¬ m.internal_left_turn_count > m.internal_right_turn_count := by omega
  have h2 : ¬ m.internal_right_turn_count > m.internal_left_turn_count := by omega
  refine ⟨fun h => ?_, fun h => ?_, fun h => ?_, fun h => ?_, rfl, rfl⟩
  · simp only [SetSimpleDirectionalManeuverType_side, hrev, if_neg h1, if_neg h2, if_pos h,
      if_true]
  · have h' : ¬ m.turn_degree < 180 := by omega
    simp only [SetSimpleDirectionalManeuverType_side, hrev, if_neg h1, if_neg h2, if_neg h',
      if_true]
  · simp only [SetSimpleDirectionalManeuverType_side, hrev, if_neg h1, if_neg h2, if_pos h,
      Bool.false_eq_true, if_false]
  · have h' : ¬ m.turn_degree > 180 := by omega
    simp only [SetSimpleDirectionalManeuverType_side, hrev, if_neg h1, if_neg h2, if_neg h',
      Bool.false_eq_true, if_false]

/-- C17 (witness): a turn of 175 degrees with no internal turn is UturnRight
under either driving side, and is what `SetSimpleDirectionalManeuverType`
assigns. -/
theorem SetSimpleDirectionalManeuverType_uturn_side_witness :
    sampleCollaborators.GetType uturnNoInternal.turn_degree = TurnType.kReverse
    ∧ SetSimpleDirectionalManeuverType_side true sampleCollaborators crossingPath
        uturnNoInternal = { uturnNoInternal with type := ManeuverType.kUturnRight }
    ∧ SetSimpleDirectionalManeuverType_side false sampleCollaborators crossingPath
        uturnNoInternal = { uturnNoInternal with type := ManeuverType.kUturnRight }
    ∧ SetSimpleDirectionalManeuverType sampleCollaborators crossingPath uturnNoInternal
        = { uturnNoInternal with type := ManeuverType.kUturnRight } :=
  have h := SetSimpleDirectionalManeuverType_uturn_side sampleCollaborators crossingPath
    uturnNoInternal rfl rfl
  ⟨rfl, h.1 (by decide), h.2.2.2.1 (by decide), rfl⟩

/-- A guarded setter `if (b) set_f(true)` leaves the flag `a || b`. -/
theorem or_of_guarded_set (a b : Bool) : (if b = true then true else a) = (a || b) := by
  cases a <;> cases b <;> rfl

/-- C25: `CombineSameNameStraightManeuver` folds `next_man` into `curr_man`
additively and monotonically.  The distance and the time of the result are the
sums of both maneuvers' values; each of the flags ramp, ferry, rail_ferry,
roundabout, portions_toll, portions_unpaved, portions_highway is the old flag
of `curr_man` or the flag of `next_man`, so a flag that was true stays true;
the begin boundary, the turn degree, the relative direction and the type are
those of `curr_man`.  In the scan of `Combine` the merged maneuver takes the
place of `curr_man` and `next_man` is removed from the list. -/
theorem CombineSameNameStraightManeuver_folds (curr_man next_man : Maneuver) :
    (CombineSameNameStraightManeuver curr_man next_man).distance
        = curr_man.distance + next_man.distance
    ∧ (CombineSameNameStraightManeuver curr_man next_man).time
        = curr_man.time + next_man.time
    ∧ (CombineSameNameStraightManeuver curr_man next_man).ramp
        = (curr_man.ramp || next_man.ramp)
    ∧ (CombineSameNameStraightManeuver curr_man next_man).ferry
        = (curr_man.ferry || next_man.ferry)
    ∧ (CombineSameNameStraightManeuver curr_man next_man).rail_ferry
        = (curr_man.rail_ferry || next_man.rail_ferry)
    ∧ (CombineSameNameStraightManeuver curr_man next_man).roundabout
        = (curr_man.roundabout || next_man.roundabout)
    ∧ (CombineSameNameStraightManeuver curr_man next_man).portions_toll
        = (curr_man.portions_toll || next_man.portions_toll)
    ∧ (CombineSameNameStraightManeuver curr_man next_man).portions_unpaved
        = (curr_man.portions_unpaved || next_man.portions_unpaved)
    ∧ (CombineSameNameStraightManeuver curr_man next_man).portions_highway
        = (curr_man.portions_highway || next_man.portions_highway)
    ∧ (CombineSameNameStraightManeuver curr_man next_man).begin_node_index
        = curr_man.begin_node_index
    ∧ (CombineSameNameStraightManeuver curr_man next_man).begin_shape_index
        = curr_man.begin_shape_index
    ∧ (CombineSameNameStraightManeuver curr_man next_man).begin_heading
        = curr_man.begin_heading
    ∧ (CombineSameNameStraightManeuver curr_man next_man).begin_cardinal_direction
        = curr_man.begin_cardinal_direction
    ∧ (CombineSameNameStraightManeuver curr_man next_man).turn_degree = curr_man.turn_degree
    ∧ (CombineSameNameStraightManeuver curr_man next_man).begin_relative_direction
        = curr_man.begin_relative_direction
    ∧ (CombineSameNameStraightManeuver curr_man next_man).type = curr_man.type
    ∧ (∀ (C : Collaborators) (P : TripPath) (done rest : List Maneuver)
          (prev_man : Maneuver) (combined : Bool),
        curr_man.internal_intersection = false → curr_man.turn_channel = false →
        same_name_straight P curr_man next_man
            (C.FindCommonBaseNames curr_man.street_names next_man.street_names) = true →
        CombineScan C P done prev_man curr_man (next_man :: rest) combined
          = CombineScan C P done prev_man
              (CombineSameNameStraightManeuver
                { curr_man with street_names :=
                    C.FindCommonBaseNames curr_man.street_names next_man.street_names }
                next_man)
              rest combined) := by
  refine ⟨rfl, rfl, ?_, ?_, ?_, ?_, ?_, ?_, ?_, rfl, rfl, rfl, rfl, rfl, rfl, rfl, ?_⟩
  iterate 7 exact or_of_guarded_set _ _
  intro C P done rest prev_man combined hi htc hs
  rw [CombineScan]
  simp only [hi, htc, hs, Bool.false_eq_true, if_false, if_true]

/-- C24: the same-name-straight merge takes the end node index and the end
shape index of the merged maneuver from `next_man`, but not its end heading:
the end heading becomes `next_man`'s end node index.  On the two sample
maneuvers on Main St the merged end heading is 3, the end node index of the
second, where the second maneuver ends with heading 270. -/
theorem CombineSameNameStraightManeuver_end_boundary :
    (∀ curr_man next_man : Maneuver,
        (CombineSameNameStraightManeuver curr_man next_man).end_heading
            = next_man.end_node_index
        ∧ (CombineSameNameStraightManeuver curr_man next_man).end_node_index
            = next_man.end_node_index
        ∧ (CombineSameNameStraightManeuver curr_man next_man).end_shape_index
            = next_man.end_shape_index)
    ∧ (CombineSameNameStraightManeuver mainStFirst mainStSecond).end_heading = 3
    ∧ mainStSecond.end_heading = 270
    ∧ CombineScan sampleCollaborators straightPath [] mainStFirst mainStFirst [mainStSecond]
          false
        = Except.ok ([CombineSameNameStraightManeuver mainStFirst mainStSecond], false) :=
  ⟨fun _ _ => ⟨rfl, rfl, rfl⟩, rfl, rfl, rfl⟩

/-- An absorption of the first maneuver of the list does not read `prev_man`. -/
theorem Combine_start_man (C : Collaborators) (P : TripPath)
    (prev_man other curr_man next_man : Maneuver) :
    CombineInternalManeuver C P prev_man curr_man next_man true
        = CombineInternalManeuver C P other curr_man next_man true
    ∧ CombineTurnChannelManeuver C P prev_man curr_man next_man true
        = CombineTurnChannelManeuver C P other curr_man next_man true :=
  ⟨rfl, rfl⟩

/-- The inner loop of `Combine` agrees with the loop as the spec words it
whenever `prev_man` is the maneuver immediately before `curr_man`, if there is
one. -/
theorem CombineScan_eq_immediate (C : Collaborators) (P : TripPath) (rest : List Maneuver) :
    ∀ (done : List Maneuver) (prev_man curr_man : Maneuver) (combined : Bool),
      (∀ p, done.head? = some p → p = prev_man) →
      CombineScan C P done prev_man curr_man rest combined
        = CombineScan_immediate C P done curr_man rest combined := by
  induction rest with
  | nil => intro done prev_man curr_man combined _; rfl
  | cons next_man rest ih =>
      intro done prev_man curr_man combined hinv
      rw [CombineScan, CombineScan_immediate]
      dsimp only
      have hI : CombineInternalManeuver C P prev_man curr_man next_man done.isEmpty
          = CombineInternalManeuver C P (done.head?.getD curr_man) curr_man next_man
              done.isEmpty := by
        cases done with
        | nil => rfl
        | cons p tl => rw [hinv p rfl]; rfl
      have hT : CombineTurnChannelManeuver C P prev_man curr_man next_man done.isEmpty
          = CombineTurnChannelManeuver C P (done.head?.getD curr_man) curr_man next_man
              done.isEmpty := by
        cases done with
        | nil => rfl
        | cons p tl => rw [hinv p rfl]; rfl
      rw [hI, hT]
      refine ite_congr rfl (fun _ => ?_) (fun _ => ite_congr rfl (fun _ => ?_)
        (fun _ => ite_congr rfl (fun _ => ?_) (fun _ => ?_)))
      · cases CombineInternalManeuver C P (done.head?.getD curr_man) curr_man next_man
            done.isEmpty with
        | error e => rfl
        | ok merged => exact ih done prev_man merged true hinv
      · cases CombineTurnChannelManeuver C P (done.head?.getD curr_man) curr_man next_man
            done.isEmpty with
        | error e => rfl
        | ok merged => exact ih done prev_man merged true hinv
      · exact ih done prev_man _ combined hinv
      · exact ih (curr_man :: done) curr_man next_man combined
          (fun p hp => by simpa using hp.symm)

/-- C26: in an internal-intersection absorption the turn degree of the next
maneuver is recomputed from `curr_man`'s end heading to `next_man`'s begin
heading when `curr_man` is the first maneuver of the list, and otherwise from
the end heading of `prev_man`; and `prev_man` is always the maneuver
immediately before `curr_man`: every pass of `Combine` equals the pass in
which each absorption reads the maneuver immediately before `curr_man` in the
list, also after earlier merges in the pass.  On the sample list the second
absorption, made after the first, computes the turn degree from heading 10 of
the first maneuver to heading 100, which is 90. -/
theorem Combine_turn_degree_from_predecessor (C : Collaborators) (P : TripPath) :
    (∀ (prev_man curr_man next_man merged : Maneuver) (start_man : Bool),
        CombineInternalManeuver C P prev_man curr_man next_man start_man = Except.ok merged →
        merged.turn_degree
          = if start_man then C.GetTurnDegree curr_man.end_heading next_man.begin_heading
            else C.GetTurnDegree prev_man.end_heading next_man.begin_heading)
    ∧ (∀ maneuvers : List Maneuver,
        CombinePass C P maneuvers = CombinePass_immediate C P maneuvers)
    ∧ (∀ (done rest : List Maneuver) (curr_man next_man : Maneuver) (combined : Bool),
        curr_man.internal_intersection = true →
        CombineScan_immediate C P done curr_man (next_man :: rest) combined
          = (CombineInternalManeuver C P (done.head?.getD curr_man) curr_man next_man
              done.isEmpty).bind
              (fun merged => CombineScan_immediate C P done merged rest true))
    ∧ (∃ first merged, CombinePass sampleCollaborators crossingPath twoInternals
          = Except.ok ([first, merged], true)
        ∧ first.end_heading = 10 ∧ merged.begin_heading = 100 ∧ merged.turn_degree = 90) := by
  refine ⟨?_, ?_, ?_, ⟨_, _, rfl, rfl, rfl, rfl⟩⟩
  · intro prev_man curr_man next_man merged start_man h
    unfold CombineInternalManeuver at h
    dsimp only at h
    obtain ⟨t, ht⟩ := SetManeuverType_frame h
    rw [ht]
    rfl
  · intro maneuvers
    cases maneuvers with
    | nil => rfl
    | cons first rest =>
        exact CombineScan_eq_immediate C P rest [] first first false
          (fun p hp => by cases hp)
  · intro done rest curr_man next_man combined hi
    rw [CombineScan_immediate]
    simp only [hi, if_true]
    rfl

/-- C27: `CombineInternalManeuver` overwrites the internal turn tallies of the
next maneuver with those of `curr_man`, whatever they were before; the
distance and the time become the sums, the begin node index and the begin
shape index become those of `curr_man`.  The call returns whenever the begin
node of `curr_man` has a previous and a current edge.  On the sample pair the
next maneuver had one right turn counted and `curr_man` two left turns: the
result has no right turn and two left turns. -/
theorem CombineInternalManeuver_overwrites_tallies (C : Collaborators) (P : TripPath)
    (prev_man curr_man next_man : Maneuver) (start_man : Bool) :
    (∀ merged,
        CombineInternalManeuver C P prev_man curr_man next_man start_man = Except.ok merged →
        merged.internal_left_turn_count = curr_man.internal_left_turn_count
        ∧ merged.internal_right_turn_count = curr_man.internal_right_turn_count
        ∧ merged.distance = next_man.distance + curr_man.distance
        ∧ merged.time = next_man.time + curr_man.time
        ∧ merged.begin_node_index = curr_man.begin_node_index
        ∧ merged.begin_shape_index = curr_man.begin_shape_index)
    ∧ (∀ pe ce, P.GetPrevEdge curr_man.begin_node_index 1 = some pe →
        P.GetCurrEdge curr_man.begin_node_index = some ce →
        ∃ merged, CombineInternalManeuver C P prev_man curr_man next_man start_man
          = Except.ok merged)
    ∧ (∃ merged, CombineInternalManeuver sampleCollaborators crossingPath mainStFirst
            absorbedManeuver oakAveManeuver false = Except.ok merged
        ∧ oakAveManeuver.internal_right_turn_count = 1
        ∧ merged.internal_right_turn_count = 0 ∧ merged.internal_left_turn_count = 2) := by
  refine ⟨?_, ?_, ⟨_, rfl, rfl, rfl, rfl⟩⟩
  · intro merged h
    unfold CombineInternalManeuver at h
    dsimp only at h
    obtain ⟨t, ht⟩ := SetManeuverType_frame h
    rw [ht]
    exact ⟨rfl, rfl, rfl, rfl, rfl, rfl⟩
  · intro pe ce hp hc
    have key : ∀ m : Maneuver, m.begin_node_index = curr_man.begin_node_index →
        ∃ merged, SetManeuverType C P m = Except.ok merged := by
      intro m hm
      obtain ⟨t, ht⟩ := SetManeuverType_ok C (m := m) (by rw [hm]; exact hp)
        (by rw [hm]; exact hc)
      exact ⟨_, ht⟩
    exact key _ rfl

/-- C28: turn-channel absorption against internal-intersection absorption,
for the same `prev_man`, `curr_man`, `next_man` and `start_man`, where the
begin node of `curr_man` has a previous and a current edge.  Both return; the
results have the same turn degree, distance, time, begin node index and begin
shape index.  The turn-channel result is the internal-intersection result
with the relative direction of `curr_man`, the cross street names and the
internal turn counts of `next_man` as they were, and the type classified
again: the turn-channel merge does not copy the tallies of `curr_man`. -/
theorem CombineTurnChannelManeuver_mechanics (C : Collaborators) (P : TripPath)
    (prev_man curr_man next_man : Maneuver) (start_man : Bool) (pe ce : Edge)
    (hp : P.GetPrevEdge curr_man.begin_node_index 1 = some pe)
    (hc : P.GetCurrEdge curr_man.begin_node_index = some ce) :
    ∃ tc ii t,
      CombineTurnChannelManeuver C P prev_man curr_man next_man start_man = Except.ok tc
      ∧ CombineInternalManeuver C P prev_man curr_man next_man start_man = Except.ok ii
      ∧ tc.turn_degree = ii.turn_degree ∧ tc.distance = ii.distance ∧ tc.time = ii.time
      ∧ tc.begin_node_index = ii.begin_node_index
      ∧ tc.begin_shape_index = ii.begin_shape_index
      ∧ tc = { ii with
                type := t
                begin_relative_direction := curr_man.begin_relative_direction
                cross_street_names := next_man.cross_street_names
                internal_right_turn_count := next_man.internal_right_turn_count
                internal_left_turn_count := next_man.internal_left_turn_count }
      ∧ ii.internal_right_turn_count = curr_man.internal_right_turn_count
      ∧ ii.internal_left_turn_count = curr_man.internal_left_turn_count
      ∧ ii.begin_relative_direction = DetermineRelativeDirection ii.turn_degree := by
  have key : ∀ m : Maneuver, m.begin_node_index = curr_man.begin_node_index →
      ∃ t, SetManeuverType C P m = Except.ok { m with type := t } := by
    intro m hm
    exact SetManeuverType_ok C (m := m) (by rw [hm]; exact hp) (by rw [hm]; exact hc)
  obtain ⟨t1, h1⟩ := key
    { next_man with
      type := ManeuverType.kNone
      turn_degree := combined_turn_degree C prev_man curr_man next_man start_man
      begin_relative_direction := curr_man.begin_relative_direction
      distance := next_man.distance + curr_man.distance
      time := next_man.time + curr_man.time
      begin_node_index := curr_man.begin_node_index
      begin_shape_index := curr_man.begin_shape_index } rfl
  obtain ⟨t2, h2⟩ := key
    { next_man with
      type := ManeuverType.kNone
      turn_degree := combined_turn_degree C prev_man curr_man next_man start_man
      cross_street_names :=
        if C.HasUsableInternalIntersectionName curr_man then curr_man.street_names
        else next_man.cross_street_names
      internal_right_turn_count := curr_man.internal_right_turn_count
      internal_left_turn_count := curr_man.internal_left_turn_count
      begin_relative_direction :=
        DetermineRelativeDirection (combined_turn_degree C prev_man curr_man next_man start_man)
      distance := next_man.distance + curr_man.distance
      time := next_man.time + curr_man.time
      begin_node_index := curr_man.begin_node_index
      begin_shape_index := curr_man.begin_shape_index } rfl
  exact ⟨_, _, t1, h1, h2, rfl, rfl, rfl, rfl, rfl, rfl, rfl, rfl, rfl⟩

/-- C28 (witness): the sample pair on the crossing path. -/
theorem CombineTurnChannelManeuver_mechanics_witness :
    ∃ tc ii,
      CombineTurnChannelManeuver sampleCollaborators crossingPath mainStFirst absorbedManeuver
          oakAveManeuver false = Except.ok tc
      ∧ CombineInternalManeuver sampleCollaborators crossingPath mainStFirst absorbedManeuver
          oakAveManeuver false = Except.ok ii
      ∧ tc.turn_degree = ii.turn_degree ∧ tc.distance = ii.distance ∧ tc.time = ii.time :=
  let ⟨tc, ii, _, h1, h2, h3, h4, h5, _⟩ :=
    CombineTurnChannelManeuver_mechanics sampleCollaborators crossingPath mainStFirst
      absorbedManeuver oakAveManeuver false _ _ rfl rfl
  ⟨tc, ii, h1, h2, h3, h4, h5⟩

/-- C28 (counterexample): on the sample pair `curr_man` has two internal left
turns and no right turn counted, `next_man` one right turn.  The
internal-intersection absorption leaves the tallies of `curr_man` in the
result, the turn-channel absorption leaves those of `next_man`: the two
results do not have the same internal turn counts. -/
theorem CombineTurnChannelManeuver_keeps_tallies :
    ∃ tc ii,
      CombineTurnChannelManeuver sampleCollaborators crossingPath mainStFirst absorbedManeuver
          oakAveManeuver false = Except.ok tc
      ∧ CombineInternalManeuver sampleCollaborators crossingPath mainStFirst absorbedManeuver
          oakAveManeuver false = Except.ok ii
      ∧ ii.internal_left_turn_count = 2 ∧ ii.internal_right_turn_count = 0
      ∧ tc.internal_left_turn_count = 0 ∧ tc.internal_right_turn_count = 1
      ∧ tc.internal_left_turn_count ≠ ii.internal_left_turn_count
      ∧ tc.internal_right_turn_count ≠ ii.internal_right_turn_count :=
  ⟨_, _, rfl, rfl, rfl, rfl, rfl, rfl, by decide, by decide⟩

/-- The decision and the maneuver `CanManeuverIncludePrevEdge` returns where
the node has the previous edge `pe`. -/
theorem CanManeuverIncludePrevEdge_decision (C : Collaborators) {P : TripPath} {i : Nat}
    {pe : Edge} (hp : P.GetPrevEdge i 1 = some pe) (m : Maneuver) :
    ∃ names, CanManeuverIncludePrevEdge C P m i
      = Except.ok (include_decision C pe m, { m with street_names := names }) := by
  obtain ⟨upd, hupd⟩ : ∃ upd : List String → Maneuver,
      upd = fun names => { m with street_names := names } := ⟨_, rfl⟩
  obtain ⟨Q, hQ⟩ : ∃ Q : Bool → Except Err (Bool × Maneuver) → Prop, Q = fun d x =>
    ∃ names, x = Except.ok (d, upd names) := ⟨_, rfl⟩
  have hm : ∀ b, Q b (Except.ok (b, m)) := fun b => by
    rw [hQ, hupd]; exact ⟨m.street_names, rfl⟩
  have hn : ∀ b names, Q b (Except.ok (b, upd names)) := fun b names => by
    rw [hQ]; exact ⟨names, rfl⟩
  have hu : ∀ names, ({ m with street_names := names } : Maneuver) = upd names := fun names => by
    rw [hupd]
  suffices hs : Q (include_decision C pe m) (CanManeuverIncludePrevEdge C P m i) by
    rw [hQ] at hs; rw [hupd] at hs; exact hs
  clear hQ hupd
  unfold CanManeuverIncludePrevEdge
  rw [hp]
  dsimp only [deref, Except.bind, bind, pure, Except.pure]
  simp only [hu]
  unfold include_decision include_checks flag_check names_check
  rcases Bool.eq_false_or_eq_true pe.internal_intersection with a | a <;>
    rcases Bool.eq_false_or_eq_true m.internal_intersection with b | b <;>
    simp only [a, b, Bool.and_true, Bool.and_false, Bool.not_true, Bool.not_false,
      Bool.false_eq_true, if_true, if_false, bne_self_eq_false, Bool.true_bne, Bool.false_bne,
      Bool.bne_true, Bool.bne_false, List.findSome?_cons, id, Option.getD_some, Bool.true_and,
      Bool.false_and] <;>
    try exact hm _
  rcases Bool.eq_false_or_eq_true pe.turn_channel with a | a <;>
    rcases Bool.eq_false_or_eq_true m.turn_channel with b | b <;>
    simp only [a, b, Bool.and_true, Bool.and_false, Bool.not_true, Bool.not_false,
      Bool.false_eq_true, if_true, if_false, bne_self_eq_false, Bool.true_bne, Bool.false_bne,
      Bool.bne_true, Bool.bne_false, List.findSome?_cons, id, Option.getD_some, Bool.true_and,
      Bool.false_and] <;>
    try exact hm _
  rcases Bool.eq_false_or_eq_true m.HasExitSign with a | a <;>
    simp only [a, Bool.false_eq_true, if_true, if_false, List.findSome?_cons, id,
      Option.getD_some] <;>
    try exact hm _
  rcases Bool.eq_false_or_eq_true pe.ramp with a | a <;>
    rcases Bool.eq_false_or_eq_true m.ramp with b | b <;>
    simp only [a, b, Bool.and_true, Bool.and_false, Bool.not_true, Bool.not_false,
      Bool.false_eq_true, if_true, if_false, bne_self_eq_false, Bool.true_bne, Bool.false_bne,
      Bool.bne_true, Bool.bne_false, List.findSome?_cons, id, Option.getD_some, Bool.true_and,
      Bool.false_and] <;>
    try exact hm _
  rcases Bool.eq_false_or_eq_true pe.ferry with a | a <;>
    rcases Bool.eq_false_or_eq_true m.ferry with b | b <;>
    simp only [a, b, Bool.and_true, Bool.and_false, Bool.not_true, Bool.not_false,
      Bool.false_eq_true, if_true, if_false, bne_self_eq_false, Bool.true_bne, Bool.false_bne,
      Bool.bne_true, Bool.bne_false, List.findSome?_cons, id, Option.getD_some, Bool.true_and,
      Bool.false_and] <;>
    try exact hm _
  rcases Bool.eq_false_or_eq_true pe.rail_ferry with a | a <;>
    rcases Bool.eq_false_or_eq_true m.rail_ferry with b | b <;>
    simp only [a, b, Bool.and_true, Bool.and_false, Bool.not_true, Bool.not_false,
      Bool.false_eq_true, if_true, if_false, bne_self_eq_false, Bool.true_bne, Bool.false_bne,
      Bool.bne_true, Bool.bne_false, List.findSome?_cons, id, Option.getD_some, Bool.true_and,
      Bool.false_and] <;>
    try exact hm _
  rcases Bool.eq_false_or_eq_true pe.roundabout with a | a <;>
    rcases Bool.eq_false_or_eq_true m.roundabout with b | b <;>
    simp only [a, b, Bool.and_true, Bool.and_false, Bool.not_true, Bool.not_false,
      Bool.false_eq_true, if_true, if_false, bne_self_eq_false, Bool.true_bne, Bool.false_bne,
      Bool.bne_true, Bool.bne_false, List.findSome?_cons, id, Option.getD_some, Bool.true_and,
      Bool.false_and] <;>
    try exact hm _
  by_cases hne : m.street_names = pe.name
  · simp only [hne, if_true, decide_True, Bool.true_or]
    exact hm _
  · simp only [hne, if_false, decide_False, Bool.false_or]
    rcases Bool.eq_false_or_eq_true (C.FindCommonBaseNames pe.name m.street_names).isEmpty
      with e | e <;>
      simp only [e, Bool.not_true, Bool.not_false, Bool.false_eq_true, if_true, if_false] <;>
      first | exact hm _ | exact hn _ _

/-- C29: where the node has the previous edge `pe`, `CanManeuverIncludePrevEdge`
returns, changing at most the street names of the maneuver, and its boolean
result is the decision of the first check that applies, in this order:
internal-intersection flag, turn-channel flag, exit sign of the maneuver
(exclude), ramp flag, ferry flag, rail-ferry flag, roundabout flag, street
names; a flag check excludes when edge and maneuver disagree, includes when
both are true and passes on when both are false.  So an internal edge joins an
internal maneuver whatever their other flags and names are, and a maneuver
with an exit sign that is neither internal nor turn channel, like its edge,
is never joined, ramp or not. -/
theorem CanManeuverIncludePrevEdge_order (C : Collaborators) (P : TripPath) (m : Maneuver)
    (i : Nat) (pe : Edge) (hp : P.GetPrevEdge i 1 = some pe) :
    (∃ names, CanManeuverIncludePrevEdge C P m i
        = Except.ok (include_decision C pe m, { m with street_names := names }))
    ∧ (pe.internal_intersection = true → m.internal_intersection = true →
        include_decision C pe m = true)
    ∧ (pe.internal_intersection = false → m.internal_intersection = false →
        pe.turn_channel = false → m.turn_channel = false → m.HasExitSign = true →
        include_decision C pe m = false) := by
  refine ⟨CanManeuverIncludePrevEdge_decision C hp m, ?_, ?_⟩
  · intro a b
    simp [include_decision, include_checks, flag_check, a, b]
  · intro a b c d e
    simp [include_decision, include_checks, flag_check, a, b, c, d, e]

/-- C29 (witness): the internal maneuver on Oak Ave is joined with the
internal edge before it, a ramp named Elm St; the ramp maneuver with an exit
sign is not joined with the ramp edge before it. -/
theorem CanManeuverIncludePrevEdge_order_witness :
    (∃ names, CanManeuverIncludePrevEdge sampleCollaborators twoInternalEdgesPath internalOak 1
        = Except.ok (true, { internalOak with street_names := names }))
    ∧ (∃ names, CanManeuverIncludePrevEdge sampleCollaborators rampHighwayPath signedRamp 1
        = Except.ok (false, { signedRamp with street_names := names })) :=
  ⟨(CanManeuverIncludePrevEdge_order sampleCollaborators twoInternalEdgesPath internalOak 1 _
      rfl).1,
    (CanManeuverIncludePrevEdge_order sampleCollaborators rampHighwayPath signedRamp 1 _
      rfl).1⟩

/-- C30: when no flag check decides (edge and maneuver are both not internal,
not turn channel, not ramp, not ferry, not rail ferry, not roundabout, and the
maneuver has no exit sign), `CanManeuverIncludePrevEdge` returns true with the
maneuver unchanged if its street names equal the names of the edge; otherwise
it returns true with the street names replaced by the common base names of
the edge's names and the maneuver's names if there is one; otherwise it
returns false with the maneuver unchanged. -/
theorem CanManeuverIncludePrevEdge_names (C : Collaborators) (P : TripPath) (m : Maneuver)
    (i : Nat) (pe : Edge) (hp : P.GetPrevEdge i 1 = some pe)
    (h1 : pe.internal_intersection = false) (h2 : m.internal_intersection = false)
    (h3 : pe.turn_channel = false) (h4 : m.turn_channel = false)
    (h5 : m.HasExitSign = false)
    (h6 : pe.ramp = false) (h7 : m.ramp = false)
    (h8 : pe.ferry = false) (h9 : m.ferry = false)
    (h10 : pe.rail_ferry = false) (h11 : m.rail_ferry = false)
    (h12 : pe.roundabout = false) (h13 : m.roundabout = false) :
    CanManeuverIncludePrevEdge C P m i
      = if m.street_names = pe.name then Except.ok (true, m)
        else if (C.FindCommonBaseNames pe.name m.street_names).isEmpty = false then
          Except.ok (true,
            { m with street_names := C.FindCommonBaseNames pe.name m.street_names })
        else Except.ok (false, m) := by
  obtain ⟨upd, hupd⟩ : ∃ upd : List String → Maneuver,
      upd = fun names => { m with street_names := names } := ⟨_, rfl⟩
  have hu : ∀ names, ({ m with street_names := names } : Maneuver) = upd names := fun names => by
    rw [hupd]
  unfold CanManeuverIncludePrevEdge
  rw [hp]
  dsimp only [deref, Except.bind, bind, pure, Except.pure]
  simp only [hu]
  clear hu hupd
  simp only [h1, h2, h3, h4, h5, h6, h7, h8, h9, h10, h11, h12, h13, Bool.and_false,
    Bool.false_and, Bool.not_false, Bool.and_true, Bool.false_eq_true, if_false,
    Bool.not_eq_true']

/-- C30 (witness): the maneuver named Main St and US 1 joins the Main St edge
before node 1 of the straight path and keeps the common name Main St. -/
theorem CanManeuverIncludePrevEdge_names_witness :
    CanManeuverIncludePrevEdge sampleCollaborators straightPath twoNames 1
      = Except.ok (true, { twoNames with street_names := ["Main St"] }) :=
  CanManeuverIncludePrevEdge_names sampleCollaborators straightPath twoNames 1 _ rfl
    rfl rfl rfl rfl rfl rfl rfl rfl rfl rfl rfl rfl rfl

/-- C31: `CanManeuverIncludePrevEdge` is read-only except for the
common-base-name case.  Whenever it returns false the maneuver is unchanged;
whenever it returns true the maneuver is unchanged but for its street names;
and the maneuver changes only when the result is true, the street names differ
from the names of the previous edge and the common base names, which replace
them, are not empty.  The call returns whenever the node has a previous
edge. -/
theorem CanManeuverIncludePrevEdge_read_only (C : Collaborators) (P : TripPath) (m : Maneuver)
    (i : Nat) :
    (∀ b m', CanManeuverIncludePrevEdge C P m i = Except.ok (b, m') →
        (b = false → m' = m)
        ∧ (b = true → ∃ names, m' = { m with street_names := names })
        ∧ (m' ≠ m → b = true ∧ ∃ pe, P.GetPrevEdge i 1 = some pe
            ∧ m.street_names ≠ pe.name
            ∧ (C.FindCommonBaseNames pe.name m.street_names).isEmpty = false
            ∧ m' = { m with
                street_names := C.FindCommonBaseNames pe.name m.street_names }))
    ∧ (∀ pe, P.GetPrevEdge i 1 = some pe →
        ∃ b m', CanManeuverIncludePrevEdge C P m i = Except.ok (b, m')) := by
  refine ⟨?_, fun pe hp => ?_⟩
  swap
  · obtain ⟨names, h⟩ := CanManeuverIncludePrevEdge_decision C hp m
    exact ⟨_, _, h⟩
  cases hp : P.GetPrevEdge i 1 with
  | none =>
      intro b m' h
      simp only [CanManeuverIncludePrevEdge, hp, deref, bind, Except.bind] at h
      cases h
  | some pe =>
      obtain ⟨Q, hQ⟩ : ∃ Q : Except Err (Bool × Maneuver) → Prop, Q = fun x =>
        ∀ b m', x = Except.ok (b, m') →
          (b = false → m' = m)
          ∧ (b = true → ∃ names, m' = { m with street_names := names })
          ∧ (m' ≠ m → b = true ∧ ∃ pe', some pe = some pe'
              ∧ m.street_names ≠ pe'.name
              ∧ (C.FindCommonBaseNames pe'.name m.street_names).isEmpty = false
              ∧ m' = { m with
                  street_names := C.FindCommonBaseNames pe'.name m.street_names }) :=
        ⟨_, rfl⟩
      have hm : ∀ b, Q (Except.ok (b, m)) := fun b => by
        rw [hQ]
        intro b' m' h
        cases h
        exact ⟨fun _ => rfl, fun _ => ⟨m.street_names, rfl⟩, fun hne => absurd rfl hne⟩
      have htail : Q (if m.street_names = pe.name then Except.ok (true, m)
          else if (!(C.FindCommonBaseNames pe.name m.street_names).isEmpty) = true then
            Except.ok (true,
              { m with street_names := C.FindCommonBaseNames pe.name m.street_names })
          else Except.ok (false, m)) := by
        by_cases hn : m.street_names = pe.name
        · rw [if_pos hn]; exact hm _
        · rw [if_neg hn]
          by_cases he : (!(C.FindCommonBaseNames pe.name m.street_names).isEmpty) = true
          · rw [if_pos he, hQ]
            intro b' m' h
            cases h
            exact ⟨fun hb => (by cases hb), fun _ => ⟨_, rfl⟩, fun _ =>
              ⟨rfl, pe, rfl, hn, by simpa using he, rfl⟩⟩
          · rw [if_neg he]; exact hm _
      suffices hs : Q (CanManeuverIncludePrevEdge C P m i) by rw [hQ] at hs; exact hs
      unfold CanManeuverIncludePrevEdge
      rw [hp]
      dsimp only [deref, Except.bind, bind, pure, Except.pure]
      repeat (first | exact hm _ | exact htail | refine ite_ind Q ?_ ?_)

/-- C33: when the turn type of the maneuver's turn degree is Straight, the
simple directional classification yields SlightRight if the begin edge of the
maneuver is a turn channel and the begin relative direction is KeepRight,
SlightLeft if the begin edge is a turn channel and the relative direction is
KeepLeft, and Continue in every other case: no begin edge, a begin edge that
is not a turn channel, or any other relative direction. -/
theorem SetSimpleDirectionalManeuverType_straight (C : Collaborators) (P : TripPath)
    (m : Maneuver) (hs : C.GetType m.turn_degree = TurnType.kStraight) :
    SetSimpleDirectionalManeuverType C P m = { m with type := (
      if begins_on_turn_channel P m = true
          ∧ m.begin_relative_direction = RelativeDirection.kKeepRight then
        ManeuverType.kSlightRight
      else if begins_on_turn_channel P m = true
          ∧ m.begin_relative_direction = RelativeDirection.kKeepLeft then
        ManeuverType.kSlightLeft
      else ManeuverType.kContinue) }
    ∧ (P.GetCurrEdge m.begin_node_index = none → begins_on_turn_channel P m = false)
    ∧ (∀ e, P.GetCurrEdge m.begin_node_index = some e →
        begins_on_turn_channel P m = e.turn_channel) := by
  refine ⟨?_, fun h => by simp only [begins_on_turn_channel, h],
    fun e h => by simp only [begins_on_turn_channel, h]⟩
  unfold SetSimpleDirectionalManeuverType begins_on_turn_channel
  rw [hs]
  dsimp only
  cases P.GetCurrEdge m.begin_node_index with
  | none => simp
  | some e =>
      dsimp only
      cases e.turn_channel <;> cases m.begin_relative_direction <;> simp

/-- C33 (witness): keeping right onto the turn channel of the sample path is
SlightRight. -/
theorem SetSimpleDirectionalManeuverType_straight_witness :
    sampleCollaborators.GetType keepRightManeuver.turn_degree = TurnType.kStraight
    ∧ begins_on_turn_channel turnChannelPath keepRightManeuver = true
    ∧ SetSimpleDirectionalManeuverType sampleCollaborators turnChannelPath keepRightManeuver
        = { keepRightManeuver with type := ManeuverType.kSlightRight } :=
  ⟨rfl, rfl,
    (SetSimpleDirectionalManeuverType_straight sampleCollaborators turnChannelPath
      keepRightManeuver rfl).1⟩

/-- C34: where the begin node of the maneuver exists and has the previous edge
`pe`, `DetermineRelativeDirection(maneuver)` returns the maneuver with only the
begin relative direction changed: it is the bucket of the turn degree, refined
only when that bucket is KeepStraight, to KeepRight if the node has no
similar edge on the right and at least one on the left, to KeepLeft if it has
at least one on the right and none on the left, and left KeepStraight
otherwise.  A bucket other than KeepStraight is never changed by the
counts. -/
theorem DetermineRelativeDirection_maneuver_refines (P : TripPath) (m : Maneuver) (n : Node)
    (pe : Edge) (hn : P.GetEnhancedNode m.begin_node_index = some n)
    (hp : P.GetPrevEdge m.begin_node_index 1 = some pe) :
    ∃ d, DetermineRelativeDirection_maneuver P m
        = Except.ok { m with begin_relative_direction := d }
      ∧ (DetermineRelativeDirection m.turn_degree ≠ RelativeDirection.kKeepStraight →
          d = DetermineRelativeDirection m.turn_degree)
      ∧ (DetermineRelativeDirection m.turn_degree = RelativeDirection.kKeepStraight →
          ((n.CalculateRightLeftIntersectingEdgeCounts pe.end_heading).right_similar_count = 0
              ∧ (n.CalculateRightLeftIntersectingEdgeCounts pe.end_heading).left_similar_count
                > 0 →
            d = RelativeDirection.kKeepRight)
          ∧ ((n.CalculateRightLeftIntersectingEdgeCounts pe.end_heading).right_similar_count
                > 0
              ∧ (n.CalculateRightLeftIntersectingEdgeCounts pe.end_heading).left_similar_count
                = 0 →
            d = RelativeDirection.kKeepLeft)
          ∧ (¬ ((n.CalculateRightLeftIntersectingEdgeCounts pe.end_heading).right_similar_count
                  = 0
                ∧ (n.CalculateRightLeftIntersectingEdgeCounts
                    pe.end_heading).left_similar_count > 0) →
              ¬ ((n.CalculateRightLeftIntersectingEdgeCounts
                    pe.end_heading).right_similar_count > 0
                ∧ (n.CalculateRightLeftIntersectingEdgeCounts
                    pe.end_heading).left_similar_count = 0) →
              d = RelativeDirection.kKeepStraight)) := by
  simp only [DetermineRelativeDirection_maneuver, hn, hp, deref, Except.bind, bind, pure,
    Except.pure]
  refine ⟨_, rfl, ?_, ?_⟩
  · intro hk
    simp only [hk, and_false, if_false]
  · intro hk
    generalize (n.CalculateRightLeftIntersectingEdgeCounts pe.end_heading).right_similar_count
      = r
    generalize (n.CalculateRightLeftIntersectingEdgeCounts pe.end_heading).left_similar_count
      = l
    simp only [hk, and_true]
    refine ⟨fun h => by rw [if_pos h], fun h => ?_, fun h1 h2 => by rw [if_neg h1, if_neg h2]⟩
    rw [if_neg (by omega), if_pos h]

/-- C34 (witness): at node 1 of the turn-channel path, which has one similar
edge on the left and none on the right, a turn degree of 5 is KeepRight. -/
theorem DetermineRelativeDirection_maneuver_refines_witness :
    DetermineRelativeDirection_maneuver turnChannelPath
        { begin_node_index := 1, turn_degree := 5 }
      = Except.ok { begin_node_index := 1, turn_degree := 5,
                    begin_relative_direction := RelativeDirection.kKeepRight } :=
  let ⟨_, h, _, h2⟩ := DetermineRelativeDirection_maneuver_refines turnChannelPath
    { begin_node_index := 1, turn_degree := 5 } _ _ rfl rfl
  (h2 rfl).1 ⟨rfl, by decide⟩ ▸ h

/-- C35: `UsableInternalIntersectionName(maneuver, node_index)`, where the
node has the previous edge `pe`.  With the edge `pp` two before the node the
result is true if and only if the maneuver is an internal intersection and
the relative direction of the turn from the end heading of `pp` to the begin
heading of `pe` is Left under right-side driving, Right under left-side
driving; it is false for every maneuver that is not internal, and false when
there is no edge two before the node.  The source's
`IsRightSideOfStreetDriving` reports right-side driving, so the function
itself follows the right-side rule. -/
theorem UsableInternalIntersectionName_iff (side : Bool) (C : Collaborators) (P : TripPath)
    (m : Maneuver) (i : Nat) (pe : Edge) (hp : P.GetPrevEdge i 1 = some pe) :
    (∀ pp, P.GetPrevEdge i 2 = some pp →
        ∃ b, UsableInternalIntersectionName_side side C P m i = Except.ok b
          ∧ (b = true ↔ (m.internal_intersection = true
              ∧ DetermineRelativeDirection (C.GetTurnDegree pp.end_heading pe.begin_heading)
                = (if side then RelativeDirection.kLeft else RelativeDirection.kRight))))
    ∧ (P.GetPrevEdge i 2 = none →
        UsableInternalIntersectionName_side side C P m i = Except.ok false)
    ∧ (m.internal_intersection = false →
        UsableInternalIntersectionName_side side C P m i = Except.ok false)
    ∧ IsRightSideOfStreetDriving = true
    ∧ UsableInternalIntersectionName C P m i
        = UsableInternalIntersectionName_side true C P m i := by
  refine ⟨?_, ?_, ?_, rfl, rfl⟩
  · intro pp hpp
    simp only [UsableInternalIntersectionName_side, prev_prev_2prev_turn_degree, hpp, hp,
      deref, Except.bind, bind, pure, Except.pure]
    cases m.internal_intersection <;> cases side <;>
      cases DetermineRelativeDirection (C.GetTurnDegree pp.end_heading pe.begin_heading) <;>
      exact ⟨_, rfl, by decide⟩
  · intro hpp
    simp only [UsableInternalIntersectionName_side, prev_prev_2prev_turn_degree, hpp,
      Except.bind, bind, pure, Except.pure]
    have h0 : DetermineRelativeDirection 0 = RelativeDirection.kKeepStraight := by decide
    rw [h0]
    cases m.internal_intersection <;> cases side <;> rfl
  · intro hi
    obtain ⟨d, hd⟩ := prev_prev_2prev_turn_degree_ok C hp
    simp only [UsableInternalIntersectionName_side, hd, hi, Bool.false_and, Except.bind, bind,
      pure, Except.pure, Bool.false_eq_true, if_false]

/-- C35 (witness): on the left-turn path the internal maneuver over the second
edge has a usable name at node 2 under right-side driving, the turn from Main
St onto it being a left turn, and none under left-side driving. -/
theorem UsableInternalIntersectionName_iff_witness :
    UsableInternalIntersectionName sampleCollaborators leftTurnPath
        { internal_intersection := true } 2 = Except.ok true
    ∧ UsableInternalIntersectionName_side false sampleCollaborators leftTurnPath
        { internal_intersection := true } 2 = Except.ok false
    ∧ UsableInternalIntersectionName sampleCollaborators leftTurnPath
        { internal_intersection := true } 1 = Except.ok false :=
  ⟨rfl, rfl,
    ((UsableInternalIntersectionName_iff true sampleCollaborators leftTurnPath
      { internal_intersection := true } 1 _ rfl).2.2.2.2.symm ▸
    (UsableInternalIntersectionName_iff true sampleCollaborators leftTurnPath
      { internal_intersection := true } 1 _ rfl).2.1 rfl)⟩

/-- C32 (the code at the failing input): `UpdateInternalTurnCount` never reads
the internal-intersection flag of the maneuver, so its result on a maneuver
and on the same maneuver with the flag inverted differ in that flag only.  On
the path Main St, right turn, Oak Ave, which has no internal-intersection
edge, `Produce` returns the Oak Ave maneuver, not internal, with
`internal_right_turn_count = 1`; on the crossing path the non-internal Oak Ave
maneuver has count 1 and the internal maneuver has both counts 0. -/
theorem UpdateInternalTurnCount_ignores_internal_flag :
    (∀ (C : Collaborators) (P : TripPath) (m m' : Maneuver) (i : Nat) (flag : Bool),
        UpdateInternalTurnCount C P m i = Except.ok m' →
        UpdateInternalTurnCount C P { m with internal_intersection := flag } i
          = Except.ok { m' with internal_intersection := flag })
    ∧ (rightTurnPath.node.all fun n => !n.edge.internal_intersection) = true
    ∧ (∃ start turn dest,
        Produce sampleCollaborators rightTurnPath = Except.ok [start, turn, dest]
        ∧ turn.type = ManeuverType.kRight ∧ turn.internal_intersection = false
        ∧ turn.internal_right_turn_count = 1 ∧ turn.internal_left_turn_count = 0)
    ∧ (∃ start inner turn dest,
        Produce sampleCollaborators crossingPath = Except.ok [start, inner, turn, dest]
        ∧ inner.internal_intersection = true
        ∧ inner.internal_right_turn_count = 0 ∧ inner.internal_left_turn_count = 0
        ∧ turn.internal_intersection = false ∧ turn.internal_right_turn_count = 1) := by
  refine ⟨?_, rfl, ⟨_, _, _, rfl, rfl, rfl, rfl, rfl⟩, ⟨_, _, _, _, rfl, rfl, rfl, rfl, rfl, rfl⟩⟩
  intro C P m m' i flag h
  unfold UpdateInternalTurnCount at h ⊢
  cases ht : prev_prev_2prev_turn_degree C P i with
  | error e => rw [ht] at h; cases h
  | ok td =>
    rw [ht] at h
    simp only [bind, Except.bind, pure, Except.pure, Except.ok.injEq] at h ⊢
    rw [← h]

/-- C37 (the code at the failing inputs): on the path Main St, internal Elm St
the list of `Produce` is Start, internal maneuver, Destination, and `Build`
returns a list whose last maneuver has type Continue: the internal maneuver
was absorbed into the Destination maneuver, which was typed anew.  On the
path internal Elm St, roundabout Ring Rd, `Build` returns a list whose first
maneuver has type RoundaboutEnter: the Start maneuver was absorbed into its
successor. -/
theorem Build_loses_end_markers :
    (∃ start inner dest,
        Produce sampleCollaborators internalLastPath = Except.ok [start, inner, dest]
        ∧ start.type = ManeuverType.kStart ∧ inner.internal_intersection = true
        ∧ dest.type = ManeuverType.kDestination)
    ∧ (∃ first last,
        Build sampleCollaborators internalLastPath = Except.ok [first, last]
        ∧ first.type = ManeuverType.kStart ∧ last.type = ManeuverType.kContinue
        ∧ last.begin_node_index = 1 ∧ last.end_node_index = 2)
    ∧ (∃ start ring dest,
        Produce sampleCollaborators internalRoundaboutPath = Except.ok [start, ring, dest]
        ∧ start.type = ManeuverType.kStart ∧ start.internal_intersection = true
        ∧ dest.type = ManeuverType.kDestination)
    ∧ (∃ first last,
        Build sampleCollaborators internalRoundaboutPath = Except.ok [first, last]
        ∧ first.type = ManeuverType.kRoundaboutEnter ∧ first.begin_node_index = 0
        ∧ last.type = ManeuverType.kDestination) :=
  ⟨⟨_, _, _, rfl, rfl, rfl, rfl⟩, ⟨_, _, rfl, rfl, rfl, rfl, rfl⟩,
    ⟨_, _, _, rfl, rfl, rfl, rfl⟩, ⟨_, _, rfl, rfl, rfl, rfl⟩⟩

/-! ### The shape of the list of `Produce` -/

/-- `UpdateManeuver` leaves the internal-intersection flag, the end node and
the shape indices of the maneuver alone. -/
theorem UpdateManeuver_keeps (C : Collaborators) {P : TripPath} {i : Nat} {e : Edge}
    (h : P.GetPrevEdge i 1 = some e) (m : Maneuver) :
    ∃ m', UpdateManeuver C P m i = Except.ok m'
      ∧ m'.internal_intersection = m.internal_intersection
      ∧ m'.end_node_index = m.end_node_index := by
  obtain ⟨d, hd⟩ := prev_prev_2prev_turn_degree_ok C h
  obtain ⟨b, hb⟩ := UsableInternalIntersectionName_ok C h m
  simp only [UpdateManeuver, UpdateInternalTurnCount, h, hd, hb,
    deref, Except.bind, bind, pure, Except.pure]
  split
  all_goals
    exact ⟨_, rfl, rfl, rfl⟩

/-- The maneuver that `InitializeManeuver` opens from the empty maneuver ends
at the node and has the internal-intersection flag of the previous edge. -/
theorem InitializeManeuver_opens (C : Collaborators) {P : TripPath} {i : Nat} {e : Edge}
    (h : P.GetPrevEdge i 1 = some e) :
    ∃ m', InitializeManeuver C P {} i = Except.ok m'
      ∧ m'.internal_intersection = e.internal_intersection
      ∧ m'.end_node_index = i := by
  simp only [InitializeManeuver, h, deref, Except.bind, bind, pure, Except.pure]
  obtain ⟨m', h1, h2, h3⟩ := UpdateManeuver_keeps C h
    { ({} : Maneuver) with
      end_heading := e.end_heading, end_node_index := i, end_shape_index := e.end_shape_index,
      ramp := if e.ramp then true else ({} : Maneuver).ramp,
      turn_channel := if e.turn_channel then true else ({} : Maneuver).turn_channel,
      ferry := if e.ferry then true else ({} : Maneuver).ferry,
      rail_ferry := if e.rail_ferry then true else ({} : Maneuver).rail_ferry,
      roundabout := if e.roundabout then true else ({} : Maneuver).roundabout,
      internal_intersection :=
        if e.internal_intersection then true else ({} : Maneuver).internal_intersection }
  refine ⟨m', h1, ?_, h3⟩
  rw [h2]
  show (if e.internal_intersection = true then true else false) = e.internal_intersection
  cases e.internal_intersection <;> rfl

/-- A maneuver that `FinalizeManeuver` returns begins at the node and has the
end node and the internal-intersection flag it had. -/
theorem FinalizeManeuver_keeps {C : Collaborators} {P : TripPath} {i : Nat} {m m' : Maneuver}
    (h : FinalizeManeuver C P m i = Except.ok m') :
    m'.begin_node_index = i ∧ m'.end_node_index = m.end_node_index
      ∧ m'.internal_intersection = m.internal_intersection := by
  unfold FinalizeManeuver at h
  cases hc : P.GetCurrEdge i with
  | none => rw [hc] at h; cases h
  | some ce =>
    obtain ⟨cd, hcd⟩ := DetermineCardinalDirection_total ce.begin_heading
    simp only [hc, hcd, deref, Except.bind, bind, pure, Except.pure] at h
    cases hp : P.GetPrevEdge i 1 with
    | none =>
      simp only [hp] at h
      obtain ⟨t, ht⟩ := SetManeuverType_frame h
      rw [ht]
      exact ⟨rfl, rfl, rfl⟩
    | some pe =>
      simp only [hp] at h
      cases hd : DetermineRelativeDirection_maneuver P
          { m with
            begin_cardinal_direction := cd, begin_heading := ce.begin_heading,
            begin_node_index := i, begin_shape_index := ce.begin_shape_index,
            turn_degree := C.GetTurnDegree pe.end_heading ce.begin_heading } with
      | error err => rw [hd] at h; cases h
      | ok m2 =>
        rw [hd] at h
        obtain ⟨t, ht⟩ := SetManeuverType_frame h
        have hn : ∃ n, P.GetEnhancedNode i = some n := by
          cases hn : P.GetEnhancedNode i with
          | some n => exact ⟨n, rfl⟩
          | none =>
            simp only [DetermineRelativeDirection_maneuver, hn, deref, Except.bind, bind] at hd
            cases hd
        obtain ⟨n, hn⟩ := hn
        obtain ⟨d, hd2⟩ := DetermineRelativeDirection_maneuver_ok
          (m := { m with
            begin_cardinal_direction := cd, begin_heading := ce.begin_heading,
            begin_node_index := i, begin_shape_index := ce.begin_shape_index,
            turn_degree := C.GetTurnDegree pe.end_heading ce.begin_heading }) hn hp
        rw [hd2] at hd
        cases hd
        rw [ht]
        exact ⟨rfl, rfl, rfl⟩

/-- Where `CanManeuverIncludePrevEdge` returns true, the previous edge has the
internal-intersection flag of the maneuver. -/
theorem CanManeuverIncludePrevEdge_true_internal {C : Collaborators} {P : TripPath} {i : Nat}
    {pe : Edge} {m m' : Maneuver} (hp : P.GetPrevEdge i 1 = some pe)
    (h : CanManeuverIncludePrevEdge C P m i = Except.ok (true, m')) :
    pe.internal_intersection = m.internal_intersection := by
  unfold CanManeuverIncludePrevEdge at h
  rw [hp] at h
  dsimp only [deref, Except.bind, bind, pure, Except.pure] at h
  rcases Bool.eq_false_or_eq_true pe.internal_intersection with h1 | h1 <;>
  rcases Bool.eq_false_or_eq_true m.internal_intersection with h2 | h2
  · rw [h1, h2]
  · rw [if_pos (by rw [h1, h2]; rfl)] at h
    cases h
  · rw [if_neg (by rw [h1, h2]; decide), if_pos (by rw [h1, h2]; rfl)] at h
    cases h
  · rw [h1, h2]

/-- `Produce` on a path of two or more nodes, from the results of its steps. -/
theorem Produce_eq {C : Collaborators} {P : TripPath} (h : 2 ≤ P.node_size)
    {dest opened front start : Maneuver} {rest : List Maneuver}
    (hd : CreateDestinationManeuver P {} = Except.ok dest)
    (ho : InitializeManeuver C P {} P.GetLastNodeIndex = Except.ok opened)
    (hl : ProduceLoop C P (P.GetLastNodeIndex - 1) opened [dest] = Except.ok (front :: rest))
    (hs : CreateStartManeuver C P front = Except.ok start) :
    Produce C P = Except.ok (start :: rest) := by
  have h1 : ¬ P.node_size < 1 := by omega
  have h2 : ¬ P.node_size = 1 := by omega
  unfold Produce
  rw [if_neg h1, if_neg h2]
  simp only [hd, ho, hl, hs, Except.bind, bind, pure, Except.pure]

/-- The loop of `Produce` puts one maneuver in front of the list for each call
of `CanManeuverIncludePrevEdge` that returns false, and makes one call at each
of the node indices `i, i - 1, .., 1`. -/
theorem ProduceLoop_decisions_count (C : Collaborators) (P : TripPath) :
    ∀ (i : Nat) (front : Maneuver) (rest : List Maneuver), i + 1 < P.node_size →
      ∃ front' pre, ProduceLoop C P i front rest = Except.ok (front' :: (pre ++ rest))
        ∧ pre.length
            = ((ProduceLoop_decisions C P i front).filter fun d => d.2 = false).length
        ∧ (ProduceLoop_decisions C P i front).map Prod.fst = List.iota i := by
  intro i
  induction i with
  | zero =>
    intro front rest _
    exact ⟨front, [], rfl, rfl, rfl⟩
  | succ i ih =>
    intro front rest hi
    obtain ⟨e, he⟩ := GetPrevEdge_some P (i := i) (by omega)
    obtain ⟨ce, hce⟩ : ∃ ce, P.GetCurrEdge (i + 1) = some ce := by
      rw [GetCurrEdge_eq P hi]; exact GetPrevEdge_some P (by omega)
    obtain ⟨n, hn⟩ := GetEnhancedNode_some P (i := i + 1) (by omega)
    obtain ⟨b, names, hcan⟩ := CanManeuverIncludePrevEdge_ok C he front
    rw [ProduceLoop, ProduceLoop_decisions, hcan]
    simp only [Except.bind, bind]
    cases b with
    | true =>
      obtain ⟨f2, hf2, _⟩ := UpdateManeuver_ok C he { front with street_names := names }
      simp only [if_true, hf2]
      obtain ⟨front', pre, hres, hlen, hidx⟩ := ih f2 rest (by omega)
      refine ⟨front', pre, hres, ?_, ?_⟩
      · rw [hlen]; simp
      · rw [List.map_cons, hidx]; rfl
    | false =>
      obtain ⟨f2, hf2, _⟩ :=
        FinalizeManeuver_ok C hce he hn { front with street_names := names }
      obtain ⟨op, hop, _⟩ := InitializeManeuver_ok C he {}
      simp only [Bool.false_eq_true, if_false, hf2, hop]
      obtain ⟨front', pre, hres, hlen, hidx⟩ := ih op (f2 :: rest) (by omega)
      refine ⟨front', pre ++ [f2], ?_, ?_, ?_⟩
      · rw [hres]; simp
      · rw [List.length_append, hlen]; simp
      · rw [List.map_cons, hidx]; rfl

/-- The loop of `Produce` makes only maneuvers that are homogeneous in the
internal-intersection attribute: when the edges from node `i` to the end node
of the open maneuver have its flag, the edges from node 0 to the end node of
the maneuver in front of the returned list have its flag, and each maneuver
the loop puts behind it holds an edge and is homogeneous. -/
theorem ProduceLoop_homogeneous (C : Collaborators) (P : TripPath) :
    ∀ (i : Nat) (front : Maneuver) (rest : List Maneuver), i + 1 < P.node_size →
      i < front.end_node_index →
      (∀ k, k < front.end_node_index → i ≤ k →
        (P.GetCurrEdge k).map Edge.internal_intersection = some front.internal_intersection) →
      ∃ front' pre, ProduceLoop C P i front rest = Except.ok (front' :: (pre ++ rest))
        ∧ 0 < front'.end_node_index
        ∧ (∀ k, k < front'.end_node_index →
            (P.GetCurrEdge k).map Edge.internal_intersection
              = some front'.internal_intersection)
        ∧ (∀ m ∈ pre, m.begin_node_index < m.end_node_index ∧ internal_homogeneous P m) := by
  intro i
  induction i with
  | zero =>
    intro front rest _ hlt ho
    exact ⟨front, [], rfl, hlt, fun k hk => ho k hk (Nat.zero_le k), fun m hm => by cases hm⟩
  | succ i ih =>
    intro front rest hi hlt ho
    obtain ⟨e, he⟩ := GetPrevEdge_some P (i := i) (by omega)
    have hcur : (P.GetCurrEdge i).map Edge.internal_intersection
        = some e.internal_intersection := by
      rw [GetCurrEdge_eq P (by omega), he]; rfl
    obtain ⟨ce, hce⟩ : ∃ ce, P.GetCurrEdge (i + 1) = some ce := by
      rw [GetCurrEdge_eq P hi]; exact GetPrevEdge_some P (by omega)
    obtain ⟨n, hn⟩ := GetEnhancedNode_some P (i := i + 1) (by omega)
    obtain ⟨b, names, hcan⟩ := CanManeuverIncludePrevEdge_ok C he front
    rw [ProduceLoop, hcan]
    simp only [Except.bind, bind]
    cases b with
    | true =>
      have hflag := CanManeuverIncludePrevEdge_true_internal he hcan
      obtain ⟨f2, hf2, h2i, h2e⟩ :=
        UpdateManeuver_keeps C he { front with street_names := names }
      dsimp only at h2i h2e
      simp only [if_true, hf2]
      refine ih f2 rest (by omega) (by rw [h2e]; omega) ?_
      intro k hk hik
      rw [h2e] at hk
      rw [h2i]
      rcases Nat.eq_or_lt_of_le hik with hki | hki
      · rw [← hki, hcur, hflag]
      · exact ho k hk hki
    | false =>
      obtain ⟨f2, hf2, _⟩ :=
        FinalizeManeuver_ok C hce he hn { front with street_names := names }
      obtain ⟨h2b, h2e, h2i⟩ := FinalizeManeuver_keeps hf2
      dsimp only at h2e h2i
      obtain ⟨op, hop, hopi, hope⟩ := InitializeManeuver_opens C he
      simp only [Bool.false_eq_true, if_false, hf2, hop]
      obtain ⟨front', pre, hres, hpos, hfront, hpre⟩ :=
        ih op (f2 :: rest) (by omega) (by rw [hope]; omega) (by
          intro k hk hik
          rw [hope] at hk
          have hki : k = i := by omega
          rw [hki, hcur, hopi])
      refine ⟨front', pre ++ [f2], ?_, hpos, hfront, ?_⟩
      · rw [hres]; simp
      · intro m hm
        rcases List.mem_append.mp hm with hm | hm
        · exact hpre m hm
        · rw [List.mem_singleton.mp hm]
          refine ⟨by rw [h2b, h2e]; exact hlt, ?_⟩
          intro k hk hbk
          rw [h2e] at hk
          rw [h2b] at hbk
          rw [h2i]
          exact ho k hk hbk

/-- `CreateDestinationManeuver` where the last node has the previous edge
`e`. -/
theorem CreateDestinationManeuver_eq {P : TripPath} {e : Edge}
    (he : P.GetPrevEdge P.GetLastNodeIndex 1 = some e) (m : Maneuver) :
    CreateDestinationManeuver P m
      = Except.ok
          { m with
            type := ManeuverType.kDestination, begin_node_index := P.GetLastNodeIndex,
            end_node_index := P.GetLastNodeIndex, begin_shape_index := e.end_shape_index,
            end_shape_index := e.end_shape_index } := by
  simp only [CreateDestinationManeuver, he, deref, Except.bind, bind, pure, Except.pure]

/-- C36: on every path with N ≥ 1 edges (two or more nodes) `Produce` returns
a list of at least two maneuvers.  The first has type Start and begins at
node 0; the last has type Destination, begins and ends at node N, and its
begin and end shape index are the end shape index of the last edge.  The loop
calls `CanManeuverIncludePrevEdge` once at each of the node indices
N - 1, .., 1, and the length of the list is 2 plus the number of those calls
that returned false; on a two-node path the list is Start, Destination. -/
theorem Produce_shape (C : Collaborators) (P : TripPath) (h : 2 ≤ P.node_size) :
    ∃ start pre dest last_edge,
      Produce C P = Except.ok (start :: (pre ++ [dest]))
      ∧ 2 ≤ (start :: (pre ++ [dest])).length
      ∧ start.type = ManeuverType.kStart ∧ start.begin_node_index = 0
      ∧ dest.type = ManeuverType.kDestination
      ∧ dest.begin_node_index = P.node_size - 1 ∧ dest.end_node_index = P.node_size - 1
      ∧ P.GetPrevEdge (P.node_size - 1) 1 = some last_edge
      ∧ dest.begin_shape_index = last_edge.end_shape_index
      ∧ dest.end_shape_index = last_edge.end_shape_index
      ∧ (Produce_decisions C P).map Prod.fst = List.iota (P.node_size - 2)
      ∧ (start :: (pre ++ [dest])).length
          = 2 + ((Produce_decisions C P).filter fun d => d.2 = false).length
      ∧ (P.node_size = 2 → pre = []) := by
  have hl : P.GetLastNodeIndex = (P.node_size - 2) + 1 := by
    unfold TripPath.GetLastNodeIndex; omega
  have hl1 : P.node_size - 1 = P.GetLastNodeIndex := rfl
  have hsub : P.GetLastNodeIndex - 1 = P.node_size - 2 := by rw [hl]; omega
  obtain ⟨e, he⟩ := GetPrevEdge_some P (i := P.node_size - 2) (by omega)
  rw [← hl] at he
  have hdest := CreateDestinationManeuver_eq he {}
  obtain ⟨op, hop, _⟩ := InitializeManeuver_ok C he {}
  obtain ⟨front', pre, hloop, hlen, hidx⟩ :=
    ProduceLoop_decisions_count C P (P.node_size - 2) op [_] (by omega)
  rw [← hsub] at hloop
  obtain ⟨ce, hce⟩ : ∃ ce, P.GetCurrEdge 0 = some ce := by
    rw [GetCurrEdge_eq P (by omega)]; exact GetPrevEdge_some P (by omega)
  obtain ⟨start, hstart, hsb, _, _, _, hsty, _, _⟩ :=
    FinalizeManeuver_ok_first C hce (GetPrevEdge_zero P)
      (m := { front' with type := ManeuverType.kStart }) (by simp)
  have hdec : Produce_decisions C P = ProduceLoop_decisions C P (P.node_size - 2) op := by
    unfold Produce_decisions
    rw [hop, hsub]
  have hprod := Produce_eq h hdest hop hloop hstart
  rw [hl1, hdec, hidx, ← hlen]
  refine ⟨start, pre, _, e, hprod, by simp, hsty, hsb, rfl, rfl, rfl, he, rfl, rfl, rfl,
    by simp; omega, ?_⟩
  intro h2
  have h0 : P.node_size - 2 = 0 := by omega
  rw [h0] at hlen
  exact List.length_eq_zero.mp hlen

/-- C38: on every path with two or more nodes `Produce` returns a list that
ends with the Destination maneuver, whose begin and end node are the same,
and every maneuver before it holds an edge and is homogeneous in the
internal-intersection attribute: each path edge from its begin node to its
end node has the flag of the maneuver. -/
theorem Produce_internal_homogeneous (C : Collaborators) (P : TripPath)
    (h : 2 ≤ P.node_size) :
    ∃ start pre dest,
      Produce C P = Except.ok (start :: (pre ++ [dest]))
      ∧ dest.type = ManeuverType.kDestination
      ∧ dest.begin_node_index = dest.end_node_index
      ∧ ∀ m ∈ start :: pre,
          m.begin_node_index < m.end_node_index ∧ internal_homogeneous P m := by
  have hl : P.GetLastNodeIndex = (P.node_size - 2) + 1 := by
    unfold TripPath.GetLastNodeIndex; omega
  have hsub : P.GetLastNodeIndex - 1 = P.node_size - 2 := by rw [hl]; omega
  obtain ⟨e, he⟩ := GetPrevEdge_some P (i := P.node_size - 2) (by omega)
  have hcur : (P.GetCurrEdge (P.node_size - 2)).map Edge.internal_intersection
      = some e.internal_intersection := by
    rw [GetCurrEdge_eq P (by omega), he]; rfl
  rw [← hl] at he
  have hdest := CreateDestinationManeuver_eq he {}
  obtain ⟨op, hop, hopi, hope⟩ := InitializeManeuver_opens C he
  obtain ⟨front', pre, hloop, hpos, hfront, hpre⟩ :=
    ProduceLoop_homogeneous C P (P.node_size - 2) op [_] (by omega)
      (by rw [hope, hl]; omega) (by
        intro k hk hik
        rw [hope, hl] at hk
        have hki : k = P.node_size - 2 := by omega
        rw [hki, hcur, hopi])
  rw [← hsub] at hloop
  obtain ⟨ce, hce⟩ : ∃ ce, P.GetCurrEdge 0 = some ce := by
    rw [GetCurrEdge_eq P (by omega)]; exact GetPrevEdge_some P (by omega)
  obtain ⟨start, hstart, _⟩ :=
    FinalizeManeuver_ok_first C hce (GetPrevEdge_zero P)
      (m := { front' with type := ManeuverType.kStart }) (by simp)
  obtain ⟨hsb, hse, hsi⟩ := FinalizeManeuver_keeps hstart
  dsimp only at hse hsi
  refine ⟨start, pre, _, Produce_eq h hdest hop hloop hstart, rfl, rfl, ?_⟩
  intro m hm
  rcases List.mem_cons.mp hm with hm | hm
  · rw [hm]
    refine ⟨by rw [hsb, hse]; exact hpos, ?_⟩
    intro k hk _
    rw [hse] at hk
    rw [hsi]
    exact hfront k hk
  · exact hpre m hm

theorem Produce_shape_witness :
    2 ≤ mainThenOakPath.node_size
    ∧ Produce_decisions sampleCollaborators mainThenOakPath = [(2, false), (1, true)]
    ∧ ∃ start turn dest,
        Produce sampleCollaborators mainThenOakPath = Except.ok [start, turn, dest]
        ∧ start.type = ManeuverType.kStart ∧ start.begin_node_index = 0
        ∧ start.end_node_index = 2
        ∧ dest.type = ManeuverType.kDestination ∧ dest.begin_node_index = 3
        ∧ dest.begin_shape_index = 9 ∧ dest.end_shape_index = 9 := by
  obtain ⟨start, pre, dest, e, hp, _, hst, hsb, hdt, hdb, _, he, hbs, hes, _, hlen, _⟩ :=
    Produce_shape sampleCollaborators mainThenOakPath (by decide)
  have hev : ∃ s t d, Produce sampleCollaborators mainThenOakPath = Except.ok [s, t, d]
      ∧ s.end_node_index = 2 := ⟨_, _, _, rfl, rfl⟩
  obtain ⟨s, t, d, hev, hse⟩ := hev
  have hee : mainThenOakPath.GetPrevEdge (mainThenOakPath.node_size - 1) 1
      = some { name := ["Oak Ave"], length := 200, speed := 50, begin_heading := 90,
               end_heading := 90, begin_shape_index := 6, end_shape_index := 9 } := rfl
  rw [hee] at he
  cases he
  rw [hev] at hp
  match pre, hp with
  | [x], hp =>
    simp only [List.singleton_append, Except.ok.injEq, List.cons.injEq, and_true] at hp
    obtain ⟨h1, h2, h3⟩ := hp
    subst h1 h2 h3
    exact ⟨by decide, rfl, _, _, _, hev, hst, hsb, hse, hdt, hdb, hbs, hes⟩
  | [], hp => simp at hp
  | _ :: _ :: _, hp => simp at hp

theorem Produce_internal_homogeneous_witness :
    2 ≤ twoInternalEdgesPath.node_size
    ∧ (∃ start dest,
        Produce sampleCollaborators twoInternalEdgesPath = Except.ok [start, dest]
        ∧ start.begin_node_index = 0 ∧ start.end_node_index = 2
        ∧ start.internal_intersection = true)
    ∧ ∃ start pre dest,
        Produce sampleCollaborators twoInternalEdgesPath = Except.ok (start :: (pre ++ [dest]))
        ∧ dest.type = ManeuverType.kDestination
        ∧ dest.begin_node_index = dest.end_node_index
        ∧ ∀ m ∈ start :: pre,
            m.begin_node_index < m.end_node_index
              ∧ internal_homogeneous twoInternalEdgesPath m :=
  ⟨by decide, ⟨_, _, rfl, rfl, rfl, rfl⟩,
    Produce_internal_homogeneous sampleCollaborators twoInternalEdgesPath (by decide)⟩

/-- A none-typed ramp maneuver that is neither internal-intersection nor
turn-channel and whose begin node has no previous edge: `SetManeuverType`
dereferences the null previous edge, whatever the signs of the maneuver. -/
theorem SetManeuverType_ramp_null {C : Collaborators} {P : TripPath} {m : Maneuver}
    (hty : m.type = ManeuverType.kNone) (hi : m.internal_intersection = false)
    (htc : m.turn_channel = false) (hr : m.ramp = true)
    (hp : P.GetPrevEdge m.begin_node_index 1 = none) :
    SetManeuverType C P m = Except.error Err.null_dereference := by
  simp only [SetManeuverType, hty, hi, htc, hr, hp, deref, Except.bind, bind, pure,
    Except.pure, ne_eq, not_true_eq_false, if_false, if_true, Bool.false_eq_true]

/-- A none-typed maneuver that is not internal-intersection, not turn-channel
and not a ramp, at a begin node without a previous edge: it is typed
RoundaboutEnter when the current edge is not a highway and the maneuver is a
roundabout, and every other case dereferences the null previous edge. -/
theorem SetManeuverType_not_ramp_null {C : Collaborators} {P : TripPath} {m : Maneuver}
    {ce : Edge}
    (hty : m.type = ManeuverType.kNone) (hi : m.internal_intersection = false)
    (htc : m.turn_channel = false) (hr : m.ramp = false)
    (hp : P.GetPrevEdge m.begin_node_index 1 = none)
    (hc : P.GetCurrEdge m.begin_node_index = some ce) :
    SetManeuverType C P m
      = if ce.IsHighway = false ∧ m.roundabout = true then
          Except.ok { m with type := ManeuverType.kRoundaboutEnter }
        else Except.error Err.null_dereference := by
  rcases Bool.eq_false_or_eq_true ce.IsHighway with h1 | h1 <;>
  rcases Bool.eq_false_or_eq_true m.roundabout with h3 | h3 <;>
    simp [SetManeuverType, hty, hi, htc, hr, hp, hc, h1, h3, deref, Except.bind, bind,
      pure, Except.pure]

/-- A none-typed maneuver that is not internal-intersection, not turn-channel
and not a ramp, at a begin node without a current edge: `SetManeuverType`
dereferences the null current edge. -/
theorem SetManeuverType_not_ramp_no_curr {C : Collaborators} {P : TripPath} {m : Maneuver}
    (hty : m.type = ManeuverType.kNone) (hi : m.internal_intersection = false)
    (htc : m.turn_channel = false) (hr : m.ramp = false)
    (hc : P.GetCurrEdge m.begin_node_index = none) :
    SetManeuverType C P m = Except.error Err.null_dereference := by
  simp only [SetManeuverType, hty, hi, htc, hr, hc, deref, Except.bind, bind, pure,
    Except.pure, ne_eq, not_true_eq_false, if_false, if_true, Bool.false_eq_true]

/-- C13 (the code at the failing input): for a none-typed ramp maneuver that is
neither internal-intersection nor turn-channel, `SetManeuverType` reads the
previous edge of the begin node before it reads the exit-number sign.  Where
the begin node has a previous edge `pe` that is a highway, or the maneuver
carries an exit-number sign, the type is ExitLeft for KeepLeft and Left and
ExitRight for every other relative direction.  Where the begin node has no
previous edge the call dereferences null, also for a maneuver that carries an
exit-number sign.  On the path internal Elm St, ramp Exit 12, `Produce` types
the ramp maneuver ExitRight; `Combine` absorbs the Start maneuver into it, so
that it begins at node 0 with type none, and `Build` returns no list. -/
theorem SetManeuverType_exit_reads_prev_edge :
    (∀ (C : Collaborators) (P : TripPath) (m : Maneuver) (pe : Edge),
        m.type = ManeuverType.kNone → m.internal_intersection = false →
        m.turn_channel = false → m.ramp = true →
        P.GetPrevEdge m.begin_node_index 1 = some pe →
        (pe.IsHighway = true ∨ m.HasExitNumberSign = true) →
        SetManeuverType C P m = Except.ok { m with type := (
          if m.begin_relative_direction = RelativeDirection.kKeepLeft
              ∨ m.begin_relative_direction = RelativeDirection.kLeft then
            ManeuverType.kExitLeft
          else ManeuverType.kExitRight) })
    ∧ (∀ (C : Collaborators) (P : TripPath) (m : Maneuver),
        m.type = ManeuverType.kNone → m.internal_intersection = false →
        m.turn_channel = false → m.ramp = true →
        P.GetPrevEdge m.begin_node_index 1 = none →
        SetManeuverType C P m = Except.error Err.null_dereference)
    ∧ (∃ start exit dest,
        Produce sampleCollaborators internalThenExitPath = Except.ok [start, exit, dest]
        ∧ start.internal_intersection = true
        ∧ exit.type = ManeuverType.kExitRight ∧ exit.ramp = true
        ∧ exit.internal_intersection = false ∧ exit.turn_channel = false
        ∧ exit.HasExitNumberSign = true
        ∧ internalThenExitPath.GetPrevEdge 0 1 = none
        ∧ SetManeuverType sampleCollaborators internalThenExitPath
            { exit with type := ManeuverType.kNone, begin_node_index := 0 }
          = Except.error Err.null_dereference)
    ∧ Build sampleCollaborators internalThenExitPath
        = Except.error Err.null_dereference := by
  refine ⟨?_, ?_, ⟨_, _, _, rfl, rfl, rfl, rfl, rfl, rfl, rfl, rfl, rfl⟩, rfl⟩
  · intro C P m pe hty hi htc hr hp hx
    rw [SetManeuverType_ramp hty hi htc hr hp]
    have hx' : (pe.IsHighway || m.HasExitNumberSign) = true := by
      rcases hx with h | h <;> simp [h]
    rw [if_pos hx']
    cases m.begin_relative_direction <;> simp [exit_type]
  · intro C P m hty hi htc hr hp
    exact SetManeuverType_ramp_null hty hi htc hr hp

/-- C14 (the code at the failing input): for a none-typed ramp maneuver that is
neither internal-intersection nor turn-channel and whose begin node has a
previous edge `pe`, `SetManeuverType` assigns one of ExitRight, ExitLeft,
RampRight, RampLeft, RampStraight; when `pe` is not a highway and the
maneuver carries no exit-number sign the type is RampLeft for KeepLeft and
Left, RampStraight for KeepStraight and RampRight for every other relative
direction.  Where the begin node has no previous edge the call dereferences
null and the ramp maneuver receives no type.  On the path internal Elm St,
Ramp, `Produce` types the ramp maneuver RampStraight; `Combine` absorbs the
Start maneuver into it, so that it begins at node 0 with type none, and
`Build` returns no list. -/
theorem SetManeuverType_ramp_reads_prev_edge :
    (∀ (C : Collaborators) (P : TripPath) (m : Maneuver) (pe : Edge),
        m.type = ManeuverType.kNone → m.internal_intersection = false →
        m.turn_channel = false → m.ramp = true →
        P.GetPrevEdge m.begin_node_index 1 = some pe →
        (∃ t, SetManeuverType C P m = Except.ok { m with type := t }
          ∧ (t = ManeuverType.kExitRight ∨ t = ManeuverType.kExitLeft
              ∨ t = ManeuverType.kRampRight ∨ t = ManeuverType.kRampLeft
              ∨ t = ManeuverType.kRampStraight))
        ∧ (pe.IsHighway = false → m.HasExitNumberSign = false →
            SetManeuverType C P m = Except.ok { m with type := (
              if m.begin_relative_direction = RelativeDirection.kKeepLeft
                  ∨ m.begin_relative_direction = RelativeDirection.kLeft then
                ManeuverType.kRampLeft
              else if m.begin_relative_direction = RelativeDirection.kKeepStraight then
                ManeuverType.kRampStraight
              else ManeuverType.kRampRight) }))
    ∧ (∀ (C : Collaborators) (P : TripPath) (m : Maneuver),
        m.type = ManeuverType.kNone → m.internal_intersection = false →
        m.turn_channel = false → m.ramp = true →
        P.GetPrevEdge m.begin_node_index 1 = none →
        SetManeuverType C P m = Except.error Err.null_dereference)
    ∧ (∃ start ramp dest,
        Produce sampleCollaborators internalThenRampPath = Except.ok [start, ramp, dest]
        ∧ start.internal_intersection = true
        ∧ ramp.type = ManeuverType.kRampStraight ∧ ramp.ramp = true
        ∧ ramp.internal_intersection = false ∧ ramp.turn_channel = false
        ∧ ramp.HasExitNumberSign = false
        ∧ internalThenRampPath.GetPrevEdge 0 1 = none
        ∧ SetManeuverType sampleCollaborators internalThenRampPath
            { ramp with type := ManeuverType.kNone, begin_node_index := 0 }
          = Except.error Err.null_dereference)
    ∧ Build sampleCollaborators internalThenRampPath
        = Except.error Err.null_dereference := by
  refine ⟨?_, ?_, ⟨_, _, _, rfl, rfl, rfl, rfl, rfl, rfl, rfl, rfl, rfl⟩, rfl⟩
  · intro C P m pe hty hi htc hr hp
    rw [SetManeuverType_ramp hty hi htc hr hp]
    constructor
    · refine ⟨_, rfl, ?_⟩
      split_ifs <;> cases m.begin_relative_direction <;> simp [exit_type, ramp_type]
    · intro h1 h2
      rw [h1, h2]
      cases m.begin_relative_direction <;> simp [ramp_type]
  · intro C P m hty hi htc hr hp
    exact SetManeuverType_ramp_null hty hi htc hr hp

/-- C15 (the code at the failing input): for a none-typed maneuver that is not
internal-intersection, not turn-channel and not a ramp, `SetManeuverType`
follows the rule order Merge, RoundaboutEnter, RoundaboutExit, FerryEnter,
FerryExit, simple directional type where the begin node has a previous edge
`pe` and a current edge `ce`.  Where the begin node has no previous edge, a
roundabout maneuver on a current edge that is not a highway is typed
RoundaboutEnter, and every other maneuver dereferences null: the Merge rule
reads the previous edge when the current edge is a highway, the
RoundaboutExit rule reads it before the ferry rules and the simple
directional type are reached.  On the path internal Elm St, Ferry, `Produce`
types the ferry maneuver FerryEnter; `Combine` absorbs the Start maneuver
into it, so that it begins at node 0 with type none, and `Build` returns no
list. -/
theorem SetManeuverType_rule_order_reads_prev_edge :
    (∀ (C : Collaborators) (P : TripPath) (m : Maneuver) (pe ce : Edge),
        m.type = ManeuverType.kNone → m.internal_intersection = false →
        m.turn_channel = false → m.ramp = false →
        P.GetPrevEdge m.begin_node_index 1 = some pe →
        P.GetCurrEdge m.begin_node_index = some ce →
        SetManeuverType C P m = Except.ok { m with type := (
          if ce.IsHighway = true ∧ pe.ramp = true then ManeuverType.kMerge
          else if m.roundabout = true then ManeuverType.kRoundaboutEnter
          else if pe.roundabout = true then ManeuverType.kRoundaboutExit
          else if m.ferry = true ∨ m.rail_ferry = true then ManeuverType.kFerryEnter
          else if pe.ferry = true ∨ pe.rail_ferry = true then ManeuverType.kFerryExit
          else (SetSimpleDirectionalManeuverType C P m).type) })
    ∧ (∀ (C : Collaborators) (P : TripPath) (m : Maneuver) (ce : Edge),
        m.type = ManeuverType.kNone → m.internal_intersection = false →
        m.turn_channel = false → m.ramp = false →
        P.GetPrevEdge m.begin_node_index 1 = none →
        P.GetCurrEdge m.begin_node_index = some ce →
        (ce.IsHighway = false → m.roundabout = true →
          SetManeuverType C P m
            = Except.ok { m with type := ManeuverType.kRoundaboutEnter })
        ∧ (ce.IsHighway = true ∨ m.roundabout = false →
          SetManeuverType C P m = Except.error Err.null_dereference))
    ∧ (∀ (C : Collaborators) (P : TripPath) (m : Maneuver),
        m.type = ManeuverType.kNone → m.internal_intersection = false →
        m.turn_channel = false → m.ramp = false →
        P.GetCurrEdge m.begin_node_index = none →
        SetManeuverType C P m = Except.error Err.null_dereference)
    ∧ (∃ start ferry dest,
        Produce sampleCollaborators internalThenFerryPath = Except.ok [start, ferry, dest]
        ∧ start.internal_intersection = true
        ∧ ferry.type = ManeuverType.kFerryEnter ∧ ferry.ferry = true
        ∧ ferry.internal_intersection = false ∧ ferry.turn_channel = false
        ∧ ferry.ramp = false ∧ ferry.roundabout = false
        ∧ internalThenFerryPath.GetPrevEdge 0 1 = none
        ∧ SetManeuverType sampleCollaborators internalThenFerryPath
            { ferry with type := ManeuverType.kNone, begin_node_index := 0 }
          = Except.error Err.null_dereference)
    ∧ Build sampleCollaborators internalThenFerryPath
        = Except.error Err.null_dereference := by
  refine ⟨?_, ?_, ?_,
    ⟨_, _, _, rfl, rfl, rfl, rfl, rfl, rfl, rfl, rfl, rfl, rfl⟩, rfl⟩
  · intro C P m pe ce hty hi htc hr hp hc
    rw [SetManeuverType_not_ramp hty hi htc hr hp hc]
    simp only [Bool.and_eq_true, Bool.or_eq_true]
  · intro C P m ce hty hi htc hr hp hc
    rw [SetManeuverType_not_ramp_null hty hi htc hr hp hc]
    constructor
    · intro h1 h3
      rw [if_pos ⟨h1, h3⟩]
    · intro h
      rw [if_neg]
      rintro ⟨h1, h3⟩
      rcases h with h | h
      · rw [h1] at h; exact Bool.false_ne_true h
      · rw [h3] at h; exact Bool.false_ne_true h.symm
  · intro C P m hty hi htc hr hc
    exact SetManeuverType_not_ramp_no_curr hty hi htc hr hc

end Odin

namespace Baldr
namespace DateTime

/-- An integer in the `int32_t` range is stored unchanged. -/
theorem int32_of_range {x : Int} (h1 : INT32_MIN ≤ x) (h2 : x ≤ INT32_MAX) : int32 x = x := by
  unfold INT32_MIN at h1
  unfold INT32_MAX at h2
  unfold int32
  omega

/-- The result of `normalize_seconds_of_week` on an `int32_t` input is exact:
neither the sum nor the difference leaves the `int32_t` range. -/
theorem normalize_seconds_of_week_exact {secs : Int} (h1 : INT32_MIN ≤ secs)
    (h2 : secs ≤ INT32_MAX) :
    normalize_seconds_of_week secs
      = if secs < 0 then secs + 604800 else if secs > 604800 then secs - 604800 else secs := by
  unfold INT32_MIN at h1
  unfold INT32_MAX at h2
  unfold normalize_seconds_of_week int32 Midgard.kSecondsPerWeek
  split_ifs <;> omega

/-- C18: `normalize_seconds_of_week` does not bring every `int32_t` input into
`[0, kSecondsPerWeek]`.  It returns -1 for -604801 and 604801 for 1209601.
For every `int32_t` input the result is congruent to the input modulo
`kSecondsPerWeek` (604800), and it lies in `[0, kSecondsPerWeek]` exactly when
the input lies in `[-kSecondsPerWeek, 2 * kSecondsPerWeek]`. -/
theorem normalize_seconds_of_week_range :
    normalize_seconds_of_week (-604801) = -1
    ∧ normalize_seconds_of_week 1209601 = 604801
    ∧ Midgard.kSecondsPerWeek = 604800
    ∧ ∀ secs : Int, INT32_MIN ≤ secs → secs ≤ INT32_MAX →
        normalize_seconds_of_week secs % Midgard.kSecondsPerWeek
          = secs % Midgard.kSecondsPerWeek
        ∧ ((0 ≤ normalize_seconds_of_week secs
              ∧ normalize_seconds_of_week secs ≤ Midgard.kSecondsPerWeek)
            ↔ (-Midgard.kSecondsPerWeek ≤ secs ∧ secs ≤ 2 * Midgard.kSecondsPerWeek)) := by
  refine ⟨by decide, by decide, rfl, fun secs h1 h2 => ?_⟩
  rw [normalize_seconds_of_week_exact h1 h2]
  unfold Midgard.kSecondsPerWeek
  split_ifs <;> omega
/-- `std_find` returns a position in the vector or its length. -/
theorem std_find_le (tzs : List TimezoneInfo) (comp : TimezoneInfo) :
    std_find tzs comp ≤ tzs.length := by
  induction tzs with
  | nil => simp [std_find]
  | cons tz rest ih =>
      simp only [std_find, List.length_cons]
      split_ifs <;> omega

/-- `std_find` returns the length of the vector exactly when no element has
the id sought. -/
theorem std_find_eq_length (tzs : List TimezoneInfo) (comp : TimezoneInfo) :
    std_find tzs comp = tzs.length ↔ ∀ tz ∈ tzs, tz.id_ ≠ comp.id_ := by
  induction tzs with
  | nil => simp [std_find]
  | cons tz rest ih =>
      simp only [std_find, List.length_cons, List.mem_cons, forall_eq_or_imp]
      by_cases h : tz.eq comp = true
      · have h' : tz.id_ = comp.id_ := by simpa [TimezoneInfo.eq] using h
        simp [h, h']
      · have h' : tz.id_ ≠ comp.id_ := by simpa [TimezoneInfo.eq] using h
        simp [h, h', ih]

/-- Below its length, `std_find` returns the position of the first element
with the id sought. -/
theorem std_find_first (tzs : List TimezoneInfo) (comp : TimezoneInfo) (k : Nat) :
    (std_find tzs comp = k ∧ k < tzs.length)
      ↔ (∃ tz, tzs[k]? = some tz ∧ tz.id_ = comp.id_)
          ∧ ∀ j < k, ∀ tz, tzs[j]? = some tz → tz.id_ ≠ comp.id_ := by
  induction tzs generalizing k with
  | nil => simp [std_find]
  | cons tz rest ih =>
      simp only [std_find, List.length_cons]
      by_cases h : tz.eq comp = true
      · have h' : tz.id_ = comp.id_ := by simpa [TimezoneInfo.eq] using h
        rw [if_pos h]
        constructor
        · rintro ⟨rfl, -⟩
          exact ⟨⟨tz, List.getElem?_cons_zero, h'⟩, fun j hj => absurd hj (Nat.not_lt_zero j)⟩
        · rintro ⟨-, hall⟩
          rcases Nat.eq_zero_or_pos k with hk | hk
          · exact ⟨hk.symm, by omega⟩
          · exact absurd h' (hall 0 hk tz List.getElem?_cons_zero)
      · have h' : tz.id_ ≠ comp.id_ := by simpa [TimezoneInfo.eq] using h
        rw [if_neg h]
        cases k with
        | zero =>
            constructor
            · rintro ⟨h0, -⟩; omega
            · rintro ⟨⟨tz0, h0, h1⟩, -⟩
              simp only [List.getElem?_cons_zero, Option.some.injEq] at h0
              exact absurd (h0 ▸ h1) h'
        | succ k =>
            have := ih k
            simp only [Nat.add_right_cancel_iff, Nat.add_lt_add_iff_right,
              List.getElem?_cons_succ]
            rw [this]
            constructor
            · rintro ⟨hex, hall⟩
              refine ⟨hex, fun j hj tz0 h0 => ?_⟩
              cases j with
              | zero =>
                  simp only [List.getElem?_cons_zero, Option.some.injEq] at h0
                  exact h0 ▸ h'
              | succ j =>
                  simp only [List.getElem?_cons_succ] at h0
                  exact hall j (by omega) tz0 h0
            · rintro ⟨hex, hall⟩
              exact ⟨hex, fun j hj tz0 h0 => hall (j + 1) (by omega) tz0 (by simpa using h0)⟩

/-- C20: the index round trip of `TimezoneDB`.  `to_index id` is 0 if and only
if no stored timezone has the id; it is `k + 1` if and only if position `k`
holds the first stored timezone with the id; and for every id present in the
database `from_index (to_index id)` returns a timezone whose `id_` is that
id. -/
theorem to_index_from_index (db : TimezoneDB) (id : String) :
    (db.to_index id = 0 ↔ ∀ tz ∈ db.timezones_, tz.id_ ≠ id)
    ∧ (∀ k, db.to_index id = k + 1 ↔
        ((∃ tz, db.timezones_[k]? = some tz ∧ tz.id_ = id)
          ∧ ∀ j < k, ∀ tz, db.timezones_[j]? = some tz → tz.id_ ≠ id))
    ∧ ((∃ tz ∈ db.timezones_, tz.id_ = id) →
        ∃ tz, db.from_index (db.to_index id) = Except.ok tz ∧ tz.id_ = id) := by
  have hle := std_find_le db.timezones_ { id_ := id }
  have hlen := std_find_eq_length db.timezones_ { id_ := id }
  have hfirst := std_find_first db.timezones_ { id_ := id }
  have hto : db.to_index id
      = if std_find db.timezones_ { id_ := id } = db.timezones_.length then 0
        else std_find db.timezones_ { id_ := id } + 1 := rfl
  dsimp only at hlen hfirst
  generalize std_find db.timezones_ { id_ := id } = it at hle hlen hfirst hto
  have h2 : ∀ k, db.to_index id = k + 1 ↔
      ((∃ tz, db.timezones_[k]? = some tz ∧ tz.id_ = id)
        ∧ ∀ j < k, ∀ tz, db.timezones_[j]? = some tz → tz.id_ ≠ id) := by
    intro k
    rw [← hfirst k, hto]
    split_ifs with h <;> exact ⟨fun h' => by first | exact h'.elim | omega, fun h' => by omega⟩
  refine ⟨?_, h2, ?_⟩
  · rw [← hlen, hto]
    split_ifs with h <;> exact ⟨fun h' => by first | exact h'.elim | omega, fun h' => by omega⟩
  · rintro ⟨tz0, hmem, hid⟩
    have hne : it ≠ db.timezones_.length := fun h => (hlen.1 h) tz0 hmem hid
    have hk : db.to_index id = it + 1 := by rw [hto, if_neg hne]
    obtain ⟨⟨tz, hget, htz⟩, -⟩ := (h2 _).1 hk
    refine ⟨tz, ?_, htz⟩
    rw [hk]
    unfold TimezoneDB.from_index
    rw [if_neg (by omega)]
    simp only [Nat.add_sub_cancel, hget, pure, Except.pure]

/-- The round trip on the sample database: both entries of the duplicated id
map to index 2, the first position holding it. -/
theorem sampleTimezoneDB_round_trip :
    sampleTimezoneDB.to_index "America/Chicago" = 2
    ∧ sampleTimezoneDB.from_index 2
        = Except.ok { id_ := "America/Chicago", gmt_offset_secs_ := -21600 }
    ∧ sampleTimezoneDB.to_index "Europe/Paris" = 0 := by decide
/-- A digit is not white space. -/
theorem isspace_of_isdigit {c : Char} (h : isdigit c = true) : isspace c = false := by
  simp only [isdigit, Bool.and_eq_true, decide_eq_true_eq] at h
  simp only [isspace, Bool.or_eq_false_iff, decide_eq_false_iff_not, Bool.and_eq_false_imp,
    decide_eq_true_eq]
  omega

/-- A digit is none of the characters `:`, `-`, `+`. -/
theorem ne_of_isdigit {c : Char} (h : isdigit c = true) : c ≠ ':' ∧ c ≠ '-' ∧ c ≠ '+' := by
  refine ⟨?_, ?_, ?_⟩ <;> (rintro rfl; revert h; decide)

/-- Unfolding `written_in_decimal`. -/
theorem written_in_decimal_iff {ds : List Char} {n : Nat} :
    written_in_decimal ds n = true
      ↔ ds ≠ [] ∧ (∀ c ∈ ds, isdigit c = true) ∧ decimal_value ds = n := by
  simp [written_in_decimal, List.isEmpty_iff, and_assoc]

/-- `std::stoi` on a digit string whose value fits an `int`. -/
theorem stoi_decimal {ds : List Char} {n : Nat} (h : written_in_decimal ds n = true)
    (hn : (n : Int) ≤ INT32_MAX) : stoi ds = Except.ok (n : Int) := by
  obtain ⟨hne, hall, hval⟩ := written_in_decimal_iff.1 h
  obtain ⟨c, tl, rfl⟩ := List.exists_cons_of_ne_nil hne
  have hc := hall c (List.mem_cons_self _ _)
  have hsp := isspace_of_isdigit hc
  obtain ⟨-, hm, hp⟩ := ne_of_isdigit hc
  have htw : List.takeWhile isdigit (c :: tl) = c :: tl :=
    List.takeWhile_eq_self_iff.2 hall
  have h1 : (n : Int) ≥ INT32_MIN := by unfold INT32_MIN; omega
  simp only [stoi, List.dropWhile_cons, hsp, Bool.false_eq_true, if_false, List.head?_cons,
    Option.some.injEq, hm, hp, decide_False, or_self, htw, List.isEmpty_cons, hval,
    Int.not_lt.2 h1, Int.not_lt.2 hn, false_or, pure, Except.pure]

/-- `std::getline` on a digit string followed by a colon: the item is the
digit string and the stream goes on after the colon. -/
theorem getline_colon {ds : List Char} (h : ∀ c ∈ ds, isdigit c = true) (rest : List Char) :
    getline ':' (ds ++ ':' :: rest) = some (ds, rest) := by
  have hp : ∀ c ∈ ds, (c != ':') = true := fun c hc => by
    simpa using (ne_of_isdigit (h c hc)).1
  have h1 : List.takeWhile (fun c => c != ':') (ds ++ ':' :: rest) = ds := by
    rw [List.takeWhile_append_of_pos hp]; simp
  have h2 : List.dropWhile (fun c => c != ':') (ds ++ ':' :: rest) = ':' :: rest := by
    rw [List.dropWhile_append_of_pos hp]; simp
  cases hds : ds ++ ':' :: rest with
  | nil => simp at hds
  | cons a l =>
      rw [hds] at h1 h2
      simp only [getline, h1, h2, List.drop_succ_cons, List.drop_zero]

/-- `std::getline` on a final digit string: the item is the digit string and
nothing is left to read. -/
theorem getline_end {ds : List Char} (hne : ds ≠ []) (h : ∀ c ∈ ds, isdigit c = true) :
    getline ':' ds = some (ds, []) := by
  have hp : ∀ c ∈ ds, (c != ':') = true := fun c hc => by
    simpa using (ne_of_isdigit (h c hc)).1
  have h1 : List.takeWhile (fun c => c != ':') ds = ds := List.takeWhile_eq_self_iff.2 hp
  have h2 : List.dropWhile (fun c => c != ':') ds = [] := List.dropWhile_eq_nil_iff.2 hp
  obtain ⟨a, l, rfl⟩ := List.exists_cons_of_ne_nil hne
  simp only [getline, h1, h2, List.drop_nil]

/-- Every successful `std::getline` consumes at least one character. -/
theorem getline_length {delim : Char} {ss item rest : List Char}
    (h : getline delim ss = some (item, rest)) : rest.length < ss.length := by
  cases ss with
  | nil => simp [getline] at h
  | cons a l =>
      simp only [getline, Option.some.injEq, Prod.mk.injEq] at h
      rw [← h.2, List.length_drop]
      have := (List.dropWhile_suffix (fun c => c != delim) (l := a :: l)).length_le
      simp only [List.length_cons] at this ⊢
      omega

/-- The loop of `timestring_to_seconds` never runs out of fuel when started
with more fuel than unread characters, as `timestring_to_seconds` does. -/
theorem timestring_loop_fuel (negate : Bool) (fuel : Nat) :
    ∀ (ss : List Char) (secs multiplier : Int), ss.length < fuel →
      timestring_loop negate fuel ss secs multiplier ≠ Except.error Err.fuel_exhausted := by
  induction fuel with
  | zero => intro ss _ _ h; omega
  | succ fuel ih =>
      intro ss secs multiplier h
      cases hg : getline ':' ss with
      | none => simp [timestring_loop, hg, pure, Except.pure]
      | some p =>
          obtain ⟨item, rest⟩ := p
          have hl := getline_length hg
          rw [timestring_loop, hg]
          dsimp only
          cases hs : stoi item with
          | error e =>
              have he : e ≠ Err.fuel_exhausted := by
                rintro rfl
                unfold stoi at hs
                dsimp only at hs
                split_ifs at hs <;> cases hs
              simp only [bind, Except.bind, ne_eq, Except.error.injEq]
              exact he
          | ok v =>
              simp only [bind, Except.bind]
              exact ih rest _ _ (by omega)

/-- Adding a product to the running seconds stays exact while the sum fits
an `int32_t`. -/
theorem int32_add_exact {a p : Int} (h0 : 0 ≤ a) (h1 : 0 ≤ p)
    (h2 : a + p ≤ INT32_MAX) : int32 (a + int32 p) = a + p := by
  unfold INT32_MAX at h2
  rw [int32_of_range (x := p) (by unfold INT32_MIN; omega) (by unfold INT32_MAX; omega)]
  exact int32_of_range (by unfold INT32_MIN; omega) (by unfold INT32_MAX; omega)

/-- Subtracting a product from the running seconds stays exact while the
difference fits an `int32_t`. -/
theorem int32_sub_exact {a p : Int} (h0 : a ≤ 0) (h1 : 0 ≤ p)
    (h2 : p - a ≤ INT32_MAX) : int32 (a - int32 p) = a - p := by
  unfold INT32_MAX at h2
  rw [int32_of_range (x := p) (by unfold INT32_MIN; omega) (by unfold INT32_MAX; omega)]
  exact int32_of_range (by unfold INT32_MIN; omega) (by unfold INT32_MAX; omega)

/-- One round of the loop on an item that is a digit string followed by a
colon. -/
theorem timestring_loop_item (negate : Bool) (fuel : Nat) {ds : List Char} {n : Nat}
    (rest : List Char) (secs multiplier : Int) (hd : written_in_decimal ds n = true)
    (hn : (n : Int) ≤ INT32_MAX) :
    timestring_loop negate (fuel + 1) (ds ++ ':' :: rest) secs multiplier
      = timestring_loop negate fuel rest
          (if negate then int32 (secs - int32 (n * multiplier))
            else int32 (secs + int32 (n * multiplier)))
          (if multiplier = Midgard.kSecondsPerHour then Midgard.kSecondsPerMinute else 1) := by
  rw [timestring_loop, getline_colon (written_in_decimal_iff.1 hd).2.1]
  simp only [stoi_decimal hd hn, bind, Except.bind]

/-- The last round of the loop, on an item that is a digit string at the end
of the stream. -/
theorem timestring_loop_last (negate : Bool) (fuel : Nat) {ds : List Char} {n : Nat}
    (secs multiplier : Int) (hd : written_in_decimal ds n = true)
    (hn : (n : Int) ≤ INT32_MAX) :
    timestring_loop negate (fuel + 2) ds secs multiplier
      = Except.ok (if negate then int32 (secs - int32 (n * multiplier))
            else int32 (secs + int32 (n * multiplier))) := by
  obtain ⟨hne, hall, -⟩ := written_in_decimal_iff.1 hd
  rw [timestring_loop, getline_end hne hall]
  simp only [stoi_decimal hd hn, bind, Except.bind]
  rw [timestring_loop]
  simp only [getline, pure, Except.pure]

/-- The loop on `h:m:s`, started as `timestring_to_seconds` starts it. -/
theorem timestring_loop_hms (negate : Bool) (fuel : Nat) {hs ms ss : List Char} {h m s : Nat}
    (Hh : written_in_decimal hs h = true) (Hm : written_in_decimal ms m = true)
    (Hs : written_in_decimal ss s = true)
    (hb : 3600 * (h : Int) + 60 * m + s ≤ INT32_MAX) :
    timestring_loop negate (fuel + 4) (hs ++ ':' :: (ms ++ ':' :: ss)) 0
        Midgard.kSecondsPerHour
      = Except.ok (if negate then -(3600 * (h : Int) + 60 * m + s)
          else 3600 * (h : Int) + 60 * m + s) := by
  have hb' := hb
  unfold INT32_MAX at hb'
  have hh : (h : Int) ≤ INT32_MAX := by unfold INT32_MAX; omega
  have hm : (m : Int) ≤ INT32_MAX := by unfold INT32_MAX; omega
  have hs : (s : Int) ≤ INT32_MAX := by unfold INT32_MAX; omega
  rw [timestring_loop_item negate (fuel + 3) _ _ _ Hh hh,
    timestring_loop_item negate (fuel + 2) _ _ _ Hm hm,
    timestring_loop_last negate fuel _ _ Hs hs]
  have e1 : (if Midgard.kSecondsPerHour = Midgard.kSecondsPerHour
      then Midgard.kSecondsPerMinute else 1) = (60 : Int) := rfl
  have e2 : (if (60 : Int) = Midgard.kSecondsPerHour
      then Midgard.kSecondsPerMinute else 1) = (1 : Int) := rfl
  have e3 : Midgard.kSecondsPerHour = (3600 : Int) := rfl
  rw [e1, e2, e3]
  cases negate
  · simp only [Bool.false_eq_true, if_false]
    rw [int32_add_exact (a := 0) (p := ↑h * 3600) (le_refl 0) (by omega)
        (by unfold INT32_MAX; omega),
      int32_add_exact (a := 0 + ↑h * 3600) (p := ↑m * 60) (by omega) (by omega)
        (by unfold INT32_MAX; omega),
      int32_add_exact (a := 0 + ↑h * 3600 + ↑m * 60) (p := ↑s * 1) (by omega) (by omega)
        (by unfold INT32_MAX; omega)]
    congr 1; omega
  · simp only [if_true]
    rw [int32_sub_exact (a := 0) (p := ↑h * 3600) (le_refl 0) (by omega)
        (by unfold INT32_MAX; omega),
      int32_sub_exact (a := 0 - ↑h * 3600) (p := ↑m * 60) (by omega) (by omega)
        (by unfold INT32_MAX; omega),
      int32_sub_exact (a := 0 - ↑h * 3600 - ↑m * 60) (p := ↑s * 1) (by omega) (by omega)
        (by unfold INT32_MAX; omega)]
    congr 1; omega

/-- The loop on `h:m`, started as `timestring_to_seconds` starts it. -/
theorem timestring_loop_hm (negate : Bool) (fuel : Nat) {hs ms : List Char} {h m : Nat}
    (Hh : written_in_decimal hs h = true) (Hm : written_in_decimal ms m = true)
    (hb : 3600 * (h : Int) + 60 * m ≤ INT32_MAX) :
    timestring_loop negate (fuel + 3) (hs ++ ':' :: ms) 0 Midgard.kSecondsPerHour
      = Except.ok (if negate then -(3600 * (h : Int) + 60 * m)
          else 3600 * (h : Int) + 60 * m) := by
  have hb' := hb
  unfold INT32_MAX at hb'
  have hh : (h : Int) ≤ INT32_MAX := by unfold INT32_MAX; omega
  have hm : (m : Int) ≤ INT32_MAX := by unfold INT32_MAX; omega
  rw [timestring_loop_item negate (fuel + 2) _ _ _ Hh hh,
    timestring_loop_last negate fuel _ _ Hm hm]
  have e1 : (if Midgard.kSecondsPerHour = Midgard.kSecondsPerHour
      then Midgard.kSecondsPerMinute else 1) = (60 : Int) := rfl
  have e3 : Midgard.kSecondsPerHour = (3600 : Int) := rfl
  rw [e1, e3]
  cases negate
  · simp only [Bool.false_eq_true, if_false]
    rw [int32_add_exact (a := 0) (p := ↑h * 3600) (le_refl 0) (by omega)
        (by unfold INT32_MAX; omega),
      int32_add_exact (a := 0 + ↑h * 3600) (p := ↑m * 60) (by omega) (by omega)
        (by unfold INT32_MAX; omega)]
    congr 1; omega
  · simp only [if_true]
    rw [int32_sub_exact (a := 0) (p := ↑h * 3600) (le_refl 0) (by omega)
        (by unfold INT32_MAX; omega),
      int32_sub_exact (a := 0 - ↑h * 3600) (p := ↑m * 60) (by omega) (by omega)
        (by unfold INT32_MAX; omega)]
    congr 1; omega

/-- The decimal digit characters produced by `Nat.digitChar`. -/
theorem digitChar_decimal {k : Nat} (hk : k < 10) :
    isdigit (Nat.digitChar k) = true ∧ (Nat.digitChar k).toNat - 48 = k := by
  interval_cases k <;> exact ⟨rfl, rfl⟩

/-- Appending one digit to a digit string. -/
theorem decimal_value_append (pre : List Char) (d : Char) :
    decimal_value (pre ++ [d]) = 10 * decimal_value pre + (d.toNat - 48) := by
  simp [decimal_value, List.foldl_append]

/-- The digits `Nat.toDigitsCore` puts in front of its accumulator write the
number in decimal. -/
theorem toDigitsCore_decimal (fuel : Nat) :
    ∀ (n : Nat) (acc : List Char), n < fuel →
      ∃ pre, Nat.toDigitsCore 10 fuel n acc = pre ++ acc
        ∧ written_in_decimal pre n = true := by
  induction fuel with
  | zero => intro n _ h; omega
  | succ fuel ih =>
      intro n acc hn
      obtain ⟨hd, hv⟩ := digitChar_decimal (Nat.mod_lt n (by decide : 0 < 10))
      rw [Nat.toDigitsCore]
      split_ifs with h0
      · refine ⟨[Nat.digitChar (n % 10)], rfl, written_in_decimal_iff.2 ⟨by simp, ?_, ?_⟩⟩
        · simpa using hd
        · simp only [decimal_value, List.foldl_cons, List.foldl_nil, hv]
          omega
      · obtain ⟨pre, hpre, hw⟩ := ih (n / 10) (Nat.digitChar (n % 10) :: acc) (by omega)
        obtain ⟨hne, hall, hval⟩ := written_in_decimal_iff.1 hw
        refine ⟨pre ++ [Nat.digitChar (n % 10)], by simp [hpre],
          written_in_decimal_iff.2 ⟨by simp, ?_, ?_⟩⟩
        · intro c hc
          rcases List.mem_append.1 hc with hc | hc
          · exact hall c hc
          · rw [List.mem_singleton.1 hc]; exact hd
        · rw [decimal_value_append, hval, hv]
          omega

/-- The decimal representation `Nat.repr n` writes `n` in decimal. -/
theorem written_in_decimal_repr (n : Nat) : written_in_decimal (Nat.repr n).data n = true := by
  obtain ⟨pre, hpre, hw⟩ := toDigitsCore_decimal (n + 1) n [] (by omega)
  have : (Nat.repr n).data = pre := by
    simp only [Nat.repr, Nat.toDigits, List.asString, hpre, List.append_nil]
  rw [this]
  exact hw

/-- A digit string is not empty and does not begin with a sign. -/
theorem head_of_written_in_decimal {ds : List Char} {n : Nat}
    (h : written_in_decimal ds n = true) :
    ∃ c tl, ds = c :: tl ∧ c ≠ '-' ∧ c ≠ '+' ∧ 1 ≤ ds.length := by
  obtain ⟨hne, hall, -⟩ := written_in_decimal_iff.1 h
  obtain ⟨c, tl, rfl⟩ := List.exists_cons_of_ne_nil hne
  obtain ⟨-, hm, hp⟩ := ne_of_isdigit (hall c (List.mem_cons_self _ _))
  exact ⟨c, tl, rfl, hm, hp, by simp⟩

/-- C19: `timestring_to_seconds` on time strings.  For all natural numbers
`h`, `m`, `s` written in decimal as the digit strings `hs`, `ms`, `ss`
(leading zeros allowed) with `3600 * h + 60 * m + s` at most 2147483647, the
string `h:m:s` yields `3600 * h + 60 * m + s`, the same string prefixed with
`+` yields the same value, prefixed with `-` it yields the negation, and the
string `h:m` yields `3600 * h + 60 * m`.  By `written_in_decimal_repr` the
digit strings include the usual decimal representation of each number. -/
theorem timestring_to_seconds_hms (h m s : Nat) (hs ms ss : List Char)
    (Hh : written_in_decimal hs h = true) (Hm : written_in_decimal ms m = true)
    (Hs : written_in_decimal ss s = true) (hb : 3600 * h + 60 * m + s ≤ 2147483647) :
    timestring_to_seconds (String.mk (hs ++ ':' :: (ms ++ ':' :: ss)))
        = Except.ok (3600 * (h : Int) + 60 * m + s)
    ∧ timestring_to_seconds (String.mk ('+' :: (hs ++ ':' :: (ms ++ ':' :: ss))))
        = Except.ok (3600 * (h : Int) + 60 * m + s)
    ∧ timestring_to_seconds (String.mk ('-' :: (hs ++ ':' :: (ms ++ ':' :: ss))))
        = Except.ok (-(3600 * (h : Int) + 60 * m + s))
    ∧ timestring_to_seconds (String.mk (hs ++ ':' :: ms))
        = Except.ok (3600 * (h : Int) + 60 * m) := by
  have hb3 : 3600 * (h : Int) + 60 * m + s ≤ INT32_MAX := by unfold INT32_MAX; omega
  have hb2 : 3600 * (h : Int) + 60 * m ≤ INT32_MAX := by unfold INT32_MAX; omega
  obtain ⟨c, tl, rfl, hm, hp, -⟩ := head_of_written_in_decimal Hh
  obtain ⟨-, -, -, -, -, hlm⟩ := head_of_written_in_decimal Hm
  obtain ⟨-, -, -, -, -, hls⟩ := head_of_written_in_decimal Hs
  have hlen3 : ∃ k, (c :: tl ++ ':' :: (ms ++ ':' :: ss)).length + 1 = k + 4 :=
    ⟨(c :: tl ++ ':' :: (ms ++ ':' :: ss)).length - 3, by
      simp only [List.length_append, List.length_cons]; omega⟩
  have hlen2 : ∃ k, (c :: tl ++ ':' :: ms).length + 1 = k + 3 :=
    ⟨(c :: tl ++ ':' :: ms).length - 2, by
      simp only [List.length_append, List.length_cons]; omega⟩
  obtain ⟨k3, hk3⟩ := hlen3
  obtain ⟨k2, hk2⟩ := hlen2
  have e3 := timestring_loop_hms false k3 Hh Hm Hs hb3
  have e3n := timestring_loop_hms true k3 Hh Hm Hs hb3
  have e2 := timestring_loop_hm false k2 Hh Hm hb2
  simp only [Bool.false_eq_true, if_false, if_true] at e3 e3n e2
  refine ⟨?_, ?_, ?_, ?_⟩
  · simp only [timestring_to_seconds, List.cons_append, List.head?_cons, Option.some.injEq, hm,
      hp, decide_False, or_self, if_false, List.drop_zero]
    rw [← List.cons_append, hk3, e3]
  · simp only [timestring_to_seconds, List.head?_cons, Option.some.injEq, or_true, if_true,
      List.drop_succ_cons, List.drop_zero]
    rw [hk3]
    exact e3
  · simp only [timestring_to_seconds, List.head?_cons, Option.some.injEq, true_or, if_true,
      List.drop_succ_cons, List.drop_zero, decide_True]
    rw [hk3]
    exact e3n
  · simp only [timestring_to_seconds, List.cons_append, List.head?_cons, Option.some.injEq, hm,
      hp, decide_False, or_self, if_false, List.drop_zero]
    rw [← List.cons_append, hk2, e2]

/-- C19 (witness): one hour, thirty minutes and fifteen seconds, written with
a leading zero. -/
theorem timestring_to_seconds_hms_witness :
    timestring_to_seconds "01:30:15" = Except.ok 5415
    ∧ timestring_to_seconds "+01:30:15" = Except.ok 5415
    ∧ timestring_to_seconds "-01:30:15" = Except.ok (-5415)
    ∧ timestring_to_seconds "01:30" = Except.ok 5400 :=
  timestring_to_seconds_hms 1 30 15 "01".data "30".data "15".data rfl rfl rfl (by decide)

/-- C19 (counterexample): the hour 2147483648 is written in decimal, but
`std::stoi` throws `std::out_of_range` on it, so `2147483648:0:0` yields no
value; the statement for all natural numbers fails. -/
theorem timestring_to_seconds_out_of_range :
    written_in_decimal "2147483648".data 2147483648 = true
    ∧ written_in_decimal "0".data 0 = true
    ∧ timestring_to_seconds "2147483648:0:0" = Except.error Err.out_of_range
    ∧ ¬ (∀ (h m s : Nat) (hs ms ss : List Char), written_in_decimal hs h = true →
          written_in_decimal ms m = true → written_in_decimal ss s = true →
          timestring_to_seconds (String.mk (hs ++ ':' :: (ms ++ ':' :: ss)))
            = Except.ok (3600 * (h : Int) + 60 * m + s)) :=
  ⟨rfl, rfl, rfl, fun hall =>
    absurd (hall 2147483648 0 0 "2147483648".data "0".data "0".data rfl rfl rfl)
      (by decide)⟩

/-- C39: `is_restricted` returns false for every combination of its
arguments, and `seconds_to_date` leaves `iso_origin` and `iso_dest` as they
were passed. -/
theorem is_restricted_false_seconds_to_date_noop :
    (∀ (type : Bool) (begin_hrs begin_mins end_hrs end_mins dow begin_week begin_month
        begin_day_dow end_week end_month end_day_dow current_time : Nat)
        (time_zone : TimezoneInfo),
      is_restricted type begin_hrs begin_mins end_hrs end_mins dow begin_week begin_month
        begin_day_dow end_week end_month end_day_dow current_time time_zone = false)
    ∧ (∀ (is_depart_at : Bool) (origin_seconds dest_seconds : Nat)
        (origin_tz dest_tz : TimezoneInfo) (iso_origin iso_dest : String),
      seconds_to_date is_depart_at origin_seconds dest_seconds origin_tz dest_tz
        iso_origin iso_dest = (iso_origin, iso_dest)) :=
  ⟨fun _ _ _ _ _ _ _ _ _ _ _ _ _ _ => rfl, fun _ _ _ _ _ _ _ => rfl⟩

end DateTime
end Baldr

namespace Sif

/-- A valid range applied to any value returns a value within the range. -/
theorem ranged_default_t.apply_contains {α : Type} [LinearOrder α]
    [DecidableRel (fun a b : α => a < b)] (r : ranged_default_t α) (hv : r.valid)
    (value : α) : r.contains (r.apply value) := by
  unfold ranged_default_t.apply ranged_default_t.contains
  split_ifs with h
  · exact hv
  · push_neg at h
    exact ⟨h.1, h.2⟩

/-- Every range constant satisfies `min <= default <= max`. -/
theorem range_constants_valid_holds : range_constants_valid := by
  unfold range_constants_valid ranged_default_t.valid
  simp only [kMaxDistanceWheelchairRange, kMaxDistanceFootRange, kSpeedWheelchairRange,
    kSpeedFootRange, kStepPenaltyWheelchairRange, kStepPenaltyFootRange,
    kMaxGradeWheelchairRange, kMaxGradeFootRange, kMaxHikingDifficultyRange, kModeFactorRange,
    kManeuverPenaltyRange, kGatePenaltyRange, kWalkwayFactorRange, kSideWalkFactorRange,
    kAlleyFactorRange, kDrivewayFactorRange, kFerryCostRange, kCountryCrossingCostRange,
    kCountryCrossingPenaltyRange, kTransitStartEndMaxDistanceRange,
    kTransitTransferMaxDistanceRange, kUseFerryRange, kMaxDistanceFoot, kMaxDistanceWheelchair,
    kDefaultSpeedFoot, kDefaultSpeedWheelchair, kDefaultStepPenaltyFoot,
    kDefaultStepPenaltyWheelchair, kDefaultMaxGradeFoot, kDefaultMaxGradeWheelchair,
    kDefaultMaxHikingDifficulty, kModeFactor, kDefaultManeuverPenalty, kDefaultGatePenalty,
    kDefaultWalkwayFactor, kDefaultSideWalkFactor, kDefaultAlleyFactor, kDefaultDrivewayFactor,
    kDefaultFerryCost, kDefaultCountryCrossingCost, kDefaultCountryCrossingPenalty,
    kDefaultUseFerry, kTransitStartEndMaxDistance, kTransitTransferMaxDistance,
    kMinPedestrianSpeed, kMaxPedestrianSpeed, kMaxSeconds, kMinFactor, kMaxFactor, kSecPerHour]
  norm_num

/-- The options `ParsePedestrianCostOptions` stores lie within their ranges. -/
theorem ParsePedestrianCostOptions_contains (json : Option PedestrianJson) :
    options_within_ranges (ParsePedestrianCostOptions json) := by
  obtain ⟨h1, h2, h3, h4, h5, h6, h7, h8, h9, h10, h11, h12, h13, h14, h15, h16, h17, h18, h19,
    h20, h21, h22⟩ := range_constants_valid_holds
  cases json with
  | none =>
      have e : ∀ {α : Type} [LinearOrder α] (r : ranged_default_t α), r.valid →
          r.contains r.def_ := fun r hv => hv
      exact ⟨e _ h11, e _ h12, e _ h18, e _ h19, e _ h17, e _ h22,
        by rw [if_neg (by decide)]; exact ⟨e _ h2, e _ h4, e _ h6, e _ h8⟩,
        e _ h9, e _ h10, e _ h13, e _ h14, e _ h15, e _ h16, e _ h20, e _ h21⟩
  | some j =>
      unfold options_within_ranges ParsePedestrianCostOptions
      dsimp only
      refine ⟨ranged_default_t.apply_contains _ h11 _, ranged_default_t.apply_contains _ h12 _,
        ranged_default_t.apply_contains _ h18 _, ranged_default_t.apply_contains _ h19 _,
        ranged_default_t.apply_contains _ h17 _, ranged_default_t.apply_contains _ h22 _, ?_,
        ranged_default_t.apply_contains _ h9 _, ranged_default_t.apply_contains _ h10 _,
        ranged_default_t.apply_contains _ h13 _, ranged_default_t.apply_contains _ h14 _,
        ranged_default_t.apply_contains _ h15 _, ranged_default_t.apply_contains _ h16 _,
        ranged_default_t.apply_contains _ h20 _, ranged_default_t.apply_contains _ h21 _⟩
      by_cases hw : j.type.getD "foot" = "wheelchair"
      · simp only [hw, decide_True, if_true]
        exact ⟨ranged_default_t.apply_contains _ h1 _, ranged_default_t.apply_contains _ h3 _,
          ranged_default_t.apply_contains _ h5 _, ranged_default_t.apply_contains _ h7 _⟩
      · simp only [hw, decide_False, if_false, Bool.false_eq_true]
        exact ⟨ranged_default_t.apply_contains _ h2 _, ranged_default_t.apply_contains _ h4 _,
          ranged_default_t.apply_contains _ h6 _, ranged_default_t.apply_contains _ h8 _⟩

/-- C22: for every content of the pedestrian costing options of the request
(any value for any option, inside or outside its range, or no options at
all), every option stored by `ParsePedestrianCostOptions` lies within
`[min, max]` of its range, and so does the field of the `PedestrianCost` built
from the options; every range constant satisfies `min <= default <= max`,
which is what makes the default an admissible replacement. -/
theorem ParsePedestrianCostOptions_within_range (json : Option PedestrianJson) :
    range_constants_valid
    ∧ options_within_ranges (ParsePedestrianCostOptions json)
    ∧ cost_within_ranges (PedestrianCost.ctor (ParsePedestrianCostOptions json)) := by
  refine ⟨range_constants_valid_holds, ParsePedestrianCostOptions_contains json, ?_⟩
  obtain ⟨h1, h2, h3, h4, h5, h6, h7, h8, h9, h10, h11, h12, h13, h14, h15⟩ :=
    ParsePedestrianCostOptions_contains json
  generalize ParsePedestrianCostOptions json = o at *
  refine ⟨h1, h2, h3, h4, h5, h6, ?_, ?_, h9, h10, h11, h12, h13, h14, h15⟩
  · by_cases hw : o.transport_type = "wheelchair"
    · rw [if_pos hw] at h7
      have ht : (PedestrianCost.ctor o).type_ = PedestrianType.kWheelchair := by
        simp only [PedestrianCost.ctor, hw, if_true]
      rw [if_pos ht]
      exact h7
    · rw [if_neg hw] at h7
      have ht : (PedestrianCost.ctor o).type_ ≠ PedestrianType.kWheelchair := by
        simp only [PedestrianCost.ctor, hw, if_false]
        split_ifs <;> decide
      rw [if_neg ht]
      exact h7
  · show kMaxHikingDifficultyRange.contains
      (if (PedestrianCost.ctor o).type_ = PedestrianType.kFoot then o.max_hiking_difficulty
        else 0)
    split_ifs
    · exact h8
    · exact ⟨le_refl _, by decide⟩

/-- C23: `PedestrianCost::Allowed` returns false for an edge without access
for the pedestrian type, for an edge whose surface is worse than the minimal
allowed surface, and for an edge on which the path distance plus the length
of the edge (a `uint32_t` sum) exceeds the maximum distance; but it does not
read the slopes of the edge.  Its result is the same whatever the maximum up
and down slopes are, and the wheelchair costing with a maximum grade of 12
allows the sample edge, which rises by up to 30 percent. -/
theorem Allowed_ignores_max_grade :
    (∀ (c : PedestrianCost) (edge : DirectedEdge) (path_distance : Nat) (user_avoid : Bool)
        (restrictions : List AccessRestriction) (IsRestricted : Nat → Nat → Nat → Bool)
        (current_time tz_index : Nat),
        (edge.forwardaccess &&& c.access_mask_ = 0
          ∨ edge.surface > c.minimal_allowed_surface_
          ∨ (path_distance + edge.length) % 4294967296 > c.max_distance_) →
        c.Allowed edge path_distance user_avoid restrictions IsRestricted current_time tz_index
          = false)
    ∧ (∀ (c : PedestrianCost) (edge : DirectedEdge) (path_distance : Nat) (user_avoid : Bool)
        (restrictions : List AccessRestriction) (IsRestricted : Nat → Nat → Nat → Bool)
        (current_time tz_index up down : Nat),
        c.Allowed { edge with max_up_slope := up, max_down_slope := down } path_distance
            user_avoid restrictions IsRestricted current_time tz_index
          = c.Allowed edge path_distance user_avoid restrictions IsRestricted current_time
              tz_index)
    ∧ wheelchairCost.max_grade_ = 12
    ∧ steepEdge.max_up_slope = 30
    ∧ wheelchairCost.Allowed steepEdge 0 false [] (fun _ _ _ => false) 0 0 = true := by
  refine ⟨?_, fun _ _ _ _ _ _ _ _ _ _ => rfl, by decide, rfl, by decide⟩
  intro c edge path_distance user_avoid restrictions IsRestricted current_time tz_index h
  unfold PedestrianCost.Allowed
  rw [if_pos]
  rcases h with h | h | h
  · exact Or.inl h
  · exact Or.inr (Or.inl h)
  · exact Or.inr (Or.inr (Or.inr (Or.inr (Or.inr h))))

/-- C40: `TransitionCostReverse idx node pred_edge edge` equals
`TransitionCost edge node pred_label` whenever the label's opposing local index
is `idx` and its use is the use of `pred_edge`.  On a steps edge both are the
step penalty with 0 seconds; otherwise both are defined exactly when the
crossing cost is, and then the seconds are the country crossing cost, the
ferry cost and the crossing cost, and the cost is these seconds plus the
country crossing or gate, ferry and maneuver penalties. -/
theorem TransitionCostReverse_eq_TransitionCost (c : PedestrianCost) (idx : Nat)
    (node : NodeInfo) (pred_edge edge : DirectedEdge) (pred_label : EdgeLabel)
    (hidx : pred_label.opp_local_idx = idx) (huse : pred_label.use = pred_edge.use) :
    c.TransitionCostReverse idx node pred_edge edge = c.TransitionCost edge node pred_label
    ∧ (edge.use = Use.kSteps →
        c.TransitionCostReverse idx node pred_edge edge = some ⟨c.step_penalty_, 0⟩)
    ∧ (edge.use ≠ Use.kSteps →
        c.TransitionCostReverse idx node pred_edge edge
          = (transition_crossing edge idx).map fun crossing =>
              ⟨transition_seconds c edge node pred_edge.use + crossing
                  + transition_penalty c edge node pred_edge.use idx,
                transition_seconds c edge node pred_edge.use + crossing⟩) := by
  subst hidx
  refine ⟨?_, ?_, ?_⟩
  · unfold PedestrianCost.TransitionCostReverse PedestrianCost.TransitionCost
    rw [huse]
  · intro hs
    simp [PedestrianCost.TransitionCostReverse, hs]
  · intro hs
    unfold PedestrianCost.TransitionCostReverse transition_crossing transition_seconds
      transition_penalty
    rw [if_neg hs]
    cases kCrossingCosts.get? (edge.stopimpact pred_label.opp_local_idx) <;>
      split_ifs <;> simp [Option.map]

theorem TransitionCostReverse_eq_TransitionCost_witness :
    footwayLabel.opp_local_idx = 2 ∧ footwayLabel.use = footwayEdge.use
    ∧ transitionCosting.TransitionCostReverse 2 borderNode footwayEdge ferryEdge
        = some ⟨930, 915⟩
    ∧ transitionCosting.TransitionCost ferryEdge borderNode footwayLabel
        = some ⟨930, 915⟩ := by
  have h := TransitionCostReverse_eq_TransitionCost transitionCosting 2 borderNode
    footwayEdge ferryEdge footwayLabel rfl rfl
  have hr : transitionCosting.TransitionCostReverse 2 borderNode footwayEdge ferryEdge
      = some ⟨930, 915⟩ := by
    simp [PedestrianCost.TransitionCostReverse, transitionCosting, borderNode, footwayEdge,
      ferryEdge, kCrossingCosts]
    norm_num
  exact ⟨rfl, rfl, hr, h.1 ▸ hr⟩

end Sif
end Valhalla
